import Mathlib

/-!
# Multi-person pose decoding (`demo/exec/multiPose.cpp`)

A shallow embedding of the decoding core of `multiPose.cpp` and the proofs of
its specified properties.

Conventions of the embedding:

* C `float` values are rational numbers (`ℚ`); there is no infinity and no NaN.
  The functions that compute with floats are embedded twice. In the first
  embedding the arithmetic is exact, without rounding. In the second, whose names
  end in `F`, the arithmetic of the type `float` is a parameter `F : Arith`: what is
  proved for every `F` holds for the rounded operations of binary32, which
  `float32` gives on the finite floats. With `F = exactArith` the second embedding
  is the first.
* C `int` values are integers (`Int`); the tensors of the program are far too
  small for 32-bit overflow to occur in the index arithmetic.
* `std::vector` values are lists; `v[i]` is `List.getD` and `v[i] = a` is
  `List.set`.
-/

namespace MultiPose

/-! ## Constants (`#define`s of the source) -/

def OUTPUT_STRIDE : Int := 16
def MAX_POSE_DETECTIONS : Nat := 10
def NUM_KEYPOINTS : Nat := 17
def SCORE_THRESHOLD : ℚ := 1 / 2
def MIN_POSE_SCORE : ℚ := 1 / 4
def NMS_RADIUS : Int := 20
def LOCAL_MAXIMUM_RADIUS : Int := 1

/-! ## Data model -/

/-- `CV::Point`: a pair of float coordinates. -/
structure Point where
  fX : ℚ
  fY : ℚ
deriving DecidableEq, Repr

instance : Inhabited Point := ⟨⟨0, 0⟩⟩

/-- Modelled from the spec: the `Tensor` class of MNN (its header is not part of
the sources). A tensor is a dense `[1, c, h, w]` float buffer, as
`getCoordsFromTensor` requires and as `maximumFilter` assumes: `host` is the
flat buffer, read by index. -/
structure Tensor where
  channel : Int
  height : Int
  width : Int
  host : Int → ℚ

/-- The strides of a dense `[1, c, h, w]` buffer: `stride(1) = h * w`,
`stride(2) = w`. -/
def Tensor.stride (t : Tensor) (axis : Nat) : Int :=
  match axis with
  | 0 => t.channel * t.height * t.width
  | 1 => t.height * t.width
  | 2 => t.width
  | _ => 1

/-- The read accessor by (channel, row, col) of the tensor view. -/
def Tensor.read (t : Tensor) (c y x : Int) : ℚ :=
  t.host (c * t.stride 1 + y * t.stride 2 + x)

/-- The candidate record `partsType`: keypoint id, score, grid coordinate. -/
structure Part where
  id : Nat
  score : ℚ
  coord : Point
deriving DecidableEq, Repr

/-! ## Numeric helpers -/

/-- The function `clip` of the source; the parameter `min` (here `_min`) is not used by the
body, which compares with the literal `0`. -/
def clip (value _min max : ℚ) : ℚ :=
  if value < 0 then 0
  else if value > max then max
  else value

/-- C `round`: to the nearest integer, halfway cases away from zero. -/
def round (v : ℚ) : ℚ :=
  if v < 0 then -((⌊-v + 1 / 2⌋ : Int) : ℚ) else ((⌊v + 1 / 2⌋ : Int) : ℚ)

/-- The conversion `static_cast<int>` / `(int)` of a float: truncation toward
zero. -/
def toInt (v : ℚ) : Int :=
  if v < 0 then -⌊-v⌋ else ⌊v⌋

/-- `powf(a, 2)`. -/
def powf2 (a : ℚ) : ℚ := a * a

/-! ## `getCoordsFromTensor` -/

def getCoordsFromTensor (dataTensor : Tensor) (id x y : Int) (getCoord : Bool) : Point :=
  let xOffset := dataTensor.channel / 2
  let indexPlane := y * dataTensor.stride 2 + x
  let indexY := id * dataTensor.stride 1 + indexPlane
  let indexX := (id + xOffset) * dataTensor.stride 1 + indexPlane
  if getCoord then ⟨dataTensor.host indexX, dataTensor.host indexY⟩
  else ⟨0, dataTensor.host indexY⟩

/-! ## `withinNMSRadius` and `getInstanceScore` -/

def squareNMSRadius : Int := NMS_RADIUS * NMS_RADIUS

/-- The lambda `withinNMSRadius`; the captured `poseKeypointCoords` is an explicit
argument. The loop leaves at the first accepted instance within the radius. -/
def withinNMSRadius (poseKeypointCoords : List (List Point)) (point : Point) (id : Nat) : Bool :=
  match poseKeypointCoords with
  | [] => false
  | cur :: rest =>
    let curPoint := cur.getD id default
    let sum := powf2 (curPoint.fX - point.fX) + powf2 (curPoint.fY - point.fY)
    if sum ≤ (squareNMSRadius : ℚ) then true
    else withinNMSRadius rest point id

/-- The first loop of `getInstanceScore` (no accepted pose): ids `i`, `i+1`, ...
for `n` iterations. -/
def sumAllScores (instanceKeypointScores : List ℚ) : Nat → Nat → ℚ → ℚ
  | 0, _, acc => acc
  | n + 1, i, acc =>
    sumAllScores instanceKeypointScores n (i + 1) (acc + instanceKeypointScores.getD i 0)

/-- The second loop of `getInstanceScore`: only the keypoints that are not within
the NMS radius of an accepted pose are added. -/
def sumNotOverlapped (poseKeypointCoords : List (List Point)) (instanceKeypointScores : List ℚ)
    (instanceKeypointCoords : List Point) : Nat → Nat → ℚ → ℚ
  | 0, _, acc => acc
  | n + 1, id, acc =>
    sumNotOverlapped poseKeypointCoords instanceKeypointScores instanceKeypointCoords n (id + 1)
      (if !withinNMSRadius poseKeypointCoords (instanceKeypointCoords.getD id default) id
        then acc + instanceKeypointScores.getD id 0 else acc)

/-- The lambda `getInstanceScore`; the captured vectors are explicit arguments. -/
def getInstanceScore (poseKeypointCoords : List (List Point)) (instanceKeypointScores : List ℚ)
    (instanceKeypointCoords : List Point) : ℚ :=
  let poseNums := poseKeypointCoords.length
  let notOverlappedScores :=
    if poseNums = 0 then sumAllScores instanceKeypointScores NUM_KEYPOINTS 0 0
    else sumNotOverlapped poseKeypointCoords instanceKeypointScores instanceKeypointCoords
      NUM_KEYPOINTS 0 0
  notOverlappedScores / (NUM_KEYPOINTS : ℚ)


/-! ## `maximumFilter` -/

/-- The values `-R, ..., R` of the loops `for (i = -R; i < R + 1; ++i)`. -/
def radiusRange : List Int :=
  (List.range (2 * LOCAL_MAXIMUM_RADIUS + 1).toNat).map (fun k => -LOCAL_MAXIMUM_RADIUS + (k : Int))

/-- The value compared with `maxValue` at the neighbour `(yCoord, xCoord)`: the
buffer cell when the neighbour is on the grid, `0.0f` otherwise. -/
def neighbourValue (startPtr : Int → ℚ) (width height yCoord xCoord : Int) : ℚ :=
  if yCoord ≥ 0 ∧ yCoord < height ∧ xCoord ≥ 0 ∧ xCoord < width then
    startPtr (yCoord * width + xCoord)
  else 0

/-- The loop over `j` of `maximumFilter`, for one `i`: at the first neighbour
greater than `maxValue` the flag is cleared and the loop is left (`break`). -/
def innerLoop (startPtr : Int → ℚ) (width height : Int) (maxValue : ℚ) (y x i : Int) :
    List Int → Bool → Bool
  | [], isMaxVaule => isMaxVaule
  | j :: js, isMaxVaule =>
    let value := neighbourValue startPtr width height (y + i) (x + j)
    if maxValue < value then false
    else innerLoop startPtr width height maxValue y x i js isMaxVaule

/-- The loop over `i` of `maximumFilter`; the `break` of the loop over `j` does not
leave it. -/
def outerLoop (startPtr : Int → ℚ) (width height : Int) (maxValue : ℚ) (y x : Int) :
    List Int → Bool → Bool
  | [], isMaxVaule => isMaxVaule
  | i :: is, isMaxVaule =>
    outerLoop startPtr width height maxValue y x is
      (innerLoop startPtr width height maxValue y x i radiusRange isMaxVaule)

/-- The body of the loops over `y` and `x` of `maximumFilter`. -/
def maximumFilterCell (width height : Int) (id : Nat) (startPtr : Int → ℚ) (y x : Int)
    (parts : List Part) : List Part :=
  let maxValue := startPtr (y * width + x)
  let isMaxVaule := outerLoop startPtr width height maxValue y x radiusRange true
  if isMaxVaule && decide (maxValue ≥ SCORE_THRESHOLD) then
    parts ++ [⟨id, maxValue, ⟨(x : ℚ), (y : ℚ)⟩⟩]
  else parts

/-- The lambda `maximumFilter`; the captured `parts` is threaded through. -/
def maximumFilter (width height : Int) (id : Nat) (startPtr : Int → ℚ) (parts : List Part) :
    List Part :=
  (List.range height.toNat).foldl
    (fun (parts : List Part) (y : Nat) =>
      (List.range width.toNat).foldl
        (fun (parts : List Part) (x : Nat) =>
          maximumFilterCell width height id startPtr (y : Int) (x : Int) parts)
        parts)
    parts

/-- The loop `for (id = 0; id < channel; ++id)` of `decodeMultiPose` that fills
`parts`; `idScoresPtr = scoresPtr + id * width * height`. -/
def extractParts (heatmaps : Tensor) : List Part :=
  (List.range heatmaps.channel.toNat).foldl
    (fun (parts : List Part) (id : Nat) =>
      maximumFilter heatmaps.width heatmaps.height id
        (fun k => heatmaps.host ((id : Int) * heatmaps.width * heatmaps.height + k)) parts)
    []

/-! ## `decodePoseImpl` -/

/-- The lambda `traverseToTargetKeypoint` of `decodePoseImpl`; the captured
`heatmaps` and `offsets` are explicit arguments. -/
def traverseToTargetKeypoint (heatmaps offsets : Tensor) (edgeId : Int)
    (sourcekeypointCoord : Point) (targetKeypointId : Int) (displacement : Tensor) : ℚ × Point :=
  let height := heatmaps.height
  let width := heatmaps.width
  let sourceKeypointIndicesX :=
    toInt (clip (round (sourcekeypointCoord.fX / (OUTPUT_STRIDE : ℚ))) 0 ((width - 1 : Int) : ℚ))
  let sourceKeypointIndicesY :=
    toInt (clip (round (sourcekeypointCoord.fY / (OUTPUT_STRIDE : ℚ))) 0 ((height - 1 : Int) : ℚ))
  let displacementCoord :=
    getCoordsFromTensor displacement edgeId sourceKeypointIndicesX sourceKeypointIndicesY true
  let displacedPointX := sourcekeypointCoord.fX + displacementCoord.fX
  let displacedPointY := sourcekeypointCoord.fY + displacementCoord.fY
  let displacedPointIndicesX :=
    toInt (clip (round (displacedPointX / (OUTPUT_STRIDE : ℚ))) 0 ((width - 1 : Int) : ℚ))
  let displacedPointIndicesY :=
    toInt (clip (round (displacedPointY / (OUTPUT_STRIDE : ℚ))) 0 ((height - 1 : Int) : ℚ))
  let score :=
    (getCoordsFromTensor heatmaps targetKeypointId displacedPointIndicesX displacedPointIndicesY
      false).fY
  let offset :=
    getCoordsFromTensor offsets targetKeypointId displacedPointIndicesX displacedPointIndicesY true
  (score, ⟨((displacedPointIndicesX * OUTPUT_STRIDE : Int) : ℚ) + offset.fX,
           ((displacedPointIndicesY * OUTPUT_STRIDE : Int) : ℚ) + offset.fY⟩)

/-- The pair of vectors `instanceKeypointScores`, `instanceKeypointCoords`. -/
structure Instance where
  scores : List ℚ
  coords : List Point
deriving DecidableEq, Repr

/-- The table `PoseChain` with its names resolved by `poseNamesID`: the pairs
`(poseNamesID[first], poseNamesID[second])`, in the order of the table. The table
itself is declared in `PoseNames.hpp`, which is not part of the sources, and is a
parameter of the functions that use it. -/
abbrev Chain := List (Nat × Nat)

/-- The body of the first loop of `decodePoseImpl` (edges from last to first): the
target is the `first` end of the edge and the source its `second` end. -/
def backwardEdge (heatmaps offsets displacementBwd : Tensor) (chain : Chain) (edge : Nat)
    (inst : Instance) : Instance :=
  let targetKeypointID := (chain.getD edge (0, 0)).1
  let sourceKeypointID := (chain.getD edge (0, 0)).2
  if inst.scores.getD sourceKeypointID 0 > 0 ∧ inst.scores.getD targetKeypointID 0 = 0 then
    let curInstance := traverseToTargetKeypoint heatmaps offsets edge
      (inst.coords.getD sourceKeypointID default) targetKeypointID displacementBwd
    ⟨inst.scores.set targetKeypointID curInstance.1, inst.coords.set targetKeypointID curInstance.2⟩
  else inst

/-- The loop `for (edge = PoseChain.size() - 1; edge >= 0; --edge)`: the argument
is `edge + 1`. -/
def backwardLoop (heatmaps offsets displacementBwd : Tensor) (chain : Chain) :
    Nat → Instance → Instance
  | 0, inst => inst
  | edge + 1, inst =>
    backwardLoop heatmaps offsets displacementBwd chain edge
      (backwardEdge heatmaps offsets displacementBwd chain edge inst)

/-- The body of the second loop of `decodePoseImpl` (edges from first to last): the
source is the `first` end of the edge and the target its `second` end. -/
def forwardEdge (heatmaps offsets displacementFwd : Tensor) (chain : Chain) (edge : Nat)
    (inst : Instance) : Instance :=
  let sourceKeypointID := (chain.getD edge (0, 0)).1
  let targetKeypointID := (chain.getD edge (0, 0)).2
  if inst.scores.getD sourceKeypointID 0 > 0 ∧ inst.scores.getD targetKeypointID 0 = 0 then
    let curInstance := traverseToTargetKeypoint heatmaps offsets edge
      (inst.coords.getD sourceKeypointID default) targetKeypointID displacementFwd
    ⟨inst.scores.set targetKeypointID curInstance.1, inst.coords.set targetKeypointID curInstance.2⟩
  else inst

/-- The loop `for (edge = 0; edge < PoseChain.size(); ++edge)`: `remaining` is
`PoseChain.size() - edge`, the number of iterations left. -/
def forwardLoop (heatmaps offsets displacementFwd : Tensor) (chain : Chain) :
    Nat → Nat → Instance → Instance
  | 0, _, inst => inst
  | remaining + 1, edge, inst =>
    forwardLoop heatmaps offsets displacementFwd chain remaining (edge + 1)
      (forwardEdge heatmaps offsets displacementFwd chain edge inst)

/-- The function `decodePoseImpl`. The assertion on the size of `PoseChain` is a
precondition and not part of the computation. -/
def decodePoseImpl (chain : Chain) (curScore : ℚ) (curId : Nat) (originalOnImageCoords : Point)
    (heatmaps offsets displacementFwd displacementBwd : Tensor) (inst : Instance) : Instance :=
  let inst : Instance :=
    ⟨inst.scores.set curId curScore, inst.coords.set curId originalOnImageCoords⟩
  let inst := backwardLoop heatmaps offsets displacementBwd chain chain.length inst
  forwardLoop heatmaps offsets displacementFwd chain chain.length 0 inst

/-! ## `decodeMultiPose` -/

/-- The three output vectors of `decodeMultiPose`: `poseScores`,
`poseKeypointScores`, `poseKeypointCoords`. -/
structure PoseSet where
  poseScores : List ℚ
  poseKeypointScores : List (List ℚ)
  poseKeypointCoords : List (List Point)
deriving DecidableEq, Repr

/-- The image coordinate `originalOnImageCoords` of a candidate (the first
statements of the body of the main loop of `decodeMultiPose`). -/
def seedCoords (offsets : Tensor) (part : Part) : Point :=
  let curId := part.id
  let curPoint := part.coord
  let offsetXY := getCoordsFromTensor offsets curId (toInt curPoint.fX) (toInt curPoint.fY) true
  ⟨curPoint.fX * (OUTPUT_STRIDE : ℚ) + offsetXY.fX, curPoint.fY * (OUTPUT_STRIDE : ℚ) + offsetXY.fY⟩

/-- The instance vectors after the two `memset`: `NUM_KEYPOINTS` zero scores and
zero points. -/
def zeroInstance : Instance :=
  ⟨List.replicate NUM_KEYPOINTS 0, List.replicate NUM_KEYPOINTS ⟨0, 0⟩⟩

/-- The instance decoded from a candidate that passed the seed test. -/
def decodeInstance (chain : Chain) (offsets displacementFwd displacementBwd heatmaps : Tensor)
    (part : Part) : Instance :=
  decodePoseImpl chain part.score part.id (seedCoords offsets part) heatmaps offsets
    displacementFwd displacementBwd zeroInstance

/-- The loop `for (const auto& part : parts)` of `decodeMultiPose`, on the state
`poseCount` and the output vectors. -/
def decodeLoop (chain : Chain) (offsets displacementFwd displacementBwd heatmaps : Tensor) :
    List Part → Nat → PoseSet → Nat × PoseSet
  | [], poseCount, out => (poseCount, out)
  | part :: rest, poseCount, out =>
    if poseCount ≥ MAX_POSE_DETECTIONS then (poseCount, out)
    else
      let originalOnImageCoords := seedCoords offsets part
      if withinNMSRadius out.poseKeypointCoords originalOnImageCoords part.id then
        decodeLoop chain offsets displacementFwd displacementBwd heatmaps rest poseCount out
      else
        let inst := decodeInstance chain offsets displacementFwd displacementBwd heatmaps part
        let poseScore := getInstanceScore out.poseKeypointCoords inst.scores inst.coords
        if poseScore > MIN_POSE_SCORE then
          decodeLoop chain offsets displacementFwd displacementBwd heatmaps rest (poseCount + 1)
            ⟨out.poseScores ++ [poseScore], out.poseKeypointScores ++ [inst.scores],
              out.poseKeypointCoords ++ [inst.coords]⟩
        else
          decodeLoop chain offsets displacementFwd displacementBwd heatmaps rest poseCount out

/-- The loop over `id` of the final scaling, applied to `poseKeypointCoords[i]`. -/
def scaleKeypoints (scale : Point) (i : Nat) :
    Nat → Nat → List (List Point) → List (List Point)
  | 0, _, coords => coords
  | remaining + 1, id, coords =>
    let p := (coords.getD i []).getD id default
    scaleKeypoints scale i remaining (id + 1)
      (coords.set i ((coords.getD i []).set id ⟨p.fX * scale.fX, p.fY * scale.fY⟩))

/-- The loop `for (i = 0; i < poseCount; ++i)` of the final scaling. -/
def scalePoses (scale : Point) : Nat → Nat → List (List Point) → List (List Point)
  | 0, _, coords => coords
  | remaining + 1, i, coords =>
    scalePoses scale remaining (i + 1) (scaleKeypoints scale i NUM_KEYPOINTS 0 coords)

/-- The function `decodeMultiPose`. `sort` stands for the call of `std::sort`,
which orders `parts` by decreasing score and leaves the order of equal scores
open; `chain` is the resolved table `PoseChain`. The output vectors are passed in
and returned. -/
def decodeMultiPose (sort : List Part → List Part) (chain : Chain)
    (offsets displacementFwd displacementBwd heatmaps : Tensor) (out : PoseSet) (scale : Point) :
    PoseSet :=
  let parts := sort (extractParts heatmaps)
  let r := decodeLoop chain offsets displacementFwd displacementBwd heatmaps parts 0 out
  ⟨r.2.poseScores, r.2.poseKeypointScores, scalePoses scale r.1 0 r.2.poseKeypointCoords⟩

/-- The output vectors as `main` passes them: empty. -/
def emptyPoseSet : PoseSet := ⟨[], [], []⟩

/-! ## The arithmetic of the type `float` -/

/-- The operations of the C type `float` that the decoder uses, on finite values (a
finite `float` is a rational number): the sum, the difference, the product and the
quotient of two floats, and `powf(a, 2)`. Each operation returns the float that the
machine operation returns, the exact result rounded. An operation whose result is
beyond the largest finite float is outside the model. -/
structure Arith where
  add : ℚ → ℚ → ℚ
  sub : ℚ → ℚ → ℚ
  mul : ℚ → ℚ → ℚ
  div : ℚ → ℚ → ℚ
  powf2 : ℚ → ℚ

/-- The arithmetic without rounding. -/
def exactArith : Arith :=
  ⟨fun a b => a + b, fun a b => a - b, fun a b => a * b, fun a b => a / b, fun a => a * a⟩

/-- The power of two of an integer exponent. -/
def pow2 (e : Int) : ℚ :=
  if e ≥ 0 then ((2 ^ e.toNat : Nat) : ℚ) else 1 / ((2 ^ (-e).toNat : Nat) : ℚ)

/-- The binary logarithm of a natural number, rounded down (0 for 0), by halving;
`fuel` bounds the number of halvings. -/
def log2Nat : Nat → Nat → Nat
  | 0, _ => 0
  | fuel + 1, n => if n < 2 then 0 else log2Nat fuel (n / 2) + 1

/-- The exponent of a positive rational: the greatest `e` with `2 ^ e ≤ a`. -/
def floorLog2 (a : ℚ) : Int :=
  let c : Int := (log2Nat a.num.natAbs a.num.natAbs : Int) - (log2Nat a.den a.den : Int)
  if pow2 c ≤ a then c else c - 1

/-- The integer nearest to a rational that is not negative, the even one of the
two when it lies halfway between them. -/
def roundToEven (n : ℚ) : Int :=
  let m : Int := ⌊n⌋
  if n - (m : ℚ) < 1 / 2 then m
  else if n - (m : ℚ) > 1 / 2 then m + 1
  else if m % 2 = 0 then m else m + 1

/-- The rounding of IEEE 754 binary32, to nearest with ties to even, of a rational
within the range of the finite floats: 24 significant bits, and the spacing
`2 ^ -149` below `2 ^ -126`. -/
def roundFloat (q : ℚ) : ℚ :=
  if q = 0 then 0
  else
    let a := if q < 0 then -q else q
    let e := max (floorLog2 a) (-126)
    let ulp := pow2 (e - 23)
    let m := ((roundToEven (a / ulp) : Int) : ℚ) * ulp
    if q < 0 then -m else m

/-- The arithmetic of binary32: each operation is the exact operation followed by
the rounding; `powf(a, 2)` is the rounded square. The divisors of the program are 16
and 17, never 0. -/
def float32 : Arith :=
  ⟨fun a b => roundFloat (a + b), fun a b => roundFloat (a - b), fun a b => roundFloat (a * b),
    fun a b => roundFloat (a / b), fun a => roundFloat (a * a)⟩

/-! ## The decoder in `float` arithmetic

The functions of the source that compute with floats, with the arithmetic `F` of
the type `float` as a parameter: every `+`, `-`, `*`, `/` and `powf` of the source
on float operands is the operation of `F`. The comparisons, `round`, `clip` and
the conversions between `int` and `float` are exact on the values of the
program. -/

/-- The lambda `withinNMSRadius` in the arithmetic `F`; the captured
`poseKeypointCoords` is an explicit argument. The loop leaves at the first
accepted instance within the radius. -/
def withinNMSRadiusF (F : Arith) (poseKeypointCoords : List (List Point)) (point : Point)
    (id : Nat) : Bool :=
  match poseKeypointCoords with
  | [] => false
  | cur :: rest =>
    let curPoint := cur.getD id default
    let sum := F.add (F.powf2 (F.sub curPoint.fX point.fX)) (F.powf2 (F.sub curPoint.fY point.fY))
    if sum ≤ (squareNMSRadius : ℚ) then true
    else withinNMSRadiusF F rest point id

/-- The first loop of `getInstanceScore` (no accepted pose) in the arithmetic `F`:
ids `i`, `i+1`, ... for `n` iterations. -/
def sumAllScoresF (F : Arith) (instanceKeypointScores : List ℚ) : Nat → Nat → ℚ → ℚ
  | 0, _, acc => acc
  | n + 1, i, acc =>
    sumAllScoresF F instanceKeypointScores n (i + 1) (F.add acc (instanceKeypointScores.getD i 0))

/-- The second loop of `getInstanceScore` in the arithmetic `F`: only the keypoints
that are not within the NMS radius of an accepted pose are added. -/
def sumNotOverlappedF (F : Arith) (poseKeypointCoords : List (List Point))
    (instanceKeypointScores : List ℚ) (instanceKeypointCoords : List Point) : Nat → Nat → ℚ → ℚ
  | 0, _, acc => acc
  | n + 1, id, acc =>
    sumNotOverlappedF F poseKeypointCoords instanceKeypointScores instanceKeypointCoords n (id + 1)
      (if !withinNMSRadiusF F poseKeypointCoords (instanceKeypointCoords.getD id default) id
        then F.add acc (instanceKeypointScores.getD id 0) else acc)

/-- The lambda `getInstanceScore` in the arithmetic `F`; the captured vectors are
explicit arguments. -/
def getInstanceScoreF (F : Arith) (poseKeypointCoords : List (List Point))
    (instanceKeypointScores : List ℚ) (instanceKeypointCoords : List Point) : ℚ :=
  let poseNums := poseKeypointCoords.length
  let notOverlappedScores :=
    if poseNums = 0 then sumAllScoresF F instanceKeypointScores NUM_KEYPOINTS 0 0
    else sumNotOverlappedF F poseKeypointCoords instanceKeypointScores instanceKeypointCoords
      NUM_KEYPOINTS 0 0
  F.div notOverlappedScores (NUM_KEYPOINTS : ℚ)

/-- The lambda `traverseToTargetKeypoint` of `decodePoseImpl` in the arithmetic `F`;
the captured `heatmaps` and `offsets` are explicit arguments. -/
def traverseToTargetKeypointF (F : Arith) (heatmaps offsets : Tensor) (edgeId : Int)
    (sourcekeypointCoord : Point) (targetKeypointId : Int) (displacement : Tensor) : ℚ × Point :=
  let height := heatmaps.height
  let width := heatmaps.width
  let sourceKeypointIndicesX :=
    toInt (clip (round (F.div sourcekeypointCoord.fX (OUTPUT_STRIDE : ℚ))) 0
      ((width - 1 : Int) : ℚ))
  let sourceKeypointIndicesY :=
    toInt (clip (round (F.div sourcekeypointCoord.fY (OUTPUT_STRIDE : ℚ))) 0
      ((height - 1 : Int) : ℚ))
  let displacementCoord :=
    getCoordsFromTensor displacement edgeId sourceKeypointIndicesX sourceKeypointIndicesY true
  let displacedPointX := F.add sourcekeypointCoord.fX displacementCoord.fX
  let displacedPointY := F.add sourcekeypointCoord.fY displacementCoord.fY
  let displacedPointIndicesX :=
    toInt (clip (round (F.div displacedPointX (OUTPUT_STRIDE : ℚ))) 0 ((width - 1 : Int) : ℚ))
  let displacedPointIndicesY :=
    toInt (clip (round (F.div displacedPointY (OUTPUT_STRIDE : ℚ))) 0 ((height - 1 : Int) : ℚ))
  let score :=
    (getCoordsFromTensor heatmaps targetKeypointId displacedPointIndicesX displacedPointIndicesY
      false).fY
  let offset :=
    getCoordsFromTensor offsets targetKeypointId displacedPointIndicesX displacedPointIndicesY true
  (score, ⟨F.add ((displacedPointIndicesX * OUTPUT_STRIDE : Int) : ℚ) offset.fX,
           F.add ((displacedPointIndicesY * OUTPUT_STRIDE : Int) : ℚ) offset.fY⟩)

/-- The body of the first loop of `decodePoseImpl` in the arithmetic `F` (edges from
last to first): the target is the `first` end of the edge and the source its
`second` end. -/
def backwardEdgeF (F : Arith) (heatmaps offsets displacementBwd : Tensor) (chain : Chain)
    (edge : Nat) (inst : Instance) : Instance :=
  let targetKeypointID := (chain.getD edge (0, 0)).1
  let sourceKeypointID := (chain.getD edge (0, 0)).2
  if inst.scores.getD sourceKeypointID 0 > 0 ∧ inst.scores.getD targetKeypointID 0 = 0 then
    let curInstance := traverseToTargetKeypointF F heatmaps offsets edge
      (inst.coords.getD sourceKeypointID default) targetKeypointID displacementBwd
    ⟨inst.scores.set targetKeypointID curInstance.1, inst.coords.set targetKeypointID curInstance.2⟩
  else inst

/-- The loop `for (edge = PoseChain.size() - 1; edge >= 0; --edge)` in the
arithmetic `F`: the argument is `edge + 1`. -/
def backwardLoopF (F : Arith) (heatmaps offsets displacementBwd : Tensor) (chain : Chain) :
    Nat → Instance → Instance
  | 0, inst => inst
  | edge + 1, inst =>
    backwardLoopF F heatmaps offsets displacementBwd chain edge
      (backwardEdgeF F heatmaps offsets displacementBwd chain edge inst)

/-- The body of the second loop of `decodePoseImpl` in the arithmetic `F` (edges
from first to last): the source is the `first` end of the edge and the target its
`second` end. -/
def forwardEdgeF (F : Arith) (heatmaps offsets displacementFwd : Tensor) (chain : Chain)
    (edge : Nat) (inst : Instance) : Instance :=
  let sourceKeypointID := (chain.getD edge (0, 0)).1
  let targetKeypointID := (chain.getD edge (0, 0)).2
  if inst.scores.getD sourceKeypointID 0 > 0 ∧ inst.scores.getD targetKeypointID 0 = 0 then
    let curInstance := traverseToTargetKeypointF F heatmaps offsets edge
      (inst.coords.getD sourceKeypointID default) targetKeypointID displacementFwd
    ⟨inst.scores.set targetKeypointID curInstance.1, inst.coords.set targetKeypointID curInstance.2⟩
  else inst

/-- The loop `for (edge = 0; edge < PoseChain.size(); ++edge)` in the arithmetic
`F`: `remaining` is `PoseChain.size() - edge`, the number of iterations left. -/
def forwardLoopF (F : Arith) (heatmaps offsets displacementFwd : Tensor) (chain : Chain) :
    Nat → Nat → Instance → Instance
  | 0, _, inst => inst
  | remaining + 1, edge, inst =>
    forwardLoopF F heatmaps offsets displacementFwd chain remaining (edge + 1)
      (forwardEdgeF F heatmaps offsets displacementFwd chain edge inst)

/-- The function `decodePoseImpl` in the arithmetic `F`. -/
def decodePoseImplF (F : Arith) (chain : Chain) (curScore : ℚ) (curId : Nat)
    (originalOnImageCoords : Point)
    (heatmaps offsets displacementFwd displacementBwd : Tensor) (inst : Instance) : Instance :=
  let inst : Instance :=
    ⟨inst.scores.set curId curScore, inst.coords.set curId originalOnImageCoords⟩
  let inst := backwardLoopF F heatmaps offsets displacementBwd chain chain.length inst
  forwardLoopF F heatmaps offsets displacementFwd chain chain.length 0 inst

/-- The image coordinate `originalOnImageCoords` of a candidate in the arithmetic
`F` (the first statements of the body of the main loop of `decodeMultiPose`). -/
def seedCoordsF (F : Arith) (offsets : Tensor) (part : Part) : Point :=
  let curId := part.id
  let curPoint := part.coord
  let offsetXY := getCoordsFromTensor offsets curId (toInt curPoint.fX) (toInt curPoint.fY) true
  ⟨F.add (F.mul curPoint.fX (OUTPUT_STRIDE : ℚ)) offsetXY.fX,
    F.add (F.mul curPoint.fY (OUTPUT_STRIDE : ℚ)) offsetXY.fY⟩

/-- The instance decoded in the arithmetic `F` from a candidate that passed the
seed test. -/
def decodeInstanceF (F : Arith) (chain : Chain)
    (offsets displacementFwd displacementBwd heatmaps : Tensor) (part : Part) : Instance :=
  decodePoseImplF F chain part.score part.id (seedCoordsF F offsets part) heatmaps offsets
    displacementFwd displacementBwd zeroInstance

/-- The loop `for (const auto& part : parts)` of `decodeMultiPose` in the arithmetic
`F`, on the state `poseCount` and the output vectors. -/
def decodeLoopF (F : Arith) (chain : Chain)
    (offsets displacementFwd displacementBwd heatmaps : Tensor) :
    List Part → Nat → PoseSet → Nat × PoseSet
  | [], poseCount, out => (poseCount, out)
  | part :: rest, poseCount, out =>
    if poseCount ≥ MAX_POSE_DETECTIONS then (poseCount, out)
    else
      let originalOnImageCoords := seedCoordsF F offsets part
      if withinNMSRadiusF F out.poseKeypointCoords originalOnImageCoords part.id then
        decodeLoopF F chain offsets displacementFwd displacementBwd heatmaps rest poseCount out
      else
        let inst := decodeInstanceF F chain offsets displacementFwd displacementBwd heatmaps part
        let poseScore := getInstanceScoreF F out.poseKeypointCoords inst.scores inst.coords
        if poseScore > MIN_POSE_SCORE then
          decodeLoopF F chain offsets displacementFwd displacementBwd heatmaps rest (poseCount + 1)
            ⟨out.poseScores ++ [poseScore], out.poseKeypointScores ++ [inst.scores],
              out.poseKeypointCoords ++ [inst.coords]⟩
        else
          decodeLoopF F chain offsets displacementFwd displacementBwd heatmaps rest poseCount out

/-- The loop over `id` of the final scaling in the arithmetic `F`, applied to
`poseKeypointCoords[i]`. -/
def scaleKeypointsF (F : Arith) (scale : Point) (i : Nat) :
    Nat → Nat → List (List Point) → List (List Point)
  | 0, _, coords => coords
  | remaining + 1, id, coords =>
    let p := (coords.getD i []).getD id default
    scaleKeypointsF F scale i remaining (id + 1)
      (coords.set i ((coords.getD i []).set id ⟨F.mul p.fX scale.fX, F.mul p.fY scale.fY⟩))

/-- The loop `for (i = 0; i < poseCount; ++i)` of the final scaling in the
arithmetic `F`. -/
def scalePosesF (F : Arith) (scale : Point) : Nat → Nat → List (List Point) → List (List Point)
  | 0, _, coords => coords
  | remaining + 1, i, coords =>
    scalePosesF F scale remaining (i + 1) (scaleKeypointsF F scale i NUM_KEYPOINTS 0 coords)

/-- The function `decodeMultiPose` in the arithmetic `F`. `sort` stands for the call
of `std::sort` and `chain` is the resolved table `PoseChain`. The output vectors are
passed in and returned. -/
def decodeMultiPoseF (F : Arith) (sort : List Part → List Part) (chain : Chain)
    (offsets displacementFwd displacementBwd heatmaps : Tensor) (out : PoseSet) (scale : Point) :
    PoseSet :=
  let parts := sort (extractParts heatmaps)
  let r := decodeLoopF F chain offsets displacementFwd displacementBwd heatmaps parts 0 out
  ⟨r.2.poseScores, r.2.poseKeypointScores, scalePosesF F scale r.1 0 r.2.poseKeypointCoords⟩

/-! ## Specification-side definitions -/

/-- The squared Euclidean distance of two points. -/
def sqDist (p q : Point) : ℚ :=
  (p.fX - q.fX) ^ 2 + (p.fY - q.fY) ^ 2

/-- The overlap relation of the specification: some accepted instance has its
keypoint of type `id` at squared distance at most `400` from `point`. -/
def WithinRadius (accepted : List (List Point)) (point : Point) (id : Nat) : Prop :=
  ∃ inst ∈ accepted, sqDist (inst.getD id default) point ≤ 400

instance (accepted : List (List Point)) (point : Point) (id : Nat) :
    Decidable (WithinRadius accepted point id) := by
  unfold WithinRadius; infer_instance

/-- The value of a cell of channel `c` as the local-maximum test sees it: the
tensor value on the grid and `0` outside the grid. -/
def Tensor.readOrZero (t : Tensor) (c y x : Int) : ℚ :=
  if 0 ≤ y ∧ y < t.height ∧ 0 ≤ x ∧ x < t.width then t.read c y x else 0

/-- The candidate condition of the specification for the cell `(c, y, x)` of the
heatmap: the cell is on the grid, its value reaches the score threshold and no
cell within Chebyshev distance 1, with `0` outside the grid, is greater. -/
def IsCandidate (heatmaps : Tensor) (c y x : Int) : Prop :=
  (0 ≤ c ∧ c < heatmaps.channel) ∧ (0 ≤ y ∧ y < heatmaps.height) ∧ (0 ≤ x ∧ x < heatmaps.width)
    ∧ heatmaps.read c y x ≥ 1 / 2
    ∧ ∀ dy dx : Int, -1 ≤ dy → dy ≤ 1 → -1 ≤ dx → dx ≤ 1 →
        heatmaps.read c y x ≥ heatmaps.readOrZero c (y + dy) (x + dx)

/-- The acceptance invariant of the output vectors: they have one length, and each
pose score is greater than `MIN_POSE_SCORE` and is the instance score of its
keypoint vectors against the poses listed before it. -/
def AcceptedOk (out : PoseSet) : Prop :=
  out.poseKeypointScores.length = out.poseScores.length
    ∧ out.poseKeypointCoords.length = out.poseScores.length
    ∧ ∀ i, i < out.poseScores.length →
        out.poseScores.getD i 0 > 1 / 4
          ∧ out.poseScores.getD i 0
              = getInstanceScore (out.poseKeypointCoords.take i) (out.poseKeypointScores.getD i [])
                  (out.poseKeypointCoords.getD i [])

/-- The skeleton of PoseNet: 16 edges over the 17 keypoint types, each edge a pair
(parent, child) of keypoint ids. A value of the table `PoseChain` for the concrete
inputs of this development. -/
def poseChain : Chain :=
  [(0, 1), (1, 3), (0, 2), (2, 4), (0, 5), (5, 7), (7, 9), (5, 11), (11, 13), (13, 15),
   (0, 6), (6, 8), (8, 10), (6, 12), (12, 14), (14, 16)]

/-- The tensor of the given shape whose cells all hold the value `v`. -/
def constTensor (c h w : Int) (v : ℚ) : Tensor := ⟨c, h, w, fun _ => v⟩

/-- Ten candidates of keypoint type 0 with score 0.9, at the cells
`(0, 0), (2, 0), ..., (18, 0)`: their seeds are 32 pixels apart. -/
def tenParts : List Part :=
  (List.range 10).map (fun (k : Nat) => (⟨0, 9 / 10, ⟨2 * (k : ℚ), 0⟩⟩ : Part))

/-- Rounding to the nearest integer, halfway cases away from zero, as an
integer. -/
def roundHalfAway (v : ℚ) : Int :=
  if v < 0 then -⌊-v + 1 / 2⌋ else ⌊v + 1 / 2⌋

/-- The clamp of an integer to the interval from `lo` to `hi`. -/
def clamp (k lo hi : Int) : Int :=
  if k < lo then lo else if k > hi then hi else k

/-- The grid index of a coordinate on an axis of `dim` cells:
`clip(round(v / 16), 0, dim - 1)`. -/
def gridIndex (v : ℚ) (dim : Int) : Int :=
  clamp (roundHalfAway (v / 16)) 0 (dim - 1)

/-- The edge step of a propagation pass as the specification words it, for the
edge `(parent, child)` of index `edge` and the displacement tensor `D`: when the
score of the child is 0 and the score of the parent is not 0, the child is filled by
the propagation step from the coordinate of the parent. -/
def claimedEdge (heatmaps offsets D : Tensor) (chain : Chain) (edge : Nat) (inst : Instance) :
    Instance :=
  let parent := (chain.getD edge (0, 0)).1
  let child := (chain.getD edge (0, 0)).2
  if inst.scores.getD child 0 = 0 ∧ inst.scores.getD parent 0 ≠ 0 then
    let r := traverseToTargetKeypoint heatmaps offsets edge (inst.coords.getD parent default)
      child D
    ⟨inst.scores.set child r.1, inst.coords.set child r.2⟩
  else inst

/-- The instance vectors after `decodePoseImpl` has stored a seed of the given type
with score 0.9 at the point (0, 0). -/
def seededInstance (curId : Nat) : Instance :=
  ⟨zeroInstance.scores.set curId (9 / 10), zeroInstance.coords.set curId ⟨0, 0⟩⟩

/-- A heatmap of 17 channels on a one-cell grid: channel 0 holds -0.5, channel 1
holds 0.9, every other channel holds 0.7. -/
def heatmapExample : Tensor :=
  ⟨17, 1, 1, fun i => if i = 0 then -1 / 2 else if i = 1 then 9 / 10 else 7 / 10⟩

/-- A cell of a tensor: channel, row, column. -/
structure Cell where
  channel : Int
  row : Int
  col : Int
deriving DecidableEq, Repr

/-- The cell lies within the shape of the tensor. -/
def Tensor.inBounds (t : Tensor) (a : Cell) : Prop :=
  (0 ≤ a.channel ∧ a.channel < t.channel) ∧ (0 ≤ a.row ∧ a.row < t.height)
    ∧ (0 ≤ a.col ∧ a.col < t.width)

/-- The cells that a call of `getCoordsFromTensor` reads: `dataPtr[indexX]` is the
cell `(id + xOffset, y, x)` and `dataPtr[indexY]` the cell `(id, y, x)`. -/
def getCoordsFromTensorReads (dataTensor : Tensor) (id x y : Int) (getCoord : Bool) : List Cell :=
  if getCoord then [⟨id + dataTensor.channel / 2, y, x⟩, ⟨id, y, x⟩] else [⟨id, y, x⟩]

/-- The cells that `maximumFilter` can read for the grid cell `(y, x)` of the
channel `id`: the cell itself and the neighbours that pass the test
`yCoord >= 0 && yCoord < height && xCoord >= 0 && xCoord < width` (the `break` can
only skip some of them). -/
def maximumFilterCellReads (width height : Int) (id : Nat) (y x : Int) : List Cell :=
  ⟨id, y, x⟩ :: radiusRange.flatMap (fun i => radiusRange.flatMap (fun j =>
    if y + i ≥ 0 ∧ y + i < height ∧ x + j ≥ 0 ∧ x + j < width then [⟨id, y + i, x + j⟩] else []))

/-- The cells of the heatmap that the calls of `maximumFilter` can read. -/
def maximumFilterReads (heatmaps : Tensor) : List Cell :=
  (List.range heatmaps.channel.toNat).flatMap (fun (id : Nat) =>
    (List.range heatmaps.height.toNat).flatMap (fun (y : Nat) =>
      (List.range heatmaps.width.toNat).flatMap (fun (x : Nat) =>
        maximumFilterCellReads heatmaps.width heatmaps.height id (y : Int) (x : Int))))

/-- The cells of the offsets tensor that the seed localization of a candidate
reads. -/
def seedReads (offsets : Tensor) (part : Part) : List Cell :=
  getCoordsFromTensorReads offsets part.id (toInt part.coord.fX) (toInt part.coord.fY) true

/-- The cells that a call of `traverseToTargetKeypoint` reads, each with the tensor
it is read from: the three calls of `getCoordsFromTensor`, in order. -/
def traverseReads (heatmaps offsets : Tensor) (edgeId : Int) (sourcekeypointCoord : Point)
    (targetKeypointId : Int) (displacement : Tensor) : List (Tensor × Cell) :=
  let height := heatmaps.height
  let width := heatmaps.width
  let sourceKeypointIndicesX :=
    toInt (clip (round (sourcekeypointCoord.fX / (OUTPUT_STRIDE : ℚ))) 0 ((width - 1 : Int) : ℚ))
  let sourceKeypointIndicesY :=
    toInt (clip (round (sourcekeypointCoord.fY / (OUTPUT_STRIDE : ℚ))) 0 ((height - 1 : Int) : ℚ))
  let displacementCoord :=
    getCoordsFromTensor displacement edgeId sourceKeypointIndicesX sourceKeypointIndicesY true
  let displacedPointX := sourcekeypointCoord.fX + displacementCoord.fX
  let displacedPointY := sourcekeypointCoord.fY + displacementCoord.fY
  let displacedPointIndicesX :=
    toInt (clip (round (displacedPointX / (OUTPUT_STRIDE : ℚ))) 0 ((width - 1 : Int) : ℚ))
  let displacedPointIndicesY :=
    toInt (clip (round (displacedPointY / (OUTPUT_STRIDE : ℚ))) 0 ((height - 1 : Int) : ℚ))
  (getCoordsFromTensorReads displacement edgeId sourceKeypointIndicesX sourceKeypointIndicesY
      true).map (fun a => (displacement, a))
    ++ (getCoordsFromTensorReads heatmaps targetKeypointId displacedPointIndicesX
      displacedPointIndicesY false).map (fun a => (heatmaps, a))
    ++ (getCoordsFromTensorReads offsets targetKeypointId displacedPointIndicesX
      displacedPointIndicesY true).map (fun a => (offsets, a))

/-- A heatmap of 17 channels on a grid of 1 row and 2 columns: channel 0 holds 0.9
at column 0 and 0.8 at column 1, every other channel holds 0. -/
def adjacentHeatmap : Tensor :=
  ⟨17, 1, 2, fun i => if i = 0 then 9 / 10 else if i = 1 then 8 / 10 else 0⟩

/-- The keypoint `id` of the pose `i` of a list of keypoint coordinate vectors. -/
def keypointAt (coords : List (List Point)) (i id : Nat) : Point :=
  (coords.getD i []).getD id default

/-- The state of the output vectors at the end of the acceptance loop of
`decodeMultiPose` called with empty output vectors, before the final scaling. -/
def acceptedPoses (sort : List Part → List Part) (chain : Chain)
    (offsets displacementFwd displacementBwd heatmaps : Tensor) : PoseSet :=
  (decodeLoop chain offsets displacementFwd displacementBwd heatmaps
    (sort (extractParts heatmaps)) 0 emptyPoseSet).2

/-- Every keypoint vector of the output has `NUM_KEYPOINTS` entries. -/
def AllSized (out : PoseSet) : Prop :=
  (∀ s ∈ out.poseKeypointScores, s.length = 17) ∧ (∀ c ∈ out.poseKeypointCoords, c.length = 17)

/-- The summand of keypoint type `t` in the score of an instance: 0 when the
keypoint is within the NMS radius of the same keypoint of an accepted pose, the
score of the keypoint otherwise. -/
def contribution (accepted : List (List Point)) (scores : List ℚ) (coords : List Point)
    (t : Nat) : ℚ :=
  if WithinRadius accepted (coords.getD t default) t then 0 else scores.getD t 0

/-- An offsets tensor of 34 channels on a grid of 1 row and 3 columns: the x offset
of the types 9, 10, 15 and 16 (channels 26, 27, 32 and 33) is -32 at column 2, and
every other value is 0. -/
def leafOffsets : Tensor :=
  ⟨34, 1, 3, fun i => if i = 80 ∨ i = 83 ∨ i = 98 ∨ i = 101 then -32 else 0⟩

/-- The common form of the bodies of the two loops of `decodePoseImpl`: when the
score of `source` is positive and the score of `target` is 0, the keypoint `target`
is written with the result of the propagation step from the coordinate of
`source`. -/
def propagateStep (heatmaps offsets D : Tensor) (edge source target : Nat) (inst : Instance) :
    Instance :=
  if inst.scores.getD source 0 > 0 ∧ inst.scores.getD target 0 = 0 then
    ⟨inst.scores.set target
        (traverseToTargetKeypoint heatmaps offsets edge (inst.coords.getD source default) target
          D).1,
      inst.coords.set target
        (traverseToTargetKeypoint heatmaps offsets edge (inst.coords.getD source default) target
          D).2⟩
  else inst

/-- A sort of the candidates by decreasing score: a value of `std::sort` for the
concrete inputs of this development (insertion sort; candidates of equal score keep
their order). -/
def sortByScore (parts : List Part) : List Part :=
  parts.insertionSort (fun p q => p.score ≥ q.score)

/-- An offsets tensor of 34 channels on a grid of 1 row and 3 columns: the x offset
of type 0 (channel 17) is 8 at column 0 and -8 at column 2, and every other value
is 0. The seeds of the candidates of type 0 at the columns 0 and 2 are then at
x = 8 and x = 24. -/
def closeSeedOffsets : Tensor :=
  ⟨34, 1, 3, fun i => if i = 51 then 8 else if i = 53 then -8 else 0⟩

/-- A heatmap of 17 channels on a grid of 1 row and 3 columns: channel 0 holds 0.9,
0 and 0.8 at the columns 0, 1 and 2, and every other channel holds 0. -/
def loneSeedsHeatmap : Tensor :=
  ⟨17, 1, 3, fun i => if i = 0 then 9 / 10 else if i = 2 then 8 / 10 else 0⟩

/-- The skeleton is a tree of 16 edges over the 17 keypoint types, rooted at `root`
and listed from the root outwards: both ends of every edge are keypoint types, no
edge has the root as child, no two edges have the same child, every type other than
the root is the child of an edge, and the parent of every edge is the root or the
child of an earlier edge. -/
def IsRootedTree (chain : Chain) (root : Nat) : Prop :=
  chain.length = 16 ∧ root < 17
    ∧ (∀ e, e < 16 → (chain.getD e (0, 0)).1 < 17 ∧ (chain.getD e (0, 0)).2 < 17
        ∧ (chain.getD e (0, 0)).2 ≠ root)
    ∧ (∀ e, e < 16 → ∀ e', e' < 16 →
        (chain.getD e (0, 0)).2 = (chain.getD e' (0, 0)).2 → e = e')
    ∧ (∀ k, k < 17 → k ≠ root → ∃ e, e < 16 ∧ (chain.getD e (0, 0)).2 = k)
    ∧ (∀ e, e < 16 → (chain.getD e (0, 0)).1 = root
        ∨ ∃ e', e' < e ∧ (chain.getD e' (0, 0)).2 = (chain.getD e (0, 0)).1)

instance (chain : Chain) (root : Nat) : Decidable (IsRootedTree chain root) := by
  unfold IsRootedTree; infer_instance

/-- The keypoint ids written by the first loop of `decodePoseImpl`, in the order of
the writes: an edge adds its target when its test holds. -/
def backwardWrites (heatmaps offsets displacementBwd : Tensor) (chain : Chain) :
    Nat → Instance → List Nat
  | 0, _ => []
  | edge + 1, inst =>
    (if inst.scores.getD (chain.getD edge (0, 0)).2 0 > 0
        ∧ inst.scores.getD (chain.getD edge (0, 0)).1 0 = 0
      then [(chain.getD edge (0, 0)).1] else [])
      ++ backwardWrites heatmaps offsets displacementBwd chain edge
          (backwardEdge heatmaps offsets displacementBwd chain edge inst)

/-- The keypoint ids written by the second loop of `decodePoseImpl`, in the order
of the writes. -/
def forwardWrites (heatmaps offsets displacementFwd : Tensor) (chain : Chain) :
    Nat → Nat → Instance → List Nat
  | 0, _, _ => []
  | remaining + 1, edge, inst =>
    (if inst.scores.getD (chain.getD edge (0, 0)).1 0 > 0
        ∧ inst.scores.getD (chain.getD edge (0, 0)).2 0 = 0
      then [(chain.getD edge (0, 0)).2] else [])
      ++ forwardWrites heatmaps offsets displacementFwd chain remaining (edge + 1)
          (forwardEdge heatmaps offsets displacementFwd chain edge inst)

/-- The keypoint ids written by the two loops of `decodePoseImpl`, the first loop
before the second; the store of the seed before the loops is not listed. -/
def decodePoseImplWrites (chain : Chain) (curScore : ℚ) (curId : Nat)
    (originalOnImageCoords : Point) (heatmaps offsets displacementFwd displacementBwd : Tensor)
    (inst : Instance) : List Nat :=
  let inst : Instance :=
    ⟨inst.scores.set curId curScore, inst.coords.set curId originalOnImageCoords⟩
  backwardWrites heatmaps offsets displacementBwd chain chain.length inst
    ++ forwardWrites heatmaps offsets displacementFwd chain chain.length 0
        (backwardLoop heatmaps offsets displacementBwd chain chain.length inst)

/-- The invariant of the two passes for a seed of type `t` and the list `w` of the
writes made so far: the score vector has 17 entries, no score is negative, the
score of the seed is positive, and a keypoint type has been written once if it is
not the seed and its score is positive, and never otherwise. -/
def PassInvariant (t : Nat) (inst : Instance) (w : List Nat) : Prop :=
  inst.scores.length = 17
    ∧ (∀ k, inst.scores.getD k 0 ≥ 0)
    ∧ inst.scores.getD t 0 > 0
    ∧ ∀ k, k < 17 → w.count k = if k ≠ t ∧ inst.scores.getD k 0 > 0 then 1 else 0

/-- Every value of the heatmap, of 17 channels on a grid of at least one cell, is
positive. -/
def PositiveHeatmap (heatmaps : Tensor) : Prop :=
  heatmaps.channel = 17 ∧ 1 ≤ heatmaps.height ∧ 1 ≤ heatmaps.width
    ∧ ∀ c y x : Int, 0 ≤ c → c < 17 → 0 ≤ y → y < heatmaps.height → 0 ≤ x →
        x < heatmaps.width → heatmaps.read c y x > 0

/-- An offsets tensor of 34 channels on a grid of 1 row and 2 columns: the x offset
of every type (channels 17 to 33) is 4.02 at column 1, and every other value is 0.
A keypoint decoded at column 1 is then at x = 20.02. -/
def nearOffsets : Tensor :=
  ⟨34, 1, 2, fun i => if 35 ≤ i ∧ i % 2 = 1 then 201 / 50 else 0⟩

/-- The value that `withinNMSRadius` compares with the squared radius, for the
keypoint `curPoint` of an accepted instance and the tested `point`: the sum, in the
arithmetic `F`, of the squares of the coordinate differences. -/
def overlapSum (F : Arith) (curPoint point : Point) : ℚ :=
  F.add (F.powf2 (F.sub curPoint.fX point.fX)) (F.powf2 (F.sub curPoint.fY point.fY))

/-- The overlap relation as the program tests it in the arithmetic `F`: for some
accepted instance the sum computed for its keypoint of type `id` and `point` is at
most `400`. -/
def OverlapsF (F : Arith) (accepted : List (List Point)) (point : Point) (id : Nat) : Prop :=
  ∃ inst ∈ accepted, overlapSum F (inst.getD id default) point ≤ 400

instance (F : Arith) (accepted : List (List Point)) (point : Point) (id : Nat) :
    Decidable (OverlapsF F accepted point id) := by
  unfold OverlapsF; infer_instance

/-- The step of keypoint type `t` in the sum of the score of an instance: the
accumulator `acc` is left as it is when the keypoint overlaps an accepted instance,
and the score of the keypoint is added to it in the arithmetic `F` otherwise. -/
def addKeypoint (F : Arith) (accepted : List (List Point)) (scores : List ℚ)
    (coords : List Point) (acc : ℚ) (t : Nat) : ℚ :=
  if OverlapsF F accepted (coords.getD t default) t then acc else F.add acc (scores.getD t 0)

/-- The grid index, on an axis of `dim` cells, of a coordinate divided by the
output stride in the arithmetic `F`: `clip(round(v / 16), 0, dim - 1)`. -/
def gridIndexF (F : Arith) (v : ℚ) (dim : Int) : Int :=
  clamp (roundHalfAway (F.div v 16)) 0 (dim - 1)

/-- The propagation step as the specification words it, in exact arithmetic: the
displacement `d` of edge `e` is read at the grid cell of the source `s`, the target
cell `c` is the grid cell of `s + d`, the score is the heatmap value of channel `t`
at `c` and the coordinate is `c * 16 + off`. -/
def claimedTraverse (heatmaps offsets D : Tensor) (e t : Int) (s : Point) : ℚ × Point :=
  let gx := gridIndex s.fX heatmaps.width
  let gy := gridIndex s.fY heatmaps.height
  let cx := gridIndex (s.fX + D.read (e + D.channel / 2) gy gx) heatmaps.width
  let cy := gridIndex (s.fY + D.read e gy gx) heatmaps.height
  (heatmaps.read t cy cx,
    ⟨(cx : ℚ) * 16 + offsets.read (t + offsets.channel / 2) cy cx,
      (cy : ℚ) * 16 + offsets.read t cy cx⟩)

/-- The state of the output vectors at the end of the acceptance loop of
`decodeMultiPose` in the arithmetic `F`, called with empty output vectors, before
the final scaling. -/
def acceptedPosesF (F : Arith) (sort : List Part → List Part) (chain : Chain)
    (offsets displacementFwd displacementBwd heatmaps : Tensor) : PoseSet :=
  (decodeLoopF F chain offsets displacementFwd displacementBwd heatmaps
    (sort (extractParts heatmaps)) 0 emptyPoseSet).2

/-- The acceptance invariant of the output vectors in the arithmetic `F`: they have
one length, and each pose score is greater than `MIN_POSE_SCORE` and is the instance
score of its keypoint vectors against the poses listed before it. -/
def AcceptedOkF (F : Arith) (out : PoseSet) : Prop :=
  out.poseKeypointScores.length = out.poseScores.length
    ∧ out.poseKeypointCoords.length = out.poseScores.length
    ∧ ∀ i, i < out.poseScores.length →
        out.poseScores.getD i 0 > 1 / 4
          ∧ out.poseScores.getD i 0
              = getInstanceScoreF F (out.poseKeypointCoords.take i)
                  (out.poseKeypointScores.getD i []) (out.poseKeypointCoords.getD i [])

/-- The common form of the bodies of the two loops of `decodePoseImpl` in the
arithmetic `F`. -/
def propagateStepF (F : Arith) (heatmaps offsets D : Tensor) (edge source target : Nat)
    (inst : Instance) : Instance :=
  if inst.scores.getD source 0 > 0 ∧ inst.scores.getD target 0 = 0 then
    ⟨inst.scores.set target
        (traverseToTargetKeypointF F heatmaps offsets edge (inst.coords.getD source default) target
          D).1,
      inst.coords.set target
        (traverseToTargetKeypointF F heatmaps offsets edge (inst.coords.getD source default) target
          D).2⟩
  else inst

/-- The keypoint scores of an instance whose float sum is 4.25 until the last score,
`2 ^ -25`, is added: 0.5, fifteen times 0.25, and `2 ^ -25`. -/
def tinyLastScores : List ℚ :=
  1 / 2 :: (List.replicate 15 (1 / 4) ++ [1 / 33554432])

/-- A heatmap of 17 channels on a grid of 1 row and 2 columns: the value 0.75 at
column 1 of channel 1 and 0.25 everywhere else. -/
def stepHeatmap : Tensor :=
  ⟨17, 1, 2, fun i => if i = 3 then 3 / 4 else 1 / 4⟩

/-- A displacement tensor of 32 channels on a grid of 1 row and 2 columns: the x
displacement of edge 0 (channel 16) at column 0 is `3 * 2 ^ -23`, every other value
is 0. -/
def tinyDisplacement : Tensor :=
  ⟨32, 1, 2, fun i => if i = 32 then 3 / 8388608 else 0⟩

/-- The keypoint coordinates of the second pose decoded with `leafOffsets`: every
keypoint at (32, 0), except those of the types 9, 10, 15 and 16, at (0, 0). -/
def leafCoords : List Point :=
  (List.range 17).map (fun (t : Nat) =>
    if t = 9 ∨ t = 10 ∨ t = 15 ∨ t = 16 then (⟨0, 0⟩ : Point) else ⟨32, 0⟩)

/-- A heatmap of 17 channels on a grid of 1 row and 3 columns: channel 0 holds 0.75,
0 and 0.625 at the columns 0, 1 and 2, and every other channel holds 0.75. -/
def twoSeedsHeatmapF : Tensor :=
  ⟨17, 1, 3, fun i => if i = 1 then 0 else if i = 2 then 5 / 8 else 3 / 4⟩

/-! # Theorems -/

/-! ## The overlap test and the instance score -/

theorem withinNMSRadius_eq_true_iff (accepted : List (List Point)) (point : Point) (id : Nat) :
    withinNMSRadius accepted point id = true ↔ WithinRadius accepted point id := by
  induction accepted with
  | nil => simp [withinNMSRadius, WithinRadius]
  | cons cur rest ih =>
    have h400 : ((squareNMSRadius : Int) : ℚ) = 400 := by
      norm_num [squareNMSRadius, NMS_RADIUS]
    unfold withinNMSRadius
    simp only [h400, powf2]
    by_cases h : ((cur.getD id default).fX - point.fX) * ((cur.getD id default).fX - point.fX)
        + ((cur.getD id default).fY - point.fY) * ((cur.getD id default).fY - point.fY) ≤ 400
    · simp only [h, if_true, true_iff]
      exact ⟨cur, List.mem_cons_self _ _, by unfold sqDist; nlinarith [h]⟩
    · simp only [h, if_false, ih]
      constructor
      · rintro ⟨inst, hmem, hd⟩
        exact ⟨inst, List.mem_cons_of_mem _ hmem, hd⟩
      · rintro ⟨inst, hmem, hd⟩
        rcases List.mem_cons.mp hmem with rfl | hmem
        · exact absurd (by unfold sqDist at hd; nlinarith [hd]) h
        · exact ⟨inst, hmem, hd⟩

theorem sumAllScores_eq (scores : List ℚ) (n i : Nat) (acc : ℚ) :
    sumAllScores scores n i acc = acc + ∑ k in Finset.range n, scores.getD (i + k) 0 := by
  induction n generalizing i acc with
  | zero => simp [sumAllScores]
  | succ n ih =>
    rw [sumAllScores, ih, Finset.sum_range_succ']
    simp only [Nat.add_zero]
    have : ∀ k, scores.getD (i + 1 + k) 0 = scores.getD (i + (k + 1)) 0 := by
      intro k; congr 1; omega
    simp only [this]
    ring

theorem sumNotOverlapped_eq (accepted : List (List Point)) (scores : List ℚ)
    (coords : List Point) (n i : Nat) (acc : ℚ) :
    sumNotOverlapped accepted scores coords n i acc
      = acc + ∑ k in Finset.range n,
          (if WithinRadius accepted (coords.getD (i + k) default) (i + k) then 0
            else scores.getD (i + k) 0) := by
  induction n generalizing i acc with
  | zero => simp [sumNotOverlapped]
  | succ n ih =>
    rw [sumNotOverlapped, ih, Finset.sum_range_succ']
    simp only [Nat.add_zero]
    have e : ∀ k, i + 1 + k = i + (k + 1) := by intro k; omega
    simp only [e]
    by_cases h : WithinRadius accepted (coords.getD i default) i
    · have hb : withinNMSRadius accepted (coords.getD i default) i = true :=
        (withinNMSRadius_eq_true_iff _ _ _).mpr h
      simp only [hb, if_pos h, Bool.not_true, Bool.false_eq_true, if_false]
      ring
    · have hb : withinNMSRadius accepted (coords.getD i default) i = false := by
        cases hw : withinNMSRadius accepted (coords.getD i default) i with
        | false => rfl
        | true => exact absurd ((withinNMSRadius_eq_true_iff _ _ _).mp hw) h
      simp only [hb, if_neg h, Bool.not_false, if_true]
      ring

theorem not_withinRadius_nil (point : Point) (id : Nat) : ¬ WithinRadius [] point id := by
  simp [WithinRadius]

/-! ## Local maxima extraction -/

theorem mem_radiusRange (i : Int) : i ∈ radiusRange ↔ -1 ≤ i ∧ i ≤ 1 := by
  have h : radiusRange = [-1, 0, 1] := by decide
  rw [h]
  simp only [List.mem_cons, List.mem_singleton, List.not_mem_nil, or_false]
  omega

theorem innerLoop_eq (startPtr : Int → ℚ) (width height : Int) (maxValue : ℚ) (y x i : Int)
    (js : List Int) (b : Bool) :
    innerLoop startPtr width height maxValue y x i js b
      = (b && js.all
          (fun j => !decide (maxValue < neighbourValue startPtr width height (y + i) (x + j)))) := by
  induction js with
  | nil => simp [innerLoop]
  | cons j js ih =>
    unfold innerLoop
    by_cases h : maxValue < neighbourValue startPtr width height (y + i) (x + j)
    · simp [h]
    · simp [h, ih]

theorem outerLoop_eq (startPtr : Int → ℚ) (width height : Int) (maxValue : ℚ) (y x : Int)
    (is : List Int) (b : Bool) :
    outerLoop startPtr width height maxValue y x is b
      = (b && is.all (fun i => radiusRange.all
          (fun j => !decide (maxValue < neighbourValue startPtr width height (y + i) (x + j))))) := by
  induction is generalizing b with
  | nil => simp [outerLoop]
  | cons i is ih =>
    unfold outerLoop
    rw [ih, innerLoop_eq]
    simp [Bool.and_assoc]

theorem outerLoop_true_iff (startPtr : Int → ℚ) (width height : Int) (maxValue : ℚ) (y x : Int) :
    outerLoop startPtr width height maxValue y x radiusRange true = true
      ↔ ∀ dy dx : Int, -1 ≤ dy → dy ≤ 1 → -1 ≤ dx → dx ≤ 1 →
          neighbourValue startPtr width height (y + dy) (x + dx) ≤ maxValue := by
  rw [outerLoop_eq]
  simp only [Bool.true_and, List.all_eq_true, mem_radiusRange, Bool.not_eq_true',
    decide_eq_false_iff_not, not_lt]
  constructor
  · intro h dy dx h1 h2 h3 h4
    exact h dy ⟨h1, h2⟩ dx ⟨h3, h4⟩
  · intro h dy hdy dx hdx
    exact h dy dx hdy.1 hdy.2 hdx.1 hdx.2

/-- The parts that one cell contributes. -/
theorem maximumFilterCell_eq (width height : Int) (id : Nat) (startPtr : Int → ℚ) (y x : Int)
    (parts : List Part) :
    maximumFilterCell width height id startPtr y x parts
      = parts ++ maximumFilterCell width height id startPtr y x [] := by
  unfold maximumFilterCell
  simp only []
  split <;> simp

theorem foldl_append_eq_flatMap {α β : Type} (f : β → List α → List α) (g : β → List α)
    (hf : ∀ b acc, f b acc = acc ++ g b) (l : List β) (init : List α) :
    l.foldl (fun acc b => f b acc) init = init ++ l.flatMap g := by
  induction l generalizing init with
  | nil => simp
  | cons b l ih => rw [List.foldl_cons, ih, hf, List.flatMap_cons, List.append_assoc]

/-- The candidates of one channel buffer, as a comprehension over the cells. -/
theorem maximumFilter_eq (width height : Int) (id : Nat) (startPtr : Int → ℚ)
    (parts : List Part) :
    maximumFilter width height id startPtr parts
      = parts ++ (List.range height.toNat).flatMap (fun (y : Nat) =>
          (List.range width.toNat).flatMap (fun (x : Nat) =>
            maximumFilterCell width height id startPtr (y : Int) (x : Int) [])) := by
  unfold maximumFilter
  exact foldl_append_eq_flatMap
    (fun (y : Nat) acc => (List.range width.toNat).foldl
        (fun (parts : List Part) (x : Nat) =>
          maximumFilterCell width height id startPtr (y : Int) (x : Int) parts) acc)
    _ (fun y acc => foldl_append_eq_flatMap
        (fun (x : Nat) acc => maximumFilterCell width height id startPtr (y : Int) (x : Int) acc)
        _ (fun x acc => maximumFilterCell_eq width height id startPtr y x acc) _ acc) _ parts

theorem extractParts_eq (heatmaps : Tensor) :
    extractParts heatmaps
      = (List.range heatmaps.channel.toNat).flatMap (fun (id : Nat) =>
          (List.range heatmaps.height.toNat).flatMap (fun (y : Nat) =>
            (List.range heatmaps.width.toNat).flatMap (fun (x : Nat) =>
              maximumFilterCell heatmaps.width heatmaps.height id
                (fun k => heatmaps.host ((id : Int) * heatmaps.width * heatmaps.height + k))
                (y : Int) (x : Int) []))) := by
  unfold extractParts
  rw [foldl_append_eq_flatMap
    (fun (id : Nat) acc => maximumFilter heatmaps.width heatmaps.height id
        (fun k => heatmaps.host ((id : Int) * heatmaps.width * heatmaps.height + k)) acc)
    _ (fun id acc => maximumFilter_eq _ _ _ _ acc)]
  simp


theorem Tensor.read_eq (t : Tensor) (c y x : Int) :
    t.read c y x = t.host (c * (t.height * t.width) + y * t.width + x) := rfl

theorem neighbourValue_eq_readOrZero (heatmaps : Tensor) (id : Nat) (y x : Int) :
    neighbourValue (fun k => heatmaps.host ((id : Int) * heatmaps.width * heatmaps.height + k))
        heatmaps.width heatmaps.height y x
      = heatmaps.readOrZero id y x := by
  unfold neighbourValue Tensor.readOrZero
  rw [Tensor.read_eq]
  have e : (id : Int) * heatmaps.width * heatmaps.height + (y * heatmaps.width + x)
      = (id : Int) * (heatmaps.height * heatmaps.width) + y * heatmaps.width + x := by ring
  by_cases h : 0 ≤ y ∧ y < heatmaps.height ∧ 0 ≤ x ∧ x < heatmaps.width
  · have h' : y ≥ 0 ∧ y < heatmaps.height ∧ x ≥ 0 ∧ x < heatmaps.width := h
    rw [if_pos h, if_pos h']
    exact congrArg heatmaps.host e
  · have h' : ¬ (y ≥ 0 ∧ y < heatmaps.height ∧ x ≥ 0 ∧ x < heatmaps.width) := h
    rw [if_neg h, if_neg h']

theorem mem_maximumFilterCell (heatmaps : Tensor) (id y x : Nat) (p : Part) :
    p ∈ maximumFilterCell heatmaps.width heatmaps.height id
        (fun k => heatmaps.host ((id : Int) * heatmaps.width * heatmaps.height + k))
        (y : Int) (x : Int) []
      ↔ p = ⟨id, heatmaps.read id y x, ⟨((x : Int) : ℚ), ((y : Int) : ℚ)⟩⟩
        ∧ heatmaps.read id y x ≥ 1 / 2
        ∧ ∀ dy dx : Int, -1 ≤ dy → dy ≤ 1 → -1 ≤ dx → dx ≤ 1 →
            heatmaps.read id y x ≥ heatmaps.readOrZero id (y + dy) (x + dx) := by
  have hv : heatmaps.host ((id : Int) * heatmaps.width * heatmaps.height
        + ((y : Int) * heatmaps.width + (x : Int))) = heatmaps.read id y x := by
    rw [Tensor.read_eq]
    congr 1; ring
  have hcond : (outerLoop (fun k => heatmaps.host ((id : Int) * heatmaps.width * heatmaps.height + k))
        heatmaps.width heatmaps.height
        (heatmaps.host ((id : Int) * heatmaps.width * heatmaps.height
          + ((y : Int) * heatmaps.width + (x : Int)))) (y : Int) (x : Int) radiusRange true
      && decide (heatmaps.host ((id : Int) * heatmaps.width * heatmaps.height
          + ((y : Int) * heatmaps.width + (x : Int))) ≥ SCORE_THRESHOLD)) = true
      ↔ (∀ dy dx : Int, -1 ≤ dy → dy ≤ 1 → -1 ≤ dx → dx ≤ 1 →
            heatmaps.read id y x ≥ heatmaps.readOrZero id (y + dy) (x + dx))
        ∧ heatmaps.read id y x ≥ 1 / 2 := by
    rw [Bool.and_eq_true, outerLoop_true_iff, decide_eq_true_eq]
    simp only [neighbourValue_eq_readOrZero, hv, SCORE_THRESHOLD, ge_iff_le]
  unfold maximumFilterCell
  simp only [List.nil_append]
  constructor
  · intro h
    split at h
    · rename_i hc
      have hc' := hcond.mp hc
      rw [hv] at h
      exact ⟨List.mem_singleton.mp h, hc'.2, hc'.1⟩
    · exact absurd h (List.not_mem_nil _)
  · rintro ⟨rfl, h1, h2⟩
    rw [if_pos (hcond.mpr ⟨h2, h1⟩), hv]
    exact List.mem_singleton_self _

theorem nodup_maximumFilterCell (width height : Int) (id : Nat) (startPtr : Int → ℚ) (y x : Int) :
    (maximumFilterCell width height id startPtr y x []).Nodup := by
  unfold maximumFilterCell
  simp only []
  split <;> simp

theorem nodup_flatMap_range_of_key {β : Type} (n : Nat) (f : Nat → List β) (key : β → Nat)
    (hk : ∀ a, ∀ b ∈ f a, key b = a) (hn : ∀ a, (f a).Nodup) :
    ((List.range n).flatMap f).Nodup := by
  refine List.nodup_flatMap.2 ⟨fun a _ => hn a, ?_⟩
  refine (List.pairwise_lt_range n).imp ?_
  intro a₁ a₂ hlt
  show List.Disjoint (f a₁) (f a₂)
  intro b h₁ h₂
  have e₁ := hk a₁ b h₁
  have e₂ := hk a₂ b h₂
  omega

theorem mem_extractParts (heatmaps : Tensor) (p : Part) :
    p ∈ extractParts heatmaps
      ↔ ∃ id y x : Nat, id < heatmaps.channel.toNat ∧ y < heatmaps.height.toNat
          ∧ x < heatmaps.width.toNat
          ∧ p = ⟨id, heatmaps.read id y x, ⟨((x : Int) : ℚ), ((y : Int) : ℚ)⟩⟩
          ∧ heatmaps.read id y x ≥ 1 / 2
          ∧ ∀ dy dx : Int, -1 ≤ dy → dy ≤ 1 → -1 ≤ dx → dx ≤ 1 →
              heatmaps.read id y x ≥ heatmaps.readOrZero id (y + dy) (x + dx) := by
  rw [extractParts_eq]
  simp only [List.mem_flatMap, List.mem_range, mem_maximumFilterCell]
  constructor
  · rintro ⟨id, hid, y, hy, x, hx, h⟩
    exact ⟨id, y, x, hid, hy, hx, h⟩
  · rintro ⟨id, y, x, hid, hy, hx, h⟩
    exact ⟨id, hid, y, hy, x, hx, h⟩

theorem nodup_extractParts (heatmaps : Tensor) : (extractParts heatmaps).Nodup := by
  rw [extractParts_eq]
  refine nodup_flatMap_range_of_key _ _ (fun p => p.id) ?_ ?_
  · intro id p hp
    simp only [List.mem_flatMap, List.mem_range, mem_maximumFilterCell] at hp
    obtain ⟨y, _, x, _, rfl, _⟩ := hp
    rfl
  · intro id
    refine nodup_flatMap_range_of_key _ _ (fun p => (⌊p.coord.fY⌋).toNat) ?_ ?_
    · intro y p hp
      simp only [List.mem_flatMap, List.mem_range, mem_maximumFilterCell] at hp
      obtain ⟨x, _, rfl, _⟩ := hp
      simp
    · intro y
      refine nodup_flatMap_range_of_key _ _ (fun p => (⌊p.coord.fX⌋).toNat) ?_ ?_
      · intro x p hp
        simp only [mem_maximumFilterCell] at hp
        obtain ⟨rfl, _⟩ := hp
        simp
      · intro x
        exact nodup_maximumFilterCell _ _ _ _ _ _

/-- C2: a triple (channel, value, cell) is in the candidate list exactly when the
value is the heatmap value of that cell of that channel, it is at least 0.5 and it
is at least the value of every cell of the channel within Chebyshev distance 1, the
cells outside the grid counting as 0 (a tie does not disqualify); every candidate
is such a triple with an integer cell, and no candidate is listed twice. -/
theorem extractParts_spec (heatmaps : Tensor) :
    (∀ (c : Nat) (v : ℚ) (x y : Int),
        (⟨c, v, ⟨(x : ℚ), (y : ℚ)⟩⟩ : Part) ∈ extractParts heatmaps
          ↔ v = heatmaps.read c y x ∧ IsCandidate heatmaps c y x)
      ∧ (∀ p ∈ extractParts heatmaps, ∃ x y : Int, p.coord = ⟨(x : ℚ), (y : ℚ)⟩)
      ∧ (extractParts heatmaps).Nodup := by
  refine ⟨?_, ?_, nodup_extractParts heatmaps⟩
  · intro c v x y
    rw [mem_extractParts]
    unfold IsCandidate
    constructor
    · rintro ⟨id, y', x', hid, hy, hx, hp, h1, h2⟩
      simp only [Part.mk.injEq, Point.mk.injEq, Int.cast_inj] at hp
      obtain ⟨rfl, rfl, rfl, rfl⟩ := hp
      refine ⟨rfl, ⟨?_, ?_⟩, ⟨?_, ?_⟩, ⟨?_, ?_⟩, h1, h2⟩ <;> omega
    · rintro ⟨rfl, ⟨hc0, hc1⟩, ⟨hy0, hy1⟩, ⟨hx0, hx1⟩, h1, h2⟩
      refine ⟨c, y.toNat, x.toNat, ?_, ?_, ?_, ?_, ?_, ?_⟩
      · omega
      · omega
      · omega
      · simp only [Int.toNat_of_nonneg hy0, Int.toNat_of_nonneg hx0]
      · simpa only [Int.toNat_of_nonneg hy0, Int.toNat_of_nonneg hx0] using h1
      · simpa only [Int.toNat_of_nonneg hy0, Int.toNat_of_nonneg hx0] using h2
  · intro p hp
    rw [mem_extractParts] at hp
    obtain ⟨id, y, x, _, _, _, rfl, _⟩ := hp
    exact ⟨x, y, rfl⟩


/-! ## The acceptance loop -/

theorem acceptedOk_push (out : PoseSet) (inst : Instance) (h : AcceptedOk out)
    (hs : getInstanceScore out.poseKeypointCoords inst.scores inst.coords > MIN_POSE_SCORE) :
    AcceptedOk ⟨out.poseScores ++ [getInstanceScore out.poseKeypointCoords inst.scores inst.coords],
      out.poseKeypointScores ++ [inst.scores], out.poseKeypointCoords ++ [inst.coords]⟩ := by
  obtain ⟨h1, h2, h3⟩ := h
  refine ⟨by simp [h1], by simp [h2], ?_⟩
  intro i hi
  simp only [List.length_append, List.length_singleton] at hi
  by_cases hlt : i < out.poseScores.length
  · have e1 : (out.poseScores ++ [getInstanceScore out.poseKeypointCoords inst.scores
        inst.coords]).getD i 0 = out.poseScores.getD i 0 := by
      rw [List.getD_append _ _ _ _ hlt]
    have e2 : (out.poseKeypointScores ++ [inst.scores]).getD i []
        = out.poseKeypointScores.getD i [] := by
      rw [List.getD_append _ _ _ _ (by omega)]
    have e3 : (out.poseKeypointCoords ++ [inst.coords]).getD i []
        = out.poseKeypointCoords.getD i [] := by
      rw [List.getD_append _ _ _ _ (by omega)]
    have e4 : (out.poseKeypointCoords ++ [inst.coords]).take i = out.poseKeypointCoords.take i := by
      rw [List.take_append_of_le_length (by omega)]
    simp only [e1, e2, e3, e4]
    exact h3 i hlt
  · have hi' : i = out.poseScores.length := by omega
    have e1 : (out.poseScores ++ [getInstanceScore out.poseKeypointCoords inst.scores
        inst.coords]).getD i 0
        = getInstanceScore out.poseKeypointCoords inst.scores inst.coords := by
      rw [List.getD_append_right _ _ _ _ (by omega)]
      simp [hi']
    have e2 : (out.poseKeypointScores ++ [inst.scores]).getD i [] = inst.scores := by
      rw [List.getD_append_right _ _ _ _ (by omega)]
      simp [hi', h1]
    have e3 : (out.poseKeypointCoords ++ [inst.coords]).getD i [] = inst.coords := by
      rw [List.getD_append_right _ _ _ _ (by omega)]
      simp [hi', h2]
    have e4 : (out.poseKeypointCoords ++ [inst.coords]).take i = out.poseKeypointCoords := by
      rw [List.take_append_of_le_length (by omega), List.take_of_length_le (by omega)]
    rw [e1, e2, e3, e4]
    exact ⟨by simpa [MIN_POSE_SCORE] using hs, rfl⟩

theorem decodeLoop_acceptedOk (chain : Chain)
    (offsets displacementFwd displacementBwd heatmaps : Tensor) (parts : List Part)
    (poseCount : Nat) (out : PoseSet) (h : AcceptedOk out) :
    AcceptedOk
      (decodeLoop chain offsets displacementFwd displacementBwd heatmaps parts poseCount out).2 := by
  induction parts generalizing poseCount out with
  | nil => simpa [decodeLoop] using h
  | cons part rest ih =>
    unfold decodeLoop
    simp only []
    split
    · exact h
    · split
      · exact ih _ _ h
      · split
        · rename_i hs
          exact ih _ _ (acceptedOk_push out _ h hs)
        · exact ih _ _ h

theorem acceptedOk_empty : AcceptedOk emptyPoseSet := by
  refine ⟨rfl, rfl, ?_⟩
  intro i hi
  simp [emptyPoseSet] at hi


theorem decodeLoop_of_full (chain : Chain)
    (offsets displacementFwd displacementBwd heatmaps : Tensor) (parts : List Part)
    (poseCount : Nat) (out : PoseSet) (h : poseCount ≥ MAX_POSE_DETECTIONS) :
    decodeLoop chain offsets displacementFwd displacementBwd heatmaps parts poseCount out
      = (poseCount, out) := by
  cases parts with
  | nil => rfl
  | cons part rest => unfold decodeLoop; rw [if_pos h]

theorem decodeLoop_cons (chain : Chain)
    (offsets displacementFwd displacementBwd heatmaps : Tensor) (part : Part) (rest : List Part)
    (poseCount : Nat) (out : PoseSet) :
    decodeLoop chain offsets displacementFwd displacementBwd heatmaps (part :: rest) poseCount out
      = if poseCount ≥ MAX_POSE_DETECTIONS then (poseCount, out)
        else if withinNMSRadius out.poseKeypointCoords (seedCoords offsets part) part.id then
          decodeLoop chain offsets displacementFwd displacementBwd heatmaps rest poseCount out
        else if getInstanceScore out.poseKeypointCoords
            (decodeInstance chain offsets displacementFwd displacementBwd heatmaps part).scores
            (decodeInstance chain offsets displacementFwd displacementBwd heatmaps part).coords
            > MIN_POSE_SCORE then
          decodeLoop chain offsets displacementFwd displacementBwd heatmaps rest (poseCount + 1)
            ⟨out.poseScores ++ [getInstanceScore out.poseKeypointCoords
                (decodeInstance chain offsets displacementFwd displacementBwd heatmaps part).scores
                (decodeInstance chain offsets displacementFwd displacementBwd heatmaps part).coords],
              out.poseKeypointScores
                ++ [(decodeInstance chain offsets displacementFwd displacementBwd heatmaps
                      part).scores],
              out.poseKeypointCoords
                ++ [(decodeInstance chain offsets displacementFwd displacementBwd heatmaps
                      part).coords]⟩
        else decodeLoop chain offsets displacementFwd displacementBwd heatmaps rest poseCount out :=
  rfl

theorem decodeLoop_append (chain : Chain)
    (offsets displacementFwd displacementBwd heatmaps : Tensor) (pre rest : List Part)
    (poseCount : Nat) (out : PoseSet) :
    decodeLoop chain offsets displacementFwd displacementBwd heatmaps (pre ++ rest) poseCount out
      = decodeLoop chain offsets displacementFwd displacementBwd heatmaps rest
          (decodeLoop chain offsets displacementFwd displacementBwd heatmaps pre poseCount out).1
          (decodeLoop chain offsets displacementFwd displacementBwd heatmaps pre poseCount out).2 := by
  induction pre generalizing poseCount out with
  | nil => rfl
  | cons part pre ih =>
    rw [List.cons_append, decodeLoop_cons, decodeLoop_cons]
    by_cases hfull : poseCount ≥ MAX_POSE_DETECTIONS
    · rw [if_pos hfull, if_pos hfull]
      exact (decodeLoop_of_full chain offsets displacementFwd displacementBwd heatmaps rest
        poseCount out hfull).symm
    · rw [if_neg hfull, if_neg hfull]
      by_cases hw : withinNMSRadius out.poseKeypointCoords (seedCoords offsets part) part.id = true
      · rw [if_pos hw, if_pos hw]
        exact ih _ _
      · rw [if_neg hw, if_neg hw]
        by_cases hs : getInstanceScore out.poseKeypointCoords
            (decodeInstance chain offsets displacementFwd displacementBwd heatmaps part).scores
            (decodeInstance chain offsets displacementFwd displacementBwd heatmaps part).coords
            > MIN_POSE_SCORE
        · rw [if_pos hs, if_pos hs]
          exact ih _ _
        · rw [if_neg hs, if_neg hs]
          exact ih _ _

theorem decodeLoop_count (chain : Chain)
    (offsets displacementFwd displacementBwd heatmaps : Tensor) (parts : List Part)
    (poseCount : Nat) (out : PoseSet) :
    (decodeLoop chain offsets displacementFwd displacementBwd heatmaps parts poseCount out).1
        ≤ max poseCount MAX_POSE_DETECTIONS
      ∧ (decodeLoop chain offsets displacementFwd displacementBwd heatmaps parts poseCount
            out).2.poseScores.length + poseCount
          = out.poseScores.length
            + (decodeLoop chain offsets displacementFwd displacementBwd heatmaps parts poseCount
                out).1 := by
  induction parts generalizing poseCount out with
  | nil => simp [decodeLoop]
  | cons part rest ih =>
    unfold decodeLoop
    simp only []
    split
    · simp
    · rename_i hlt
      split
      · exact ih _ _
      · split
        · obtain ⟨h1, h2⟩ := ih (poseCount + 1)
            ⟨out.poseScores ++ [getInstanceScore out.poseKeypointCoords
                (decodeInstance chain offsets displacementFwd displacementBwd heatmaps part).scores
                (decodeInstance chain offsets displacementFwd displacementBwd heatmaps part).coords],
              out.poseKeypointScores
                ++ [(decodeInstance chain offsets displacementFwd displacementBwd heatmaps
                      part).scores],
              out.poseKeypointCoords
                ++ [(decodeInstance chain offsets displacementFwd displacementBwd heatmaps
                      part).coords]⟩
          simp only [List.length_append, List.length_singleton] at h2
          refine ⟨?_, by omega⟩
          have : max (poseCount + 1) MAX_POSE_DETECTIONS = max poseCount MAX_POSE_DETECTIONS := by
            simp only [MAX_POSE_DETECTIONS] at hlt ⊢
            omega
          omega
        · exact ih _ _

theorem length_scaleKeypoints (scale : Point) (i remaining id : Nat) (coords : List (List Point)) :
    (scaleKeypoints scale i remaining id coords).length = coords.length := by
  induction remaining generalizing id coords with
  | zero => rfl
  | succ n ih => unfold scaleKeypoints; simp only []; rw [ih, List.length_set]

theorem length_scalePoses (scale : Point) (remaining i : Nat) (coords : List (List Point)) :
    (scalePoses scale remaining i coords).length = coords.length := by
  induction remaining generalizing i coords with
  | zero => rfl
  | succ n ih => unfold scalePoses; rw [ih, length_scaleKeypoints]

/-- C4: every returned pose score is greater than 0.25, and it is the value of
`getInstanceScore` for the keypoint vectors of its instance (the coordinates taken
before the final scaling) against the instances accepted before it. -/
theorem decodeMultiPose_scores (sort : List Part → List Part) (chain : Chain)
    (offsets displacementFwd displacementBwd heatmaps : Tensor) (scale : Point) :
    ∀ i, i < (decodeMultiPose sort chain offsets displacementFwd displacementBwd heatmaps
          emptyPoseSet scale).poseScores.length →
      (decodeMultiPose sort chain offsets displacementFwd displacementBwd heatmaps
          emptyPoseSet scale).poseScores.getD i 0 > 1 / 4
      ∧ (decodeMultiPose sort chain offsets displacementFwd displacementBwd heatmaps
          emptyPoseSet scale).poseScores.getD i 0
        = getInstanceScore
            ((decodeLoop chain offsets displacementFwd displacementBwd heatmaps
                (sort (extractParts heatmaps)) 0 emptyPoseSet).2.poseKeypointCoords.take i)
            ((decodeMultiPose sort chain offsets displacementFwd displacementBwd heatmaps
                emptyPoseSet scale).poseKeypointScores.getD i [])
            ((decodeLoop chain offsets displacementFwd displacementBwd heatmaps
                (sort (extractParts heatmaps)) 0 emptyPoseSet).2.poseKeypointCoords.getD i []) := by
  intro i hi
  exact (decodeLoop_acceptedOk chain offsets displacementFwd displacementBwd heatmaps
    (sort (extractParts heatmaps)) 0 emptyPoseSet acceptedOk_empty).2.2 i hi

/-- Witness of C4: on a one-cell grid whose heatmap is 0.9 in every channel, a
single pose is accepted, and its score is greater than 0.25. -/
theorem decodeMultiPose_scores_witness :
    0 < (decodeMultiPose id poseChain (constTensor 34 1 1 0) (constTensor 32 1 1 0)
          (constTensor 32 1 1 0) (constTensor 17 1 1 (9 / 10)) emptyPoseSet ⟨1, 1⟩).poseScores.length
      ∧ (decodeMultiPose id poseChain (constTensor 34 1 1 0) (constTensor 32 1 1 0)
          (constTensor 32 1 1 0) (constTensor 17 1 1 (9 / 10)) emptyPoseSet
            ⟨1, 1⟩).poseScores.getD 0 0 > 1 / 4 :=
  ⟨by decide!,
    (decodeMultiPose_scores id poseChain (constTensor 34 1 1 0) (constTensor 32 1 1 0)
      (constTensor 32 1 1 0) (constTensor 17 1 1 (9 / 10)) ⟨1, 1⟩ 0 (by decide!)).1⟩

/-- C5: from empty output lists, at most 10 poses are returned, and once a prefix
of the candidates has produced the 10th accepted instance the candidates after it
have no part in the result: the loop over the whole list ends in the state the
loop over the prefix ends in. -/
theorem decodeMultiPose_bounded (sort : List Part → List Part) (chain : Chain)
    (offsets displacementFwd displacementBwd heatmaps : Tensor) (scale : Point) :
    ((decodeMultiPose sort chain offsets displacementFwd displacementBwd heatmaps
          emptyPoseSet scale).poseScores.length ≤ 10
      ∧ (decodeMultiPose sort chain offsets displacementFwd displacementBwd heatmaps
          emptyPoseSet scale).poseKeypointScores.length ≤ 10
      ∧ (decodeMultiPose sort chain offsets displacementFwd displacementBwd heatmaps
          emptyPoseSet scale).poseKeypointCoords.length ≤ 10)
    ∧ ∀ pre rest : List Part,
        (decodeLoop chain offsets displacementFwd displacementBwd heatmaps pre 0
            emptyPoseSet).1 = 10 →
        decodeLoop chain offsets displacementFwd displacementBwd heatmaps (pre ++ rest) 0
            emptyPoseSet
          = decodeLoop chain offsets displacementFwd displacementBwd heatmaps pre 0
              emptyPoseSet := by
  constructor
  · obtain ⟨h1, h2⟩ := decodeLoop_count chain offsets displacementFwd displacementBwd heatmaps
      (sort (extractParts heatmaps)) 0 emptyPoseSet
    obtain ⟨k1, k2, -⟩ := decodeLoop_acceptedOk chain offsets displacementFwd displacementBwd
      heatmaps (sort (extractParts heatmaps)) 0 emptyPoseSet acceptedOk_empty
    have hlen : (decodeLoop chain offsets displacementFwd displacementBwd heatmaps
        (sort (extractParts heatmaps)) 0 emptyPoseSet).2.poseScores.length ≤ 10 := by
      have e0 : emptyPoseSet.poseScores.length = 0 := rfl
      have hm : max 0 MAX_POSE_DETECTIONS = 10 := by decide
      rw [e0] at h2
      rw [hm] at h1
      omega
    refine ⟨hlen, ?_, ?_⟩
    · show (decodeLoop chain offsets displacementFwd displacementBwd heatmaps
        (sort (extractParts heatmaps)) 0 emptyPoseSet).2.poseKeypointScores.length ≤ 10
      omega
    · show (scalePoses scale _ 0 (decodeLoop chain offsets displacementFwd displacementBwd heatmaps
        (sort (extractParts heatmaps)) 0 emptyPoseSet).2.poseKeypointCoords).length ≤ 10
      rw [length_scalePoses]
      omega
  · intro pre rest h
    rw [decodeLoop_append]
    exact decodeLoop_of_full chain offsets displacementFwd displacementBwd heatmaps rest _ _
      (by rw [h]; decide)

theorem tenParts_accepted :
    (decodeLoop poseChain (constTensor 34 1 19 0) (constTensor 32 1 19 0) (constTensor 32 1 19 0)
        (constTensor 17 1 19 (9 / 10)) tenParts 0 emptyPoseSet).1 = 10 := by
  decide!

/-- Witness of C5: on a 1 x 19 grid whose heatmap is 0.9 everywhere, the ten
candidates `tenParts` are all accepted, and an eleventh candidate of the same
channel, 32 pixels further, does not change the result. -/
theorem decodeMultiPose_bounded_witness :
    (decodeLoop poseChain (constTensor 34 1 19 0) (constTensor 32 1 19 0) (constTensor 32 1 19 0)
        (constTensor 17 1 19 (9 / 10)) tenParts 0 emptyPoseSet).1 = 10
      ∧ decodeLoop poseChain (constTensor 34 1 19 0) (constTensor 32 1 19 0)
          (constTensor 32 1 19 0) (constTensor 17 1 19 (9 / 10))
          (tenParts ++ [⟨0, 9 / 10, ⟨20, 0⟩⟩]) 0 emptyPoseSet
        = decodeLoop poseChain (constTensor 34 1 19 0) (constTensor 32 1 19 0)
            (constTensor 32 1 19 0) (constTensor 17 1 19 (9 / 10)) tenParts 0 emptyPoseSet :=
  ⟨tenParts_accepted,
    (decodeMultiPose_bounded id poseChain (constTensor 34 1 19 0) (constTensor 32 1 19 0)
      (constTensor 32 1 19 0) (constTensor 17 1 19 (9 / 10)) ⟨1, 1⟩).2 tenParts
      [⟨0, 9 / 10, ⟨20, 0⟩⟩] tenParts_accepted⟩


/-! ## The propagation step -/

theorem round_eq_roundHalfAway (v : ℚ) : round v = ((roundHalfAway v : Int) : ℚ) := by
  unfold round roundHalfAway
  split <;> simp

theorem toInt_intCast (k : Int) : toInt (k : ℚ) = k := by
  unfold toInt
  split
  · rw [← Int.cast_neg, Int.floor_intCast]; omega
  · exact Int.floor_intCast k

theorem toInt_clip_round (v : ℚ) (dim : Int) :
    toInt (clip (round (v / (OUTPUT_STRIDE : ℚ))) 0 ((dim - 1 : Int) : ℚ)) = gridIndex v dim := by
  have h16 : ((OUTPUT_STRIDE : Int) : ℚ) = 16 := by norm_num [OUTPUT_STRIDE]
  rw [h16, round_eq_roundHalfAway]
  unfold gridIndex clamp clip
  by_cases h0 : roundHalfAway (v / 16) < 0
  · have h0' : ((roundHalfAway (v / 16) : Int) : ℚ) < 0 := by exact_mod_cast h0
    rw [if_pos h0, if_pos h0']
    exact toInt_intCast 0
  · have h0' : ¬ ((roundHalfAway (v / 16) : Int) : ℚ) < 0 := by exact_mod_cast h0
    rw [if_neg h0, if_neg h0']
    by_cases h1 : roundHalfAway (v / 16) > dim - 1
    · have h1' : ((roundHalfAway (v / 16) : Int) : ℚ) > ((dim - 1 : Int) : ℚ) := by
        exact_mod_cast h1
      rw [if_pos h1, if_pos h1']
      exact toInt_intCast _
    · have h1' : ¬ ((roundHalfAway (v / 16) : Int) : ℚ) > ((dim - 1 : Int) : ℚ) := by
        exact_mod_cast h1
      rw [if_neg h1, if_neg h1']
      exact toInt_intCast _

theorem getCoordsFromTensor_true (t : Tensor) (id x y : Int) :
    getCoordsFromTensor t id x y true = ⟨t.read (id + t.channel / 2) y x, t.read id y x⟩ := by
  unfold getCoordsFromTensor Tensor.read
  simp only [if_true, Point.mk.injEq]
  constructor <;> (congr 1; ring)

theorem getCoordsFromTensor_false (t : Tensor) (id x y : Int) :
    getCoordsFromTensor t id x y false = ⟨0, t.read id y x⟩ := by
  unfold getCoordsFromTensor Tensor.read
  simp only [Bool.false_eq_true, if_false, Point.mk.injEq, true_and]
  congr 1; ring

/-! ## Seed localization -/

theorem getD_set_ne {α : Type} (l : List α) (i k : Nat) (a d : α) (h : k ≠ i) :
    (l.set i a).getD k d = l.getD k d := by
  simp only [List.getD_eq_getElem?_getD]
  rw [List.getElem?_set_ne (Ne.symm h)]

theorem backwardLoop_eq_foldl (heatmaps offsets displacementBwd : Tensor) (chain : Chain)
    (n : Nat) (inst : Instance) :
    backwardLoop heatmaps offsets displacementBwd chain n inst
      = (List.range n).reverse.foldl
          (fun inst edge => backwardEdge heatmaps offsets displacementBwd chain edge inst) inst := by
  induction n generalizing inst with
  | zero => rfl
  | succ n ih =>
    rw [backwardLoop, ih, List.range_succ, List.reverse_append]
    rfl

theorem forwardLoop_eq_foldl (heatmaps offsets displacementFwd : Tensor) (chain : Chain)
    (n edge : Nat) (inst : Instance) :
    forwardLoop heatmaps offsets displacementFwd chain n edge inst
      = (List.range' edge n).foldl
          (fun inst edge => forwardEdge heatmaps offsets displacementFwd chain edge inst) inst := by
  induction n generalizing edge inst with
  | zero => rfl
  | succ n ih =>
    rw [forwardLoop, ih]
    rfl

/-- C6 as stated fails: with the nose (type 0) seeded and every other score 0, the
first pass of the code writes nothing, while the pass of the claim fills the left
eye (type 1), the child of the nose along edge 0, with the heatmap value 0.9. -/
theorem backwardLoop_claim_counterexample :
    backwardLoop (constTensor 17 1 1 (9 / 10)) (constTensor 34 1 1 0) (constTensor 32 1 1 0)
        poseChain poseChain.length (seededInstance 0)
      = seededInstance 0
    ∧ ((List.range poseChain.length).reverse.foldl
        (fun inst edge => claimedEdge (constTensor 17 1 1 (9 / 10)) (constTensor 34 1 1 0)
          (constTensor 32 1 1 0) poseChain edge inst) (seededInstance 0)).scores.getD 1 0 = 9 / 10
    ∧ backwardLoop (constTensor 17 1 1 (9 / 10)) (constTensor 34 1 1 0) (constTensor 32 1 1 0)
        poseChain poseChain.length (seededInstance 0)
      ≠ (List.range poseChain.length).reverse.foldl
        (fun inst edge => claimedEdge (constTensor 17 1 1 (9 / 10)) (constTensor 34 1 1 0)
          (constTensor 32 1 1 0) poseChain edge inst) (seededInstance 0) := by
  decide!

/-- C6, amended: the first pass visits the edges from the last to the first; at
the edge `(parent, child)` of index `e`, when the score of the child is greater
than 0 and the score of the parent is 0, the parent keypoint is filled by the
propagation step from the coordinate of the child (child to parent) with the
backward displacement tensor and the index `e`, and otherwise the instance is left
as it is; no keypoint other than the parent is written. -/
theorem backwardLoop_spec (heatmaps offsets displacementBwd : Tensor) (chain : Chain) :
    (∀ inst, backwardLoop heatmaps offsets displacementBwd chain chain.length inst
        = (List.range chain.length).reverse.foldl
            (fun inst edge => backwardEdge heatmaps offsets displacementBwd chain edge inst) inst)
    ∧ ∀ (e parent child : Nat) (inst : Instance), chain.getD e (0, 0) = (parent, child) →
        backwardEdge heatmaps offsets displacementBwd chain e inst
          = (if inst.scores.getD child 0 > 0 ∧ inst.scores.getD parent 0 = 0 then
              ⟨inst.scores.set parent
                  (traverseToTargetKeypoint heatmaps offsets e (inst.coords.getD child default)
                    parent displacementBwd).1,
                inst.coords.set parent
                  (traverseToTargetKeypoint heatmaps offsets e (inst.coords.getD child default)
                    parent displacementBwd).2⟩
            else inst)
        ∧ ∀ k, k ≠ parent →
            (backwardEdge heatmaps offsets displacementBwd chain e inst).scores.getD k 0
                = inst.scores.getD k 0
              ∧ (backwardEdge heatmaps offsets displacementBwd chain e inst).coords.getD k default
                = inst.coords.getD k default := by
  refine ⟨fun inst => backwardLoop_eq_foldl _ _ _ _ _ _, ?_⟩
  intro e parent child inst hedge
  have hstep : backwardEdge heatmaps offsets displacementBwd chain e inst
      = (if inst.scores.getD child 0 > 0 ∧ inst.scores.getD parent 0 = 0 then
          ⟨inst.scores.set parent
              (traverseToTargetKeypoint heatmaps offsets e (inst.coords.getD child default)
                parent displacementBwd).1,
            inst.coords.set parent
              (traverseToTargetKeypoint heatmaps offsets e (inst.coords.getD child default)
                parent displacementBwd).2⟩
        else inst) := by
    unfold backwardEdge
    simp only [hedge]
  refine ⟨hstep, ?_⟩
  intro k hk
  rw [hstep]
  split
  · exact ⟨getD_set_ne _ _ _ _ _ hk, getD_set_ne _ _ _ _ _ hk⟩
  · exact ⟨rfl, rfl⟩

/-- Witness of the amended C6: with the left eye (type 1) seeded, edge 0 of
`poseChain` is (nose, left eye), the score of the child is positive and that of the
parent is 0, and the step fills the nose (type 0) with the heatmap value 0.9. -/
theorem backwardLoop_spec_witness :
    poseChain.getD 0 (0, 0) = (0, 1)
    ∧ (1 : Nat) ≠ 0
    ∧ (backwardEdge (constTensor 17 1 1 (9 / 10)) (constTensor 34 1 1 0) (constTensor 32 1 1 0)
        poseChain 0 (seededInstance 1)).scores.getD 0 0 = 9 / 10
    ∧ (backwardEdge (constTensor 17 1 1 (9 / 10)) (constTensor 34 1 1 0) (constTensor 32 1 1 0)
        poseChain 0 (seededInstance 1)).scores.getD 1 0 = (seededInstance 1).scores.getD 1 0 :=
  ⟨rfl, by decide, by decide!,
    (((backwardLoop_spec (constTensor 17 1 1 (9 / 10)) (constTensor 34 1 1 0)
      (constTensor 32 1 1 0) poseChain).2 0 0 1 (seededInstance 1) rfl).2 1 (by decide)).1⟩


/-- C7 as stated fails: on `heatmapExample` with the left eye (type 1) seeded, the
first pass gives the nose (type 0) the negative score -0.5; in the second pass the
edge (nose, right eye) has a child of score 0 and a parent of nonzero score, yet
the code leaves the right eye (type 2) at score 0, while the pass of the claim
fills it with 0.7. -/
theorem forwardLoop_claim_counterexample :
    (backwardLoop heatmapExample (constTensor 34 1 1 0) (constTensor 32 1 1 0) poseChain
        poseChain.length (seededInstance 1)).scores.getD 0 0 = -1 / 2
    ∧ (forwardLoop heatmapExample (constTensor 34 1 1 0) (constTensor 32 1 1 0) poseChain
        poseChain.length 0
        (backwardLoop heatmapExample (constTensor 34 1 1 0) (constTensor 32 1 1 0) poseChain
          poseChain.length (seededInstance 1))).scores.getD 2 0 = 0
    ∧ ((List.range poseChain.length).foldl
        (fun inst edge => claimedEdge heatmapExample (constTensor 34 1 1 0) (constTensor 32 1 1 0)
          poseChain edge inst)
        (backwardLoop heatmapExample (constTensor 34 1 1 0) (constTensor 32 1 1 0) poseChain
          poseChain.length (seededInstance 1))).scores.getD 2 0 = 7 / 10
    ∧ forwardLoop heatmapExample (constTensor 34 1 1 0) (constTensor 32 1 1 0) poseChain
        poseChain.length 0
        (backwardLoop heatmapExample (constTensor 34 1 1 0) (constTensor 32 1 1 0) poseChain
          poseChain.length (seededInstance 1))
      ≠ (List.range poseChain.length).foldl
        (fun inst edge => claimedEdge heatmapExample (constTensor 34 1 1 0) (constTensor 32 1 1 0)
          poseChain edge inst)
        (backwardLoop heatmapExample (constTensor 34 1 1 0) (constTensor 32 1 1 0) poseChain
          poseChain.length (seededInstance 1)) := by
  decide!

/-- C7, amended: the second pass visits the edges from the first to the last; at
the edge `(parent, child)` of index `e` the child keypoint is filled by the
propagation step from the coordinate of the parent, with the forward displacement
tensor and the index `e`, exactly when the score of the child is 0 and the score of
the parent is greater than 0; otherwise the edge leaves the instance as it is. -/
theorem forwardLoop_spec (heatmaps offsets displacementFwd : Tensor) (chain : Chain) :
    (∀ inst, forwardLoop heatmaps offsets displacementFwd chain chain.length 0 inst
        = (List.range chain.length).foldl
            (fun inst edge => forwardEdge heatmaps offsets displacementFwd chain edge inst) inst)
    ∧ ∀ (e parent child : Nat) (inst : Instance), chain.getD e (0, 0) = (parent, child) →
        (inst.scores.getD child 0 = 0 ∧ inst.scores.getD parent 0 > 0 →
          forwardEdge heatmaps offsets displacementFwd chain e inst
            = ⟨inst.scores.set child
                  (traverseToTargetKeypoint heatmaps offsets e (inst.coords.getD parent default)
                    child displacementFwd).1,
                inst.coords.set child
                  (traverseToTargetKeypoint heatmaps offsets e (inst.coords.getD parent default)
                    child displacementFwd).2⟩)
        ∧ (¬ (inst.scores.getD child 0 = 0 ∧ inst.scores.getD parent 0 > 0) →
          forwardEdge heatmaps offsets displacementFwd chain e inst = inst) := by
  constructor
  · intro inst
    rw [forwardLoop_eq_foldl, List.range_eq_range']
  · intro e parent child inst hedge
    unfold forwardEdge
    simp only [hedge]
    constructor
    · intro h
      rw [if_pos ⟨h.2, h.1⟩]
    · intro h
      rw [if_neg (fun hc => h ⟨hc.2, hc.1⟩)]

/-- Witness of the amended C7: with the nose (type 0) seeded, edge 0 of `poseChain`
is (nose, left eye), the score of the child is 0 and that of the parent is positive,
and the step fills the left eye (type 1) with the heatmap value 0.9. -/
theorem forwardLoop_spec_witness :
    poseChain.getD 0 (0, 0) = (0, 1)
    ∧ ((seededInstance 0).scores.getD 1 0 = 0 ∧ (seededInstance 0).scores.getD 0 0 > 0)
    ∧ forwardEdge (constTensor 17 1 1 (9 / 10)) (constTensor 34 1 1 0) (constTensor 32 1 1 0)
        poseChain 0 (seededInstance 0)
      = ⟨(seededInstance 0).scores.set 1
            (traverseToTargetKeypoint (constTensor 17 1 1 (9 / 10)) (constTensor 34 1 1 0) (0 : Nat)
              ((seededInstance 0).coords.getD 0 default) (1 : Nat) (constTensor 32 1 1 0)).1,
          (seededInstance 0).coords.set 1
            (traverseToTargetKeypoint (constTensor 17 1 1 (9 / 10)) (constTensor 34 1 1 0) (0 : Nat)
              ((seededInstance 0).coords.getD 0 default) (1 : Nat) (constTensor 32 1 1 0)).2⟩
    ∧ (forwardEdge (constTensor 17 1 1 (9 / 10)) (constTensor 34 1 1 0) (constTensor 32 1 1 0)
        poseChain 0 (seededInstance 0)).scores.getD 1 0 = 9 / 10 :=
  ⟨rfl, by decide!,
    ((forwardLoop_spec (constTensor 17 1 1 (9 / 10)) (constTensor 34 1 1 0)
      (constTensor 32 1 1 0) poseChain).2 0 0 1 (seededInstance 0) rfl).1 (by decide!),
    by decide!⟩


/-! ## In-bounds access -/

theorem gridIndex_bounds (v : ℚ) (dim : Int) (h : 1 ≤ dim) :
    0 ≤ gridIndex v dim ∧ gridIndex v dim < dim := by
  unfold gridIndex clamp
  split
  · omega
  · split <;> omega

theorem maximumFilterReads_inBounds (heatmaps : Tensor) :
    ∀ a ∈ maximumFilterReads heatmaps, heatmaps.inBounds a := by
  intro a ha
  unfold maximumFilterReads at ha
  simp only [List.mem_flatMap, List.mem_range] at ha
  obtain ⟨id, hid, y, hy, x, hx, ha⟩ := ha
  unfold maximumFilterCellReads at ha
  rcases List.mem_cons.mp ha with rfl | ha
  · refine ⟨⟨?_, ?_⟩, ⟨?_, ?_⟩, ⟨?_, ?_⟩⟩ <;> simp only [] <;> omega
  · simp only [List.mem_flatMap] at ha
    obtain ⟨i, -, j, -, ha⟩ := ha
    split at ha
    · rename_i hg
      rw [List.mem_singleton] at ha
      subst ha
      refine ⟨⟨?_, ?_⟩, ⟨?_, ?_⟩, ⟨?_, ?_⟩⟩ <;> simp only [] <;> omega
    · exact absurd ha (List.not_mem_nil _)

theorem seedReads_inBounds (heatmaps offsets : Tensor) (hh : heatmaps.channel = 17)
    (ho : offsets.channel = 34) (hoH : offsets.height = heatmaps.height)
    (hoW : offsets.width = heatmaps.width) :
    ∀ part ∈ extractParts heatmaps, ∀ a ∈ seedReads offsets part, offsets.inBounds a := by
  intro part hpart a ha
  rw [mem_extractParts] at hpart
  obtain ⟨id, y, x, hid, hy, hx, rfl, -, -⟩ := hpart
  unfold seedReads getCoordsFromTensorReads at ha
  simp only [toInt_intCast, if_true, List.mem_cons, List.mem_singleton, List.not_mem_nil,
    or_false, ho] at ha
  unfold Tensor.inBounds
  rw [ho, hoH, hoW]
  rw [hh] at hid
  rcases ha with rfl | rfl <;>
    (refine ⟨⟨?_, ?_⟩, ⟨?_, ?_⟩, ⟨?_, ?_⟩⟩ <;> simp only [] <;> omega)

theorem traverseReads_inBounds (heatmaps offsets D : Tensor) (hh : heatmaps.channel = 17)
    (ho : offsets.channel = 34) (hH : 1 ≤ heatmaps.height) (hW : 1 ≤ heatmaps.width)
    (hoH : offsets.height = heatmaps.height) (hoW : offsets.width = heatmaps.width)
    (hD : D.channel = 32) (hDH : D.height = heatmaps.height) (hDW : D.width = heatmaps.width)
    (e t : Nat) (s : Point) (he : e < 16) (ht : t < 17) :
    ∀ r ∈ traverseReads heatmaps offsets e s t D, r.1.inBounds r.2 := by
  intro r hr
  unfold traverseReads at hr
  simp only [toInt_clip_round, getCoordsFromTensorReads, if_true, Bool.false_eq_true, if_false,
    List.map_cons, List.map_nil, List.cons_append, List.nil_append, List.mem_cons,
    List.mem_singleton, List.not_mem_nil, or_false, hD, ho] at hr
  have bx := fun v => gridIndex_bounds v heatmaps.width hW
  have by' := fun v => gridIndex_bounds v heatmaps.height hH
  unfold Tensor.inBounds
  rcases hr with rfl | rfl | rfl | rfl | rfl
  · simp only [hD, hDH, hDW]
    exact ⟨⟨by omega, by omega⟩, by' _, bx _⟩
  · simp only [hD, hDH, hDW]
    exact ⟨⟨by omega, by omega⟩, by' _, bx _⟩
  · simp only [hh]
    exact ⟨⟨by omega, by omega⟩, by' _, bx _⟩
  · simp only [ho, hoH, hoW]
    exact ⟨⟨by omega, by omega⟩, by' _, bx _⟩
  · simp only [ho, hoH, hoW]
    exact ⟨⟨by omega, by omega⟩, by' _, bx _⟩


/-- C10: when the heatmap has 17 channels, the offsets tensor 34, a displacement
tensor 32, and all share a grid of at least one row and one column, every cell read
by `maximumFilter`, by the seed localization of a candidate and by the propagation
step (for an edge index below 16 and a target type below 17, as `decodePoseImpl`
passes them) lies within the shape of the tensor it is read from; and the grid
index `clip(round(v / 16), 0, dim - 1)` of any coordinate `v` lies between 0 and
`dim - 1`. -/
theorem reads_inBounds (heatmaps offsets : Tensor) (hh : heatmaps.channel = 17)
    (ho : offsets.channel = 34) (hH : 1 ≤ heatmaps.height) (hW : 1 ≤ heatmaps.width)
    (hoH : offsets.height = heatmaps.height) (hoW : offsets.width = heatmaps.width) :
    (∀ a ∈ maximumFilterReads heatmaps, heatmaps.inBounds a)
    ∧ (∀ part ∈ extractParts heatmaps, ∀ a ∈ seedReads offsets part, offsets.inBounds a)
    ∧ (∀ (D : Tensor) (e t : Nat) (s : Point), D.channel = 32 → D.height = heatmaps.height →
        D.width = heatmaps.width → e < 16 → t < 17 →
        ∀ r ∈ traverseReads heatmaps offsets e s t D, r.1.inBounds r.2)
    ∧ (∀ (v : ℚ) (dim : Int), 1 ≤ dim →
        0 ≤ toInt (clip (round (v / (OUTPUT_STRIDE : ℚ))) 0 ((dim - 1 : Int) : ℚ))
        ∧ toInt (clip (round (v / (OUTPUT_STRIDE : ℚ))) 0 ((dim - 1 : Int) : ℚ)) ≤ dim - 1) := by
  refine ⟨maximumFilterReads_inBounds heatmaps,
    seedReads_inBounds heatmaps offsets hh ho hoH hoW, ?_, ?_⟩
  · intro D e t s hD hDH hDW he ht
    exact traverseReads_inBounds heatmaps offsets D hh ho hH hW hoH hoW hD hDH hDW e t s he ht
  · intro v dim hdim
    rw [toInt_clip_round]
    have := gridIndex_bounds v dim hdim
    omega

/-- Witness of C10 on a grid of 3 rows and 4 columns: the propagation step for the
last edge (index 15) and the last type (16) from the source point (1000, -1000),
far outside the image, reads the cells of row 0 and column 3, which lie within the
tensors. -/
theorem reads_inBounds_witness :
    (traverseReads (constTensor 17 3 4 (9 / 10)) (constTensor 34 3 4 0) (15 : Nat)
        ⟨1000, -1000⟩ (16 : Nat) (constTensor 32 3 4 0)).map Prod.snd
      = [⟨31, 0, 3⟩, ⟨15, 0, 3⟩, ⟨16, 0, 3⟩, ⟨33, 0, 3⟩, ⟨16, 0, 3⟩]
    ∧ ∀ r ∈ traverseReads (constTensor 17 3 4 (9 / 10)) (constTensor 34 3 4 0) (15 : Nat)
        ⟨1000, -1000⟩ (16 : Nat) (constTensor 32 3 4 0), r.1.inBounds r.2 :=
  ⟨by decide!,
    (reads_inBounds (constTensor 17 3 4 (9 / 10)) (constTensor 34 3 4 0) rfl rfl
      (by decide) (by decide) rfl rfl).2.2.1 (constTensor 32 3 4 0) 15 16 ⟨1000, -1000⟩
      rfl rfl rfl (by decide) (by decide)⟩


/-! ## Further properties of the candidates and of the score -/

theorem mem_extractParts_cell (heatmaps : Tensor) (c : Nat) (v : ℚ) (x y : Int) :
    (⟨c, v, ⟨(x : ℚ), (y : ℚ)⟩⟩ : Part) ∈ extractParts heatmaps
      ↔ v = heatmaps.read c y x ∧ IsCandidate heatmaps c y x := by
  rw [mem_extractParts]
  unfold IsCandidate
  constructor
  · rintro ⟨id, y', x', hid, hy, hx, hp, h1, h2⟩
    simp only [Part.mk.injEq, Point.mk.injEq, Int.cast_inj] at hp
    obtain ⟨rfl, rfl, rfl, rfl⟩ := hp
    refine ⟨rfl, ⟨?_, ?_⟩, ⟨?_, ?_⟩, ⟨?_, ?_⟩, h1, h2⟩ <;> omega
  · rintro ⟨rfl, ⟨hc0, hc1⟩, ⟨hy0, hy1⟩, ⟨hx0, hx1⟩, h1, h2⟩
    refine ⟨c, y.toNat, x.toNat, ?_, ?_, ?_, ?_, ?_, ?_⟩
    · omega
    · omega
    · omega
    · simp only [Int.toNat_of_nonneg hy0, Int.toNat_of_nonneg hx0]
    · simpa only [Int.toNat_of_nonneg hy0, Int.toNat_of_nonneg hx0] using h1
    · simpa only [Int.toNat_of_nonneg hy0, Int.toNat_of_nonneg hx0] using h2

/-- C19: two candidates of one channel whose cells are within Chebyshev distance 1
of each other have equal scores; and a cell that has, within Chebyshev distance 1
and on the grid, a cell of the same channel with a strictly greater value is not a
candidate, whatever score is put with it. -/
theorem adjacent_candidates_tie (heatmaps : Tensor) :
    (∀ (c : Nat) (v₁ v₂ : ℚ) (x₁ y₁ x₂ y₂ : Int),
        (⟨c, v₁, ⟨(x₁ : ℚ), (y₁ : ℚ)⟩⟩ : Part) ∈ extractParts heatmaps →
        (⟨c, v₂, ⟨(x₂ : ℚ), (y₂ : ℚ)⟩⟩ : Part) ∈ extractParts heatmaps →
        -1 ≤ x₂ - x₁ → x₂ - x₁ ≤ 1 → -1 ≤ y₂ - y₁ → y₂ - y₁ ≤ 1 → v₁ = v₂)
    ∧ (∀ (c : Nat) (v : ℚ) (x y x' y' : Int),
        0 ≤ y' → y' < heatmaps.height → 0 ≤ x' → x' < heatmaps.width →
        -1 ≤ x' - x → x' - x ≤ 1 → -1 ≤ y' - y → y' - y ≤ 1 →
        heatmaps.read c y' x' > heatmaps.read c y x →
        (⟨c, v, ⟨(x : ℚ), (y : ℚ)⟩⟩ : Part) ∉ extractParts heatmaps) := by
  have key : ∀ (c : Nat) (x y x' y' : Int), IsCandidate heatmaps c y x →
      0 ≤ y' → y' < heatmaps.height → 0 ≤ x' → x' < heatmaps.width →
      -1 ≤ x' - x → x' - x ≤ 1 → -1 ≤ y' - y → y' - y ≤ 1 →
      heatmaps.read c y' x' ≤ heatmaps.read c y x := by
    intro c x y x' y' hc hy0 hy1 hx0 hx1 a1 a2 b1 b2
    have h := hc.2.2.2.2 (y' - y) (x' - x) b1 b2 a1 a2
    unfold Tensor.readOrZero at h
    have ey : y + (y' - y) = y' := by ring
    have ex : x + (x' - x) = x' := by ring
    rw [ey, ex, if_pos ⟨hy0, hy1, hx0, hx1⟩] at h
    exact h
  constructor
  · intro c v₁ v₂ x₁ y₁ x₂ y₂ h₁ h₂ a1 a2 b1 b2
    rw [mem_extractParts_cell] at h₁ h₂
    obtain ⟨rfl, c₁⟩ := h₁
    obtain ⟨rfl, c₂⟩ := h₂
    have k₁ := key c x₁ y₁ x₂ y₂ c₁ c₂.2.1.1 c₂.2.1.2 c₂.2.2.1.1 c₂.2.2.1.2 a1 a2 b1 b2
    have k₂ := key c x₂ y₂ x₁ y₁ c₂ c₁.2.1.1 c₁.2.1.2 c₁.2.2.1.1 c₁.2.2.1.2
      (by omega) (by omega) (by omega) (by omega)
    exact le_antisymm k₂ k₁
  · intro c v x y x' y' hy0 hy1 hx0 hx1 a1 a2 b1 b2 hgt hmem
    rw [mem_extractParts_cell] at hmem
    have k := key c x y x' y' hmem.2 hy0 hy1 hx0 hx1 a1 a2 b1 b2
    exact absurd hgt (not_lt.mpr k)

/-- Witness of C19 on `adjacentHeatmap`: the cell of column 1, of value 0.8, is next
to the cell of column 0, of value 0.9, and is not a candidate; the candidates are
the cell of column 0 alone. -/
theorem adjacent_candidates_tie_witness :
    adjacentHeatmap.read (0 : Nat) 0 0 > adjacentHeatmap.read (0 : Nat) 0 1
    ∧ (⟨0, 8 / 10, ⟨((1 : Int) : ℚ), ((0 : Int) : ℚ)⟩⟩ : Part) ∉ extractParts adjacentHeatmap
    ∧ extractParts adjacentHeatmap = [⟨0, 9 / 10, ⟨0, 0⟩⟩] :=
  ⟨by decide!,
    (adjacent_candidates_tie adjacentHeatmap).2 0 (8 / 10) 1 0 0 0 (by decide) (by decide)
      (by decide) (by decide) (by decide) (by decide) (by decide) (by decide) (by decide!),
    by decide!⟩

/-- C20: in `getInstanceScore` the branch taken when no pose has been accepted (the
plain sum of the 17 keypoint scores, divided by 17) gives the value that the general
branch (the sum of the scores of the keypoints not within the NMS radius, divided by
17) gives on an empty list of accepted poses. -/
theorem getInstanceScore_branches_agree (scores : List ℚ) (coords : List Point) :
    sumAllScores scores NUM_KEYPOINTS 0 0 / (NUM_KEYPOINTS : ℚ)
        = sumNotOverlapped [] scores coords NUM_KEYPOINTS 0 0 / (NUM_KEYPOINTS : ℚ)
      ∧ getInstanceScore [] scores coords
        = sumNotOverlapped [] scores coords NUM_KEYPOINTS 0 0 / (NUM_KEYPOINTS : ℚ) := by
  have h : sumAllScores scores NUM_KEYPOINTS 0 0
      = sumNotOverlapped [] scores coords NUM_KEYPOINTS 0 0 := by
    rw [sumAllScores_eq, sumNotOverlapped_eq]
    simp only [not_withinRadius_nil, if_false]
  refine ⟨by rw [h], ?_⟩
  unfold getInstanceScore
  simp only [List.length_nil, if_true]
  rw [h]

/-- C16: when every value of the heatmap is below 0.5, there is no candidate and
`decodeMultiPose`, called with empty output lists, returns empty lists; `sort` is
any function that permutes its argument. -/
theorem decodeMultiPose_below_threshold (sort : List Part → List Part)
    (hsort : ∀ l, (sort l).Perm l) (chain : Chain)
    (offsets displacementFwd displacementBwd heatmaps : Tensor) (scale : Point)
    (hlow : ∀ c y x : Int, 0 ≤ c → c < heatmaps.channel → 0 ≤ y → y < heatmaps.height →
      0 ≤ x → x < heatmaps.width → heatmaps.read c y x < 1 / 2) :
    extractParts heatmaps = []
      ∧ decodeMultiPose sort chain offsets displacementFwd displacementBwd heatmaps
          emptyPoseSet scale = emptyPoseSet := by
  have hnil : extractParts heatmaps = [] := by
    rw [List.eq_nil_iff_forall_not_mem]
    intro p hp
    rw [mem_extractParts] at hp
    obtain ⟨id, y, x, hid, hy, hx, -, hge, -⟩ := hp
    have := hlow id y x (by omega) (by omega) (by omega) (by omega) (by omega) (by omega)
    exact absurd hge (not_le.mpr this)
  refine ⟨hnil, ?_⟩
  have hs : sort (extractParts heatmaps) = [] := by
    rw [hnil]
    exact List.Perm.eq_nil (hsort [])
  unfold decodeMultiPose
  simp only [hs]
  rfl

/-- Witness of C16: a heatmap that is 0.4 everywhere, on a grid of 3 rows and 4
columns, gives empty output lists. -/
theorem decodeMultiPose_below_threshold_witness :
    decodeMultiPose id poseChain (constTensor 34 3 4 0) (constTensor 32 3 4 0)
        (constTensor 32 3 4 0) (constTensor 17 3 4 (4 / 10)) emptyPoseSet ⟨1, 1⟩ = emptyPoseSet :=
  (decodeMultiPose_below_threshold id (fun l => List.Perm.refl l) poseChain (constTensor 34 3 4 0)
    (constTensor 32 3 4 0) (constTensor 32 3 4 0) (constTensor 17 3 4 (4 / 10)) ⟨1, 1⟩
    (fun _ _ _ _ _ _ _ _ _ => by
      show (4 / 10 : ℚ) < 1 / 2
      norm_num)).2

/-! ## The final scaling and the shape of the output -/

theorem getD_set_eq {α : Type} (l : List α) (i : Nat) (a d : α) (h : i < l.length) :
    (l.set i a).getD i d = a := by
  simp only [List.getD_eq_getElem?_getD, List.getElem?_set, if_true, if_pos h, Option.getD_some]

theorem set_getD_self {α : Type} (l : List α) (i : Nat) (d : α) : l.set i (l.getD i d) = l := by
  induction l generalizing i with
  | nil => rfl
  | cons a l ih =>
    cases i with
    | zero => rfl
    | succ i =>
      have h : (a :: l).getD (i + 1) d = l.getD i d := by
        simp only [List.getD_eq_getElem?_getD, List.getElem?_cons_succ]
      rw [h, List.set_cons_succ, ih]

theorem backwardEdge_lengths (heatmaps offsets displacementBwd : Tensor) (chain : Chain)
    (edge : Nat) (inst : Instance) :
    (backwardEdge heatmaps offsets displacementBwd chain edge inst).scores.length
        = inst.scores.length
      ∧ (backwardEdge heatmaps offsets displacementBwd chain edge inst).coords.length
        = inst.coords.length := by
  unfold backwardEdge
  simp only []
  split
  · exact ⟨List.length_set _ _ _, List.length_set _ _ _⟩
  · exact ⟨rfl, rfl⟩

theorem forwardEdge_lengths (heatmaps offsets displacementFwd : Tensor) (chain : Chain)
    (edge : Nat) (inst : Instance) :
    (forwardEdge heatmaps offsets displacementFwd chain edge inst).scores.length
        = inst.scores.length
      ∧ (forwardEdge heatmaps offsets displacementFwd chain edge inst).coords.length
        = inst.coords.length := by
  unfold forwardEdge
  simp only []
  split
  · exact ⟨List.length_set _ _ _, List.length_set _ _ _⟩
  · exact ⟨rfl, rfl⟩

theorem backwardLoop_lengths (heatmaps offsets displacementBwd : Tensor) (chain : Chain)
    (n : Nat) (inst : Instance) :
    (backwardLoop heatmaps offsets displacementBwd chain n inst).scores.length
        = inst.scores.length
      ∧ (backwardLoop heatmaps offsets displacementBwd chain n inst).coords.length
        = inst.coords.length := by
  induction n generalizing inst with
  | zero => exact ⟨rfl, rfl⟩
  | succ n ih =>
    have h := backwardEdge_lengths heatmaps offsets displacementBwd chain n inst
    have h' := ih (backwardEdge heatmaps offsets displacementBwd chain n inst)
    rw [backwardLoop]
    exact ⟨h'.1.trans h.1, h'.2.trans h.2⟩

theorem forwardLoop_lengths (heatmaps offsets displacementFwd : Tensor) (chain : Chain)
    (n edge : Nat) (inst : Instance) :
    (forwardLoop heatmaps offsets displacementFwd chain n edge inst).scores.length
        = inst.scores.length
      ∧ (forwardLoop heatmaps offsets displacementFwd chain n edge inst).coords.length
        = inst.coords.length := by
  induction n generalizing edge inst with
  | zero => exact ⟨rfl, rfl⟩
  | succ n ih =>
    have h := forwardEdge_lengths heatmaps offsets displacementFwd chain edge inst
    have h' := ih (edge + 1) (forwardEdge heatmaps offsets displacementFwd chain edge inst)
    rw [forwardLoop]
    exact ⟨h'.1.trans h.1, h'.2.trans h.2⟩

theorem decodeInstance_lengths (chain : Chain)
    (offsets displacementFwd displacementBwd heatmaps : Tensor) (part : Part) :
    (decodeInstance chain offsets displacementFwd displacementBwd heatmaps part).scores.length = 17
      ∧ (decodeInstance chain offsets displacementFwd displacementBwd heatmaps part).coords.length
        = 17 := by
  unfold decodeInstance decodePoseImpl
  simp only []
  constructor
  · rw [(forwardLoop_lengths _ _ _ _ _ _ _).1, (backwardLoop_lengths _ _ _ _ _ _).1,
      List.length_set]
    rfl
  · rw [(forwardLoop_lengths _ _ _ _ _ _ _).2, (backwardLoop_lengths _ _ _ _ _ _).2,
      List.length_set]
    rfl

theorem decodeLoop_allSized (chain : Chain)
    (offsets displacementFwd displacementBwd heatmaps : Tensor) (parts : List Part)
    (poseCount : Nat) (out : PoseSet) (h : AllSized out) :
    AllSized
      (decodeLoop chain offsets displacementFwd displacementBwd heatmaps parts poseCount out).2 := by
  induction parts generalizing poseCount out with
  | nil => exact h
  | cons part rest ih =>
    rw [decodeLoop_cons]
    split
    · exact h
    · split
      · exact ih _ _ h
      · split
        · refine ih _ _ ⟨?_, ?_⟩
          · intro s hs
            rcases List.mem_append.mp hs with hs | hs
            · exact h.1 s hs
            · rw [List.mem_singleton.mp hs]
              exact (decodeInstance_lengths chain offsets displacementFwd displacementBwd heatmaps
                part).1
          · intro c hc
            rcases List.mem_append.mp hc with hc | hc
            · exact h.2 c hc
            · rw [List.mem_singleton.mp hc]
              exact (decodeInstance_lengths chain offsets displacementFwd displacementBwd heatmaps
                part).2
        · exact ih _ _ h

theorem allSized_empty : AllSized emptyPoseSet :=
  ⟨fun _ hs => absurd hs (List.not_mem_nil _), fun _ hc => absurd hc (List.not_mem_nil _)⟩

theorem map_length_scaleKeypoints (scale : Point) (i n id : Nat) (coords : List (List Point)) :
    (scaleKeypoints scale i n id coords).map List.length = coords.map List.length := by
  induction n generalizing id coords with
  | zero => rfl
  | succ n ih =>
    rw [scaleKeypoints, ih, List.map_set, List.length_set]
    have e : (coords.getD i []).length = (coords.map List.length).getD i 0 := by
      have := List.getD_map (l := coords) (n := i) (d := []) List.length
      exact this.symm
    rw [e, set_getD_self]

theorem map_length_scalePoses (scale : Point) (n i : Nat) (coords : List (List Point)) :
    (scalePoses scale n i coords).map List.length = coords.map List.length := by
  induction n generalizing i coords with
  | zero => rfl
  | succ n ih => rw [scalePoses, ih, map_length_scaleKeypoints]

/-- C13: from empty output lists, the three returned lists have one length, and
every returned vector of keypoint scores and of keypoint coordinates has exactly 17
entries. -/
theorem decodeMultiPose_shape (sort : List Part → List Part) (chain : Chain)
    (offsets displacementFwd displacementBwd heatmaps : Tensor) (scale : Point) :
    (decodeMultiPose sort chain offsets displacementFwd displacementBwd heatmaps
        emptyPoseSet scale).poseKeypointScores.length
      = (decodeMultiPose sort chain offsets displacementFwd displacementBwd heatmaps
        emptyPoseSet scale).poseScores.length
    ∧ (decodeMultiPose sort chain offsets displacementFwd displacementBwd heatmaps
        emptyPoseSet scale).poseKeypointCoords.length
      = (decodeMultiPose sort chain offsets displacementFwd displacementBwd heatmaps
        emptyPoseSet scale).poseScores.length
    ∧ (∀ s ∈ (decodeMultiPose sort chain offsets displacementFwd displacementBwd heatmaps
        emptyPoseSet scale).poseKeypointScores, s.length = 17)
    ∧ (∀ c ∈ (decodeMultiPose sort chain offsets displacementFwd displacementBwd heatmaps
        emptyPoseSet scale).poseKeypointCoords, c.length = 17) := by
  obtain ⟨k1, k2, -⟩ := decodeLoop_acceptedOk chain offsets displacementFwd displacementBwd
    heatmaps (sort (extractParts heatmaps)) 0 emptyPoseSet acceptedOk_empty
  obtain ⟨s1, s2⟩ := decodeLoop_allSized chain offsets displacementFwd displacementBwd
    heatmaps (sort (extractParts heatmaps)) 0 emptyPoseSet allSized_empty
  refine ⟨k1, ?_, s1, ?_⟩
  · show (scalePoses scale _ 0 _).length = _
    rw [length_scalePoses]
    exact k2
  · intro c hc
    have hc' : c.length ∈ (scalePoses scale
        (decodeLoop chain offsets displacementFwd displacementBwd heatmaps
          (sort (extractParts heatmaps)) 0 emptyPoseSet).1 0
        (decodeLoop chain offsets displacementFwd displacementBwd heatmaps
          (sort (extractParts heatmaps)) 0 emptyPoseSet).2.poseKeypointCoords).map List.length :=
      List.mem_map_of_mem _ hc
    rw [map_length_scalePoses] at hc'
    obtain ⟨c', hc'mem, hlen⟩ := List.mem_map.mp hc'
    rw [← hlen]
    exact s2 c' hc'mem

/-- Witness of C13: on a one-cell grid whose heatmap is 0.9 in every channel, the
vector of 17 scores 0.9 is returned, and it has 17 entries. -/
theorem decodeMultiPose_shape_witness :
    List.replicate 17 (9 / 10 : ℚ)
        ∈ (decodeMultiPose id poseChain (constTensor 34 1 1 0) (constTensor 32 1 1 0)
            (constTensor 32 1 1 0) (constTensor 17 1 1 (9 / 10)) emptyPoseSet
            ⟨1, 1⟩).poseKeypointScores
      ∧ (List.replicate 17 (9 / 10 : ℚ)).length = 17 :=
  ⟨by decide!,
    (decodeMultiPose_shape id poseChain (constTensor 34 1 1 0) (constTensor 32 1 1 0)
      (constTensor 32 1 1 0) (constTensor 17 1 1 (9 / 10)) ⟨1, 1⟩).2.2.1 _ (by decide!)⟩

theorem getD_mem_take {α : Type} (l : List α) (i j : Nat) (d : α) (hij : i < j)
    (hi : i < l.length) : l.getD i d ∈ l.take j := by
  apply List.getElem?_mem (n := i)
  rw [List.getElem?_take_of_lt hij, List.getD_eq_getElem?_getD, List.getElem?_eq_getElem hi]
  rfl

/-- C12 as stated fails: on a grid of 1 row and 2 columns with heatmap 0.9, zero
displacements and `nearOffsets`, two poses are accepted with every keypoint at
(0, 0) and at (20.02, 0), more than 20 pixels apart; with the scale 512 / 513, the
scale that `main` computes for an image 512 pixels wide, keypoint 0 is returned at
(0, 0) and at about (19.98, 0), within 20 pixels, yet keypoint 0 of the second pose
was not within the radius when scored and contributed its score 0.9. -/
theorem nms_returned_coordinates_counterexample :
    (decodeMultiPose id poseChain nearOffsets (constTensor 32 1 2 0)
        (constTensor 32 1 2 0) (constTensor 17 1 2 (9 / 10)) emptyPoseSet
        ⟨512 / 513, 512 / 513⟩).poseScores.length = 2
    ∧ keypointAt (acceptedPoses id poseChain nearOffsets (constTensor 32 1 2 0)
          (constTensor 32 1 2 0) (constTensor 17 1 2 (9 / 10))).poseKeypointCoords 1 0
        = ⟨1001 / 50, 0⟩
    ∧ sqDist
        (keypointAt (decodeMultiPose id poseChain nearOffsets (constTensor 32 1 2 0)
          (constTensor 32 1 2 0) (constTensor 17 1 2 (9 / 10)) emptyPoseSet
          ⟨512 / 513, 512 / 513⟩).poseKeypointCoords 0 0)
        (keypointAt (decodeMultiPose id poseChain nearOffsets (constTensor 32 1 2 0)
          (constTensor 32 1 2 0) (constTensor 17 1 2 (9 / 10)) emptyPoseSet
          ⟨512 / 513, 512 / 513⟩).poseKeypointCoords 1 0) ≤ 400
    ∧ withinNMSRadius
        ((acceptedPoses id poseChain nearOffsets (constTensor 32 1 2 0)
          (constTensor 32 1 2 0) (constTensor 17 1 2 (9 / 10))).poseKeypointCoords.take 1)
        (keypointAt (acceptedPoses id poseChain nearOffsets (constTensor 32 1 2 0)
          (constTensor 32 1 2 0) (constTensor 17 1 2 (9 / 10))).poseKeypointCoords 1 0) 0 = false
    ∧ contribution
        ((acceptedPoses id poseChain nearOffsets (constTensor 32 1 2 0)
          (constTensor 32 1 2 0) (constTensor 17 1 2 (9 / 10))).poseKeypointCoords.take 1)
        ((acceptedPoses id poseChain nearOffsets (constTensor 32 1 2 0)
          (constTensor 32 1 2 0) (constTensor 17 1 2 (9 / 10))).poseKeypointScores.getD 1 [])
        ((acceptedPoses id poseChain nearOffsets (constTensor 32 1 2 0)
          (constTensor 32 1 2 0) (constTensor 17 1 2 (9 / 10))).poseKeypointCoords.getD 1 [])
        0 = 9 / 10 := by
  decide!

/-! ## Keypoints that the propagation leaves alone -/

theorem backwardEdge_eq_propagateStep (heatmaps offsets displacementBwd : Tensor) (chain : Chain)
    (edge : Nat) (inst : Instance) :
    backwardEdge heatmaps offsets displacementBwd chain edge inst
      = propagateStep heatmaps offsets displacementBwd edge (chain.getD edge (0, 0)).2
          (chain.getD edge (0, 0)).1 inst := rfl

theorem forwardEdge_eq_propagateStep (heatmaps offsets displacementFwd : Tensor) (chain : Chain)
    (edge : Nat) (inst : Instance) :
    forwardEdge heatmaps offsets displacementFwd chain edge inst
      = propagateStep heatmaps offsets displacementFwd edge (chain.getD edge (0, 0)).1
          (chain.getD edge (0, 0)).2 inst := rfl

theorem propagateStep_of_ne (heatmaps offsets D : Tensor) (edge source target : Nat)
    (inst : Instance) (k : Nat) (hk : inst.scores.getD k 0 ≠ 0) :
    (propagateStep heatmaps offsets D edge source target inst).scores.getD k 0
        = inst.scores.getD k 0
      ∧ (propagateStep heatmaps offsets D edge source target inst).coords.getD k default
        = inst.coords.getD k default := by
  unfold propagateStep
  split
  · rename_i h
    have hne : k ≠ target := fun e => hk (e ▸ h.2)
    exact ⟨getD_set_ne _ _ _ _ _ hne, getD_set_ne _ _ _ _ _ hne⟩
  · exact ⟨rfl, rfl⟩

theorem backwardLoop_of_ne (heatmaps offsets displacementBwd : Tensor) (chain : Chain)
    (n : Nat) (inst : Instance) (k : Nat) (hk : inst.scores.getD k 0 ≠ 0) :
    (backwardLoop heatmaps offsets displacementBwd chain n inst).scores.getD k 0
        = inst.scores.getD k 0
      ∧ (backwardLoop heatmaps offsets displacementBwd chain n inst).coords.getD k default
        = inst.coords.getD k default := by
  induction n generalizing inst with
  | zero => exact ⟨rfl, rfl⟩
  | succ n ih =>
    have h := propagateStep_of_ne heatmaps offsets displacementBwd n (chain.getD n (0, 0)).2
      (chain.getD n (0, 0)).1 inst k hk
    rw [← backwardEdge_eq_propagateStep] at h
    have h' := ih (backwardEdge heatmaps offsets displacementBwd chain n inst) (by rw [h.1]; exact hk)
    rw [backwardLoop]
    exact ⟨h'.1.trans h.1, h'.2.trans h.2⟩

theorem forwardLoop_of_ne (heatmaps offsets displacementFwd : Tensor) (chain : Chain)
    (n edge : Nat) (inst : Instance) (k : Nat) (hk : inst.scores.getD k 0 ≠ 0) :
    (forwardLoop heatmaps offsets displacementFwd chain n edge inst).scores.getD k 0
        = inst.scores.getD k 0
      ∧ (forwardLoop heatmaps offsets displacementFwd chain n edge inst).coords.getD k default
        = inst.coords.getD k default := by
  induction n generalizing edge inst with
  | zero => exact ⟨rfl, rfl⟩
  | succ n ih =>
    have h := propagateStep_of_ne heatmaps offsets displacementFwd edge
      (chain.getD edge (0, 0)).1 (chain.getD edge (0, 0)).2 inst k hk
    rw [← forwardEdge_eq_propagateStep] at h
    have h' := ih (edge + 1) (forwardEdge heatmaps offsets displacementFwd chain edge inst)
      (by rw [h.1]; exact hk)
    rw [forwardLoop]
    exact ⟨h'.1.trans h.1, h'.2.trans h.2⟩

theorem decodePoseImpl_seed (chain : Chain) (curScore : ℚ) (curId : Nat) (p : Point)
    (heatmaps offsets displacementFwd displacementBwd : Tensor) (inst : Instance)
    (hs : curScore ≠ 0) (h1 : curId < inst.scores.length) (h2 : curId < inst.coords.length) :
    (decodePoseImpl chain curScore curId p heatmaps offsets displacementFwd displacementBwd
        inst).scores.getD curId 0 = curScore
      ∧ (decodePoseImpl chain curScore curId p heatmaps offsets displacementFwd displacementBwd
        inst).coords.getD curId default = p := by
  unfold decodePoseImpl
  simp only []
  have a1 : (inst.scores.set curId curScore).getD curId 0 = curScore := getD_set_eq _ _ _ _ h1
  have a2 : (inst.coords.set curId p).getD curId default = p := getD_set_eq _ _ _ _ h2
  have b := backwardLoop_of_ne heatmaps offsets displacementBwd chain chain.length
    ⟨inst.scores.set curId curScore, inst.coords.set curId p⟩ curId (by rw [a1]; exact hs)
  have c := forwardLoop_of_ne heatmaps offsets displacementFwd chain chain.length 0
    (backwardLoop heatmaps offsets displacementBwd chain chain.length
      ⟨inst.scores.set curId curScore, inst.coords.set curId p⟩) curId
    (by rw [b.1, a1]; exact hs)
  exact ⟨c.1.trans (b.1.trans a1), c.2.trans (b.2.trans a2)⟩

/-- C18: after `decodePoseImpl` the keypoint of the seed type still has the score
and the coordinate of the seed, for a seed score of at least 0.5, a seed type within
the instance vectors and any tensors and skeleton; and an edge step of either pass
leaves every keypoint of nonzero score as it is. -/
theorem decodePoseImpl_seed_preserved (chain : Chain) (s : ℚ) (t : Nat) (p : Point)
    (heatmaps offsets displacementFwd displacementBwd : Tensor) (inst : Instance)
    (hs : s ≥ 1 / 2) (h1 : t < inst.scores.length) (h2 : t < inst.coords.length) :
    ((decodePoseImpl chain s t p heatmaps offsets displacementFwd displacementBwd
        inst).scores.getD t 0 = s
      ∧ (decodePoseImpl chain s t p heatmaps offsets displacementFwd displacementBwd
        inst).coords.getD t default = p)
    ∧ ∀ (edge k : Nat) (cur : Instance), cur.scores.getD k 0 ≠ 0 →
        ((backwardEdge heatmaps offsets displacementBwd chain edge cur).scores.getD k 0
            = cur.scores.getD k 0
          ∧ (backwardEdge heatmaps offsets displacementBwd chain edge cur).coords.getD k default
            = cur.coords.getD k default)
        ∧ ((forwardEdge heatmaps offsets displacementFwd chain edge cur).scores.getD k 0
            = cur.scores.getD k 0
          ∧ (forwardEdge heatmaps offsets displacementFwd chain edge cur).coords.getD k default
            = cur.coords.getD k default) := by
  refine ⟨decodePoseImpl_seed chain s t p heatmaps offsets displacementFwd displacementBwd inst
    (by intro h; rw [h] at hs; norm_num at hs) h1 h2, ?_⟩
  intro edge k cur hk
  rw [backwardEdge_eq_propagateStep, forwardEdge_eq_propagateStep]
  exact ⟨propagateStep_of_ne _ _ _ _ _ _ _ _ hk, propagateStep_of_ne _ _ _ _ _ _ _ _ hk⟩

/-- Witness of C18: a seed of type 1 with score 0.9 at the point (3, 4), decoded on
`heatmapExample` from the zero instance, is still keypoint 1 of the result. -/
theorem decodePoseImpl_seed_preserved_witness :
    (9 / 10 : ℚ) ≥ 1 / 2
    ∧ (1 < zeroInstance.scores.length ∧ 1 < zeroInstance.coords.length)
    ∧ (decodePoseImpl poseChain (9 / 10) 1 ⟨3, 4⟩ heatmapExample (constTensor 34 1 1 0)
        (constTensor 32 1 1 0) (constTensor 32 1 1 0) zeroInstance).scores.getD 1 0 = 9 / 10
    ∧ (decodePoseImpl poseChain (9 / 10) 1 ⟨3, 4⟩ heatmapExample (constTensor 34 1 1 0)
        (constTensor 32 1 1 0) (constTensor 32 1 1 0) zeroInstance).coords.getD 1 default
      = ⟨3, 4⟩ :=
  ⟨by norm_num, by decide,
    (decodePoseImpl_seed_preserved poseChain (9 / 10) 1 ⟨3, 4⟩ heatmapExample
      (constTensor 34 1 1 0) (constTensor 32 1 1 0) (constTensor 32 1 1 0) zeroInstance
      (by norm_num) (by decide) (by decide)).1⟩

/-! ## Scenario A: a single maximum -/

theorem traverse_score_eq_read (heatmaps offsets D : Tensor) (e t : Int) (s : Point)
    (hH : 1 ≤ heatmaps.height) (hW : 1 ≤ heatmaps.width) :
    ∃ cy cx : Int, (0 ≤ cy ∧ cy < heatmaps.height) ∧ (0 ≤ cx ∧ cx < heatmaps.width)
      ∧ (traverseToTargetKeypoint heatmaps offsets e s t D).1 = heatmaps.read t cy cx := by
  unfold traverseToTargetKeypoint
  simp only [toInt_clip_round, getCoordsFromTensor_false]
  exact ⟨_, _, gridIndex_bounds _ _ hH, gridIndex_bounds _ _ hW, rfl⟩

theorem decodeLoop_coords_append (chain : Chain)
    (offsets displacementFwd displacementBwd heatmaps : Tensor) (parts : List Part)
    (poseCount : Nat) (out : PoseSet) :
    ∃ ext, (decodeLoop chain offsets displacementFwd displacementBwd heatmaps parts poseCount
        out).2.poseKeypointCoords = out.poseKeypointCoords ++ ext := by
  induction parts generalizing poseCount out with
  | nil => exact ⟨[], (List.append_nil _).symm⟩
  | cons part rest ih =>
    rw [decodeLoop_cons]
    split
    · exact ⟨[], (List.append_nil _).symm⟩
    · split
      · exact ih _ _
      · split
        · obtain ⟨ext, h⟩ := ih (poseCount + 1)
            ⟨out.poseScores ++ [getInstanceScore out.poseKeypointCoords
                (decodeInstance chain offsets displacementFwd displacementBwd heatmaps part).scores
                (decodeInstance chain offsets displacementFwd displacementBwd heatmaps part).coords],
              out.poseKeypointScores
                ++ [(decodeInstance chain offsets displacementFwd displacementBwd heatmaps
                      part).scores],
              out.poseKeypointCoords
                ++ [(decodeInstance chain offsets displacementFwd displacementBwd heatmaps
                      part).coords]⟩
          exact ⟨(decodeInstance chain offsets displacementFwd displacementBwd heatmaps
            part).coords :: ext, by rw [h]; exact List.append_assoc _ _ _⟩
        · exact ih _ _

theorem exists_split_after (l pre post : List Part) (A B : Part)
    (hsorted : l.Pairwise (fun p q => p.score ≥ q.score)) (hsplit : l = pre ++ A :: post)
    (hB : B ∈ l) (hscore : A.score > B.score) :
    ∃ pre2 rest, post = pre2 ++ B :: rest := by
  subst hsplit
  rcases List.mem_append.mp hB with h | h
  · have := (List.pairwise_append.mp hsorted).2.2 B h A (List.mem_cons_self _ _)
    exact absurd hscore (not_lt.mpr this)
  · rcases List.mem_cons.mp h with h | h
    · rw [h] at hscore
      exact absurd hscore (lt_irrefl _)
    · exact List.append_of_mem h

/-- C15 as stated fails: on `loneSeedsHeatmap` with `closeSeedOffsets` the extractor
yields two candidates of type 0, of scores 0.9 and 0.8, whose seeds (8, 0) and
(24, 0) are within 20 pixels; the instance of the first is decoded and discarded
(its score is 0.9 / 17), and the second is then not skipped by the seed test: it
is decoded as well. -/
theorem seed_suppression_counterexample :
    sortByScore (extractParts loneSeedsHeatmap)
      = [⟨0, 9 / 10, ⟨0, 0⟩⟩, ⟨0, 8 / 10, ⟨2, 0⟩⟩]
    ∧ sqDist (seedCoords closeSeedOffsets ⟨0, 9 / 10, ⟨0, 0⟩⟩)
        (seedCoords closeSeedOffsets ⟨0, 8 / 10, ⟨2, 0⟩⟩) ≤ 400
    ∧ decodeLoop poseChain closeSeedOffsets (constTensor 32 1 3 0) (constTensor 32 1 3 0)
        loneSeedsHeatmap [⟨0, 9 / 10, ⟨0, 0⟩⟩] 0 emptyPoseSet = (0, emptyPoseSet)
    ∧ withinNMSRadius
        (decodeLoop poseChain closeSeedOffsets (constTensor 32 1 3 0) (constTensor 32 1 3 0)
          loneSeedsHeatmap [⟨0, 9 / 10, ⟨0, 0⟩⟩] 0 emptyPoseSet).2.poseKeypointCoords
        (seedCoords closeSeedOffsets ⟨0, 8 / 10, ⟨2, 0⟩⟩) 0 = false := by
  decide!

/-! ## Completeness of the propagation -/

theorem traverse_score_pos (heatmaps offsets D : Tensor) (hpos : PositiveHeatmap heatmaps)
    (e : Int) (t : Nat) (s : Point) (ht : t < 17) :
    (traverseToTargetKeypoint heatmaps offsets e s t D).1 > 0 := by
  obtain ⟨cy, cx, hcy, hcx, hval⟩ := traverse_score_eq_read heatmaps offsets D e t s
    hpos.2.1 hpos.2.2.1
  rw [hval]
  exact hpos.2.2.2 t cy cx (by omega) (by omega) hcy.1 hcy.2 hcx.1 hcx.2

theorem propagateStep_mono (heatmaps offsets D : Tensor) (edge source target : Nat)
    (inst : Instance) (k : Nat) (hk : inst.scores.getD k 0 > 0) :
    (propagateStep heatmaps offsets D edge source target inst).scores.getD k 0 > 0 := by
  rw [(propagateStep_of_ne heatmaps offsets D edge source target inst k (ne_of_gt hk)).1]
  exact hk

theorem propagateStep_invariant (heatmaps offsets D : Tensor) (hpos : PositiveHeatmap heatmaps)
    (edge source target t : Nat) (htarget : target < 17) (inst : Instance) (w : List Nat)
    (h : PassInvariant t inst w) :
    PassInvariant t (propagateStep heatmaps offsets D edge source target inst)
      (w ++ (if inst.scores.getD source 0 > 0 ∧ inst.scores.getD target 0 = 0
        then [target] else [])) := by
  obtain ⟨hlen, hnn, hseed, hcount⟩ := h
  unfold propagateStep
  by_cases hfire : inst.scores.getD source 0 > 0 ∧ inst.scores.getD target 0 = 0
  · rw [if_pos hfire, if_pos hfire]
    have hv := traverse_score_pos heatmaps offsets D hpos edge target
      (inst.coords.getD source default) htarget
    have htt : target ≠ t := by
      intro e
      rw [e] at hfire
      exact absurd hfire.2 (ne_of_gt hseed)
    have hnew : (inst.scores.set target
        (traverseToTargetKeypoint heatmaps offsets edge (inst.coords.getD source default) target
          D).1).getD target 0
        = (traverseToTargetKeypoint heatmaps offsets edge (inst.coords.getD source default) target
          D).1 := getD_set_eq _ _ _ _ (by omega)
    refine ⟨?_, ?_, ?_, ?_⟩
    · show (inst.scores.set target _).length = 17
      rw [List.length_set]
      exact hlen
    · intro k
      show (inst.scores.set target _).getD k 0 ≥ 0
      by_cases hk : k = target
      · subst hk
        rw [hnew]
        exact le_of_lt hv
      · rw [getD_set_ne _ _ _ _ _ hk]
        exact hnn k
    · show (inst.scores.set target _).getD t 0 > 0
      rw [getD_set_ne _ _ _ _ _ (Ne.symm htt)]
      exact hseed
    · intro k hk
      show (w ++ [target]).count k = if k ≠ t ∧ (inst.scores.set target _).getD k 0 > 0 then 1 else 0
      rw [List.count_append, hcount k hk]
      by_cases hkt : k = target
      · subst hkt
        rw [hnew, List.count_singleton_self]
        have c1 : ¬ (k ≠ t ∧ inst.scores.getD k 0 > 0) := by
          intro hc
          exact absurd hfire.2 (ne_of_gt hc.2)
        rw [if_neg c1, if_pos ⟨htt, hv⟩]
      · rw [getD_set_ne _ _ _ _ _ hkt]
        have c0 : List.count k [target] = 0 := by
          rw [List.count_eq_zero]
          intro hm
          exact hkt (List.mem_singleton.mp hm)
        rw [c0, Nat.add_zero]
  · rw [if_neg hfire, if_neg hfire, List.append_nil]
    exact ⟨hlen, hnn, hseed, hcount⟩

theorem propagateStep_target_pos (heatmaps offsets D : Tensor) (hpos : PositiveHeatmap heatmaps)
    (edge source target t : Nat) (htarget : target < 17) (inst : Instance) (w : List Nat)
    (h : PassInvariant t inst w) (hsrc : inst.scores.getD source 0 > 0) :
    (propagateStep heatmaps offsets D edge source target inst).scores.getD target 0 > 0 := by
  by_cases h0 : inst.scores.getD target 0 = 0
  · unfold propagateStep
    rw [if_pos ⟨hsrc, h0⟩]
    show (inst.scores.set target _).getD target 0 > 0
    rw [getD_set_eq _ _ _ _ (by rw [h.1]; exact htarget)]
    exact traverse_score_pos heatmaps offsets D hpos edge target _ htarget
  · apply propagateStep_mono
    exact lt_of_le_of_ne (h.2.1 target) (Ne.symm h0)

theorem backwardLoop_invariant (heatmaps offsets displacementBwd : Tensor)
    (hpos : PositiveHeatmap heatmaps) (chain : Chain) (root : Nat)
    (htree : IsRootedTree chain root) (t n : Nat) (hn : n ≤ 16) (inst : Instance)
    (w : List Nat) (h : PassInvariant t inst w) :
    PassInvariant t (backwardLoop heatmaps offsets displacementBwd chain n inst)
      (w ++ backwardWrites heatmaps offsets displacementBwd chain n inst) := by
  induction n generalizing inst w with
  | zero =>
    show PassInvariant t inst (w ++ [])
    rw [List.append_nil]
    exact h
  | succ n ih =>
    rw [backwardLoop, backwardWrites, ← List.append_assoc]
    apply ih (by omega)
    rw [backwardEdge_eq_propagateStep]
    exact propagateStep_invariant heatmaps offsets displacementBwd hpos n _ _ t
      (htree.2.2.1 n (by omega)).1 inst w h

theorem backwardLoop_mono (heatmaps offsets displacementBwd : Tensor) (chain : Chain)
    (n : Nat) (inst : Instance) (k : Nat) (hk : inst.scores.getD k 0 > 0) :
    (backwardLoop heatmaps offsets displacementBwd chain n inst).scores.getD k 0 > 0 := by
  rw [(backwardLoop_of_ne heatmaps offsets displacementBwd chain n inst k (ne_of_gt hk)).1]
  exact hk

theorem forwardLoop_mono (heatmaps offsets displacementFwd : Tensor) (chain : Chain)
    (n edge : Nat) (inst : Instance) (k : Nat) (hk : inst.scores.getD k 0 > 0) :
    (forwardLoop heatmaps offsets displacementFwd chain n edge inst).scores.getD k 0 > 0 := by
  rw [(forwardLoop_of_ne heatmaps offsets displacementFwd chain n edge inst k (ne_of_gt hk)).1]
  exact hk

theorem backwardLoop_root_pos (heatmaps offsets displacementBwd : Tensor)
    (hpos : PositiveHeatmap heatmaps) (chain : Chain) (root : Nat)
    (htree : IsRootedTree chain root) (t n : Nat) (hn : n ≤ 16) (inst : Instance)
    (w : List Nat) (h : PassInvariant t inst w) (k : Nat)
    (hk : k = root ∨ ∃ e, e < n ∧ (chain.getD e (0, 0)).2 = k)
    (hkpos : inst.scores.getD k 0 > 0) :
    (backwardLoop heatmaps offsets displacementBwd chain n inst).scores.getD root 0 > 0 := by
  induction n generalizing inst w k with
  | zero =>
    rcases hk with rfl | ⟨e, he, -⟩
    · exact hkpos
    · omega
  | succ n ih =>
    rw [backwardLoop]
    have hstep := propagateStep_invariant heatmaps offsets displacementBwd hpos n
      (chain.getD n (0, 0)).2 (chain.getD n (0, 0)).1 t (htree.2.2.1 n (by omega)).1 inst w h
    rw [← backwardEdge_eq_propagateStep] at hstep
    have hmono : ∀ j, inst.scores.getD j 0 > 0 →
        (backwardEdge heatmaps offsets displacementBwd chain n inst).scores.getD j 0 > 0 := by
      intro j hj
      rw [backwardEdge_eq_propagateStep]
      exact propagateStep_mono _ _ _ _ _ _ _ _ hj
    rcases hk with rfl | ⟨e, he, hek⟩
    · exact ih (by omega) _ _ hstep k (Or.inl rfl) (hmono k hkpos)
    · by_cases hen : e = n
      · subst hen
        have hparent : (backwardEdge heatmaps offsets displacementBwd chain e inst).scores.getD
            (chain.getD e (0, 0)).1 0 > 0 := by
          rw [backwardEdge_eq_propagateStep]
          exact propagateStep_target_pos heatmaps offsets displacementBwd hpos e _ _ t
            (htree.2.2.1 e (by omega)).1 inst w h (by rw [hek]; exact hkpos)
        exact ih (by omega) _ _ hstep (chain.getD e (0, 0)).1
          (htree.2.2.2.2.2 e (by omega)) hparent
      · exact ih (by omega) _ _ hstep k (Or.inr ⟨e, by omega, hek⟩) (hmono k hkpos)

theorem forwardLoop_invariant (heatmaps offsets displacementFwd : Tensor)
    (hpos : PositiveHeatmap heatmaps) (chain : Chain) (root : Nat)
    (htree : IsRootedTree chain root) (t n edge : Nat) (hn : edge + n ≤ 16) (inst : Instance)
    (w : List Nat) (h : PassInvariant t inst w) :
    PassInvariant t (forwardLoop heatmaps offsets displacementFwd chain n edge inst)
      (w ++ forwardWrites heatmaps offsets displacementFwd chain n edge inst) := by
  induction n generalizing edge inst w with
  | zero =>
    show PassInvariant t inst (w ++ [])
    rw [List.append_nil]
    exact h
  | succ n ih =>
    rw [forwardLoop, forwardWrites, ← List.append_assoc]
    apply ih (edge + 1) (by omega)
    rw [forwardEdge_eq_propagateStep]
    exact propagateStep_invariant heatmaps offsets displacementFwd hpos edge _ _ t
      (htree.2.2.1 edge (by omega)).2.1 inst w h

theorem forwardLoop_children_pos (heatmaps offsets displacementFwd : Tensor)
    (hpos : PositiveHeatmap heatmaps) (chain : Chain) (root : Nat)
    (htree : IsRootedTree chain root) (t n edge : Nat) (hn : edge + n ≤ 16) (inst : Instance)
    (w : List Nat) (h : PassInvariant t inst w) (hroot : inst.scores.getD root 0 > 0)
    (hdone : ∀ e, e < edge → inst.scores.getD (chain.getD e (0, 0)).2 0 > 0) :
    (forwardLoop heatmaps offsets displacementFwd chain n edge inst).scores.getD root 0 > 0
      ∧ ∀ e, e < edge + n →
          (forwardLoop heatmaps offsets displacementFwd chain n edge inst).scores.getD
            (chain.getD e (0, 0)).2 0 > 0 := by
  induction n generalizing edge inst w with
  | zero => exact ⟨hroot, hdone⟩
  | succ n ih =>
    rw [forwardLoop]
    have hstep := propagateStep_invariant heatmaps offsets displacementFwd hpos edge
      (chain.getD edge (0, 0)).1 (chain.getD edge (0, 0)).2 t
      (htree.2.2.1 edge (by omega)).2.1 inst w h
    rw [← forwardEdge_eq_propagateStep] at hstep
    have hmono : ∀ j, inst.scores.getD j 0 > 0 →
        (forwardEdge heatmaps offsets displacementFwd chain edge inst).scores.getD j 0 > 0 := by
      intro j hj
      rw [forwardEdge_eq_propagateStep]
      exact propagateStep_mono _ _ _ _ _ _ _ _ hj
    have hsrc : inst.scores.getD (chain.getD edge (0, 0)).1 0 > 0 := by
      rcases htree.2.2.2.2.2 edge (by omega) with hr | ⟨e', he', hc⟩
      · rw [hr]; exact hroot
      · rw [← hc]; exact hdone e' he'
    have hchild : (forwardEdge heatmaps offsets displacementFwd chain edge inst).scores.getD
        (chain.getD edge (0, 0)).2 0 > 0 := by
      rw [forwardEdge_eq_propagateStep]
      exact propagateStep_target_pos heatmaps offsets displacementFwd hpos edge _ _ t
        (htree.2.2.1 edge (by omega)).2.1 inst w h hsrc
    have hres := ih (edge + 1) (by omega) _ _ hstep (hmono root hroot) (by
      intro e he
      by_cases hee : e = edge
      · subst hee; exact hchild
      · exact hmono _ (hdone e (by omega)))
    refine ⟨hres.1, ?_⟩
    intro e he
    exact hres.2 e (by omega)

theorem passInvariant_seeded (s : ℚ) (t : Nat) (p : Point) (hs : s > 0) (ht : t < 17) :
    PassInvariant t ⟨zeroInstance.scores.set t s, zeroInstance.coords.set t p⟩ [] := by
  have hlen : zeroInstance.scores.length = 17 := by
    show (List.replicate NUM_KEYPOINTS (0 : ℚ)).length = 17
    rw [List.length_replicate]
    rfl
  have hzero : ∀ k, zeroInstance.scores.getD k 0 = 0 := by
    intro k
    show (List.replicate NUM_KEYPOINTS (0 : ℚ)).getD k 0 = 0
    simp only [List.getD_eq_getElem?_getD, List.getElem?_replicate]
    split <;> rfl
  have hval : ∀ k, (zeroInstance.scores.set t s).getD k 0 = if k = t then s else 0 := by
    intro k
    by_cases hk : k = t
    · subst hk
      rw [if_pos rfl, getD_set_eq _ _ _ _ (by omega)]
    · rw [if_neg hk, getD_set_ne _ _ _ _ _ hk, hzero]
  refine ⟨by show (zeroInstance.scores.set t s).length = 17; rw [List.length_set]; exact hlen,
    ?_, ?_, ?_⟩
  · intro k
    show (zeroInstance.scores.set t s).getD k 0 ≥ 0
    rw [hval]
    split
    · exact le_of_lt hs
    · exact le_refl _
  · show (zeroInstance.scores.set t s).getD t 0 > 0
    rw [hval, if_pos rfl]
    exact hs
  · intro k _
    show List.count k [] = if k ≠ t ∧ (zeroInstance.scores.set t s).getD k 0 > 0 then 1 else 0
    have c : ¬ (k ≠ t ∧ (zeroInstance.scores.set t s).getD k 0 > 0) := by
      intro hc
      rw [hval, if_neg hc.1] at hc
      exact absurd hc.2 (lt_irrefl _)
    rw [if_neg c]
    rfl

/-- C17: for a skeleton that is a rooted tree of 16 edges over the 17 keypoint
types, listed from the root outwards, a seed of any type with a positive score and
a heatmap whose values are all positive, `decodePoseImpl` run on the zero instance
leaves every one of the 17 keypoints with a nonzero score, writes every keypoint
other than the seed exactly once and never writes the seed. -/
theorem decodePoseImpl_complete (chain : Chain) (root : Nat) (htree : IsRootedTree chain root)
    (s : ℚ) (t : Nat) (p : Point) (hs : s > 0) (ht : t < 17)
    (heatmaps offsets displacementFwd displacementBwd : Tensor)
    (hpos : PositiveHeatmap heatmaps) :
    ∀ k, k < 17 →
      (decodePoseImpl chain s t p heatmaps offsets displacementFwd displacementBwd
          zeroInstance).scores.getD k 0 ≠ 0
      ∧ (k ≠ t →
          (decodePoseImplWrites chain s t p heatmaps offsets displacementFwd displacementBwd
            zeroInstance).count k = 1)
      ∧ (k = t →
          (decodePoseImplWrites chain s t p heatmaps offsets displacementFwd displacementBwd
            zeroInstance).count k = 0) := by
  have hlen : chain.length = 16 := htree.1
  have h0 := passInvariant_seeded s t p hs ht
  have h1 := backwardLoop_invariant heatmaps offsets displacementBwd hpos chain root htree t 16
    (le_refl _) _ _ h0
  have hroot1 := backwardLoop_root_pos heatmaps offsets displacementBwd hpos chain root htree t
    16 (le_refl _) _ _ h0 t
    (by
      by_cases htr : t = root
      · exact Or.inl htr
      · exact Or.inr (htree.2.2.2.2.1 t ht htr))
    h0.2.2.1
  have h2 := forwardLoop_invariant heatmaps offsets displacementFwd hpos chain root htree t 16 0
    (by omega) _ _ h1
  have hall := forwardLoop_children_pos heatmaps offsets displacementFwd hpos chain root htree t
    16 0 (by omega) _ _ h1 hroot1 (by intro e he; omega)
  have hfinal : decodePoseImpl chain s t p heatmaps offsets displacementFwd displacementBwd
      zeroInstance
      = forwardLoop heatmaps offsets displacementFwd chain 16 0
          (backwardLoop heatmaps offsets displacementBwd chain 16
            ⟨zeroInstance.scores.set t s, zeroInstance.coords.set t p⟩) := by
    rw [← hlen]
    rfl
  have hwrites : decodePoseImplWrites chain s t p heatmaps offsets displacementFwd
      displacementBwd zeroInstance
      = [] ++ backwardWrites heatmaps offsets displacementBwd chain 16
            ⟨zeroInstance.scores.set t s, zeroInstance.coords.set t p⟩
          ++ forwardWrites heatmaps offsets displacementFwd chain 16 0
            (backwardLoop heatmaps offsets displacementBwd chain 16
              ⟨zeroInstance.scores.set t s, zeroInstance.coords.set t p⟩) := by
    rw [← hlen]
    rfl
  intro k hk
  have hkpos : (forwardLoop heatmaps offsets displacementFwd chain 16 0
      (backwardLoop heatmaps offsets displacementBwd chain 16
        ⟨zeroInstance.scores.set t s, zeroInstance.coords.set t p⟩)).scores.getD k 0 > 0 := by
    by_cases hkr : k = root
    · rw [hkr]; exact hall.1
    · obtain ⟨e, he, hek⟩ := htree.2.2.2.2.1 k hk hkr
      rw [← hek]
      exact hall.2 e (by omega)
  rw [hfinal, hwrites]
  refine ⟨ne_of_gt hkpos, ?_, ?_⟩
  · intro hkt
    rw [h2.2.2.2 k hk, if_pos ⟨hkt, hkpos⟩]
  · intro hkt
    have c : ¬ (k ≠ t ∧ (forwardLoop heatmaps offsets displacementFwd chain 16 0
      (backwardLoop heatmaps offsets displacementBwd chain 16
        ⟨zeroInstance.scores.set t s, zeroInstance.coords.set t p⟩)).scores.getD k 0 > 0) :=
      fun hc => hc.1 hkt
    rw [h2.2.2.2 k hk, if_neg c]

theorem isRootedTree_poseChain : IsRootedTree poseChain 0 := by
  decide!

/-- Witness of C17: `poseChain` is a tree rooted at the nose (type 0); from a seed of
type 9 with score 0.9, on a one-cell heatmap of value 0.7, the first pass writes
the types 7, 5 and 0 and the second pass the 13 other types, each once; keypoint 16
ends with a nonzero score and is written once. -/
theorem decodePoseImpl_complete_witness :
    IsRootedTree poseChain 0
    ∧ decodePoseImplWrites poseChain (9 / 10) 9 ⟨0, 0⟩ (constTensor 17 1 1 (7 / 10))
        (constTensor 34 1 1 0) (constTensor 32 1 1 0) (constTensor 32 1 1 0) zeroInstance
      = [7, 5, 0, 1, 3, 2, 4, 11, 13, 15, 6, 8, 10, 12, 14, 16]
    ∧ (decodePoseImpl poseChain (9 / 10) 9 ⟨0, 0⟩ (constTensor 17 1 1 (7 / 10))
        (constTensor 34 1 1 0) (constTensor 32 1 1 0) (constTensor 32 1 1 0)
        zeroInstance).scores.getD 16 0 ≠ 0
    ∧ (decodePoseImplWrites poseChain (9 / 10) 9 ⟨0, 0⟩ (constTensor 17 1 1 (7 / 10))
        (constTensor 34 1 1 0) (constTensor 32 1 1 0) (constTensor 32 1 1 0)
        zeroInstance).count 16 = 1 :=
  ⟨isRootedTree_poseChain, by decide!,
    (decodePoseImpl_complete poseChain 0 isRootedTree_poseChain (9 / 10) 9 ⟨0, 0⟩ (by norm_num) (by decide)
      (constTensor 17 1 1 (7 / 10)) (constTensor 34 1 1 0) (constTensor 32 1 1 0)
      (constTensor 32 1 1 0)
      ⟨rfl, by decide, by decide, fun _ _ _ _ _ _ _ _ _ => by
        show (7 / 10 : ℚ) > 0
        norm_num⟩ 16 (by decide)).1,
    ((decodePoseImpl_complete poseChain 0 isRootedTree_poseChain (9 / 10) 9 ⟨0, 0⟩ (by norm_num) (by decide)
      (constTensor 17 1 1 (7 / 10)) (constTensor 34 1 1 0) (constTensor 32 1 1 0)
      (constTensor 32 1 1 0)
      ⟨rfl, by decide, by decide, fun _ _ _ _ _ _ _ _ _ => by
        show (7 / 10 : ℚ) > 0
        norm_num⟩ 16 (by decide)).2.1 (by decide))⟩

/-! # The decoder in `float` arithmetic -/

/-! ## The rounding of binary32 -/

/-- The rounding on some values whose binary32 representation is known: 0.1 is
`0x3DCCCCCD`, 0.9 is `0x3F666666`, 1 / 3 is `0x3EAAAAAB`; `2 ^ 24 + 1` lies halfway
between two floats and goes to the even one, `2 ^ 24`; `2 ^ -150` lies halfway
between 0 and the least positive float and goes to 0; a float is left as it is. -/
theorem roundFloat_values :
    roundFloat (1 / 10) = 13421773 / 134217728
    ∧ roundFloat (9 / 10) = 15099494 / 16777216
    ∧ roundFloat (1 / 3) = 11184811 / 33554432
    ∧ roundFloat 16777217 = 16777216
    ∧ roundFloat 16777219 = 16777220
    ∧ roundFloat (1 / 2 ^ 150) = 0
    ∧ roundFloat (3 / 2 ^ 150) = 1 / 2 ^ 148
    ∧ roundFloat (-13421773 / 134217728) = -13421773 / 134217728
    ∧ roundFloat (3 / 4) = 3 / 4 := by
  decide!

/-! ## The overlap test and the instance score in `float` arithmetic -/

theorem withinNMSRadiusF_eq_true_iff (F : Arith) (accepted : List (List Point)) (point : Point)
    (id : Nat) :
    withinNMSRadiusF F accepted point id = true ↔ OverlapsF F accepted point id := by
  induction accepted with
  | nil => simp [withinNMSRadiusF, OverlapsF]
  | cons cur rest ih =>
    have h400 : ((squareNMSRadius : Int) : ℚ) = 400 := by
      norm_num [squareNMSRadius, NMS_RADIUS]
    unfold withinNMSRadiusF
    simp only [h400]
    by_cases h : overlapSum F (cur.getD id default) point ≤ 400
    · have h' := h
      unfold overlapSum at h'
      simp only [h', if_true, true_iff]
      exact ⟨cur, List.mem_cons_self _ _, h⟩
    · have h' := h
      unfold overlapSum at h'
      simp only [h', if_false, ih]
      constructor
      · rintro ⟨inst, hmem, hd⟩
        exact ⟨inst, List.mem_cons_of_mem _ hmem, hd⟩
      · rintro ⟨inst, hmem, hd⟩
        rcases List.mem_cons.mp hmem with rfl | hmem
        · exact absurd hd h
        · exact ⟨inst, hmem, hd⟩

theorem withinNMSRadiusF_eq_false_iff (F : Arith) (accepted : List (List Point)) (point : Point)
    (id : Nat) :
    withinNMSRadiusF F accepted point id = false ↔ ¬ OverlapsF F accepted point id := by
  rw [← withinNMSRadiusF_eq_true_iff]
  cases withinNMSRadiusF F accepted point id <;> simp

theorem sumAllScoresF_eq (F : Arith) (scores : List ℚ) (n i : Nat) (acc : ℚ) :
    sumAllScoresF F scores n i acc
      = ((List.range n).map (fun k => i + k)).foldl (fun a t => F.add a (scores.getD t 0)) acc := by
  induction n generalizing i acc with
  | zero => rfl
  | succ n ih =>
    rw [sumAllScoresF, ih, List.range_succ_eq_map, List.map_cons, List.foldl_cons, List.map_map]
    have e : ((fun k => i + k) ∘ Nat.succ) = (fun k => i + 1 + k) := by
      funext k; simp only [Function.comp]; omega
    rw [e]
    rfl

theorem sumNotOverlappedF_eq (F : Arith) (accepted : List (List Point)) (scores : List ℚ)
    (coords : List Point) (n i : Nat) (acc : ℚ) :
    sumNotOverlappedF F accepted scores coords n i acc
      = ((List.range n).map (fun k => i + k)).foldl (addKeypoint F accepted scores coords) acc := by
  induction n generalizing i acc with
  | zero => rfl
  | succ n ih =>
    rw [sumNotOverlappedF, ih, List.range_succ_eq_map, List.map_cons, List.foldl_cons, List.map_map]
    have e : ((fun k => i + k) ∘ Nat.succ) = (fun k => i + 1 + k) := by
      funext k; simp only [Function.comp]; omega
    rw [e]
    congr 1
    unfold addKeypoint
    simp only [Nat.add_zero]
    by_cases h : OverlapsF F accepted (coords.getD i default) i
    · rw [(withinNMSRadiusF_eq_true_iff F _ _ _).mpr h, if_pos h]
      rfl
    · rw [(withinNMSRadiusF_eq_false_iff F _ _ _).mpr h, if_neg h]
      rfl

theorem not_overlapsF_nil (F : Arith) (point : Point) (id : Nat) : ¬ OverlapsF F [] point id := by
  simp [OverlapsF]

theorem getInstanceScoreF_eq (F : Arith) (accepted : List (List Point)) (scores : List ℚ)
    (coords : List Point) :
    getInstanceScoreF F accepted scores coords
      = F.div ((List.range 17).foldl (addKeypoint F accepted scores coords) 0) 17 := by
  unfold getInstanceScoreF
  have h17 : ((NUM_KEYPOINTS : Nat) : ℚ) = 17 := by norm_num [NUM_KEYPOINTS]
  have hmap : (List.range NUM_KEYPOINTS).map (fun k => 0 + k) = List.range 17 := by
    simp [NUM_KEYPOINTS]
  simp only [h17]
  by_cases h : accepted.length = 0
  · have hnil : accepted = [] := List.length_eq_zero.mp h
    subst hnil
    simp only [List.length_nil, if_true]
    rw [sumAllScoresF_eq, hmap]
    have e : (fun (a : ℚ) (t : Nat) => F.add a (scores.getD t 0))
        = addKeypoint F [] scores coords := by
      funext a t
      unfold addKeypoint
      rw [if_neg (not_overlapsF_nil F _ _)]
    rw [e]
  · simp only [h, if_false]
    rw [sumNotOverlappedF_eq, hmap]

/-- C1 as stated fails: with no accepted instance and the keypoint scores 0.5,
fifteen times 0.25 and `2 ^ -25`, the float sum of the scores is 4.25 (the last
addition rounds `4.25 + 2 ^ -25` to 4.25) and the returned score is 0.25, which is
not one seventeenth of the sum of the scores, `142606337 / 570425344`. -/
theorem getInstanceScore_float_counterexample :
    getInstanceScoreF float32 [] tinyLastScores (List.replicate 17 ⟨0, 0⟩) = 1 / 4
    ∧ (1 / 17 : ℚ) * ((List.range 17).map (fun t =>
          if WithinRadius [] ((List.replicate 17 (⟨0, 0⟩ : Point)).getD t default) t then 0
          else tinyLastScores.getD t 0)).sum = 142606337 / 570425344
    ∧ getInstanceScoreF float32 [] tinyLastScores (List.replicate 17 ⟨0, 0⟩)
        ≠ (1 / 17 : ℚ) * ((List.range 17).map (fun t =>
          if WithinRadius [] ((List.replicate 17 (⟨0, 0⟩ : Point)).getD t default) t then 0
          else tinyLastScores.getD t 0)).sum := by
  decide!

/-- C1, amended: in the arithmetic `F` of the type `float`, the instance score is
the quotient by 17 of the sum that starts from 0 and goes through the keypoint types
0, ..., 16 in this order, adding the score of a keypoint unless the overlap test of
the program holds for it, that is unless, for some accepted instance, the sum of the
squares of the coordinate differences computed in `F` is at most 400; the sum is
left as it is at such a keypoint. -/
theorem getInstanceScoreF_spec (F : Arith) (accepted : List (List Point)) (scores : List ℚ)
    (coords : List Point) :
    getInstanceScoreF F accepted scores coords
        = F.div ((List.range 17).foldl (addKeypoint F accepted scores coords) 0) 17
      ∧ ∀ (acc : ℚ) (t : Nat),
          addKeypoint F accepted scores coords acc t
            = if ∃ inst ∈ accepted,
                  F.add (F.powf2 (F.sub (inst.getD t default).fX (coords.getD t default).fX))
                    (F.powf2 (F.sub (inst.getD t default).fY (coords.getD t default).fY)) ≤ 400
              then acc else F.add acc (scores.getD t 0) :=
  ⟨getInstanceScoreF_eq F accepted scores coords, fun _ _ => rfl⟩

/-- C3 as stated fails: in binary32 the point (-2 ^ -24, 0) passes the overlap test
against an accepted instance with its keypoint at (20, 0), since the difference of
the x coordinates is rounded to 20 and the sum to 400, yet the squared distance of
the two points is greater than 400. -/
theorem withinNMSRadius_float_counterexample :
    withinNMSRadiusF float32 [List.replicate 17 ⟨20, 0⟩] ⟨-1 / 16777216, 0⟩ 0 = true
    ∧ overlapSum float32 ⟨20, 0⟩ ⟨-1 / 16777216, 0⟩ = 400
    ∧ ¬ ∃ inst ∈ [List.replicate 17 (⟨20, 0⟩ : Point)],
          sqDist (inst.getD 0 default) ⟨-1 / 16777216, 0⟩ ≤ 400 := by
  decide!

/-- C3, amended: in the arithmetic `F` of the type `float`, the overlap test answers
true exactly when, for some accepted instance, the sum of the squares of the
differences between the coordinates of its keypoint of the given type and those of
the point, each difference, square and the sum computed in `F`, is at most 400, the
boundary included; with no accepted instance it answers false. -/
theorem withinNMSRadiusF_spec (F : Arith) (accepted : List (List Point)) (point : Point)
    (id : Nat) :
    (withinNMSRadiusF F accepted point id = true
        ↔ ∃ inst ∈ accepted,
            F.add (F.powf2 (F.sub (inst.getD id default).fX point.fX))
              (F.powf2 (F.sub (inst.getD id default).fY point.fY)) ≤ 400)
      ∧ withinNMSRadiusF F [] point id = false :=
  ⟨withinNMSRadiusF_eq_true_iff F accepted point id, rfl⟩

/-! ## The propagation step in `float` arithmetic -/

theorem toInt_clip_round_eq_clamp (x : ℚ) (dim : Int) :
    toInt (clip (round x) 0 ((dim - 1 : Int) : ℚ)) = clamp (roundHalfAway x) 0 (dim - 1) := by
  rw [round_eq_roundHalfAway]
  unfold clamp clip
  by_cases h0 : roundHalfAway x < 0
  · have h0' : ((roundHalfAway x : Int) : ℚ) < 0 := by exact_mod_cast h0
    rw [if_pos h0, if_pos h0']
    exact toInt_intCast 0
  · have h0' : ¬ ((roundHalfAway x : Int) : ℚ) < 0 := by exact_mod_cast h0
    rw [if_neg h0, if_neg h0']
    by_cases h1 : roundHalfAway x > dim - 1
    · have h1' : ((roundHalfAway x : Int) : ℚ) > ((dim - 1 : Int) : ℚ) := by
        exact_mod_cast h1
      rw [if_pos h1, if_pos h1']
      exact toInt_intCast _
    · have h1' : ¬ ((roundHalfAway x : Int) : ℚ) > ((dim - 1 : Int) : ℚ) := by
        exact_mod_cast h1
      rw [if_neg h1, if_neg h1']
      exact toInt_intCast _

theorem toInt_clip_roundF (F : Arith) (v : ℚ) (dim : Int) :
    toInt (clip (round (F.div v (OUTPUT_STRIDE : ℚ))) 0 ((dim - 1 : Int) : ℚ))
      = gridIndexF F v dim := by
  have h16 : ((OUTPUT_STRIDE : Int) : ℚ) = 16 := by norm_num [OUTPUT_STRIDE]
  rw [h16, toInt_clip_round_eq_clamp]
  rfl

/-- C8 as stated fails: in binary32, for the source (8 - 2 ^ -21, 0) and the x
displacement `3 * 2 ^ -23`, the sum of the two is rounded to 8, so that the target
cell is column 1 (`round(8 / 16) = 1`) and the step returns the heatmap value 0.75 of
that cell and the coordinate (16, 0); the cell of the unrounded sum `8 - 2 ^ -23` is
column 0, with the heatmap value 0.25 and the coordinate (0, 0). -/
theorem traverseToTargetKeypoint_float_counterexample :
    traverseToTargetKeypointF float32 stepHeatmap (constTensor 34 1 2 0) 0
        ⟨16777215 / 2097152, 0⟩ 1 tinyDisplacement = (3 / 4, ⟨16, 0⟩)
    ∧ claimedTraverse stepHeatmap (constTensor 34 1 2 0) tinyDisplacement 0 1
        ⟨16777215 / 2097152, 0⟩ = (1 / 4, ⟨0, 0⟩) := by
  decide!

/-- C8, amended: in the arithmetic `F` of the type `float`, with
`g(p) = (clip(round(p.x / 16), 0, W-1), clip(round(p.y / 16), 0, H-1))` where the
division is that of `F`, the propagation step reads the displacement `d` of edge `e`
at the cell `g(s)`, and with `c = g(s + d)`, the sum `s + d` being computed in `F`,
it returns the heatmap value of channel `t` at the cell `c` together with the
coordinate `c * 16 + off` whose sum is computed in `F`, `off` being the offset
vector of type `t` at `c`. Of a pair of channels of a tensor of `C` channels,
`getCoordsFromTensor` takes the x component from channel `id + C / 2` and the y
component from channel `id`. -/
theorem traverseToTargetKeypointF_spec (F : Arith) (heatmaps offsets D : Tensor) (e t : Int)
    (s : Point) :
    traverseToTargetKeypointF F heatmaps offsets e s t D
      = (heatmaps.read t
            (gridIndexF F (F.add s.fY (D.read e (gridIndexF F s.fY heatmaps.height)
              (gridIndexF F s.fX heatmaps.width))) heatmaps.height)
            (gridIndexF F (F.add s.fX (D.read (e + D.channel / 2)
              (gridIndexF F s.fY heatmaps.height) (gridIndexF F s.fX heatmaps.width)))
              heatmaps.width),
          ⟨F.add
              ((gridIndexF F (F.add s.fX (D.read (e + D.channel / 2)
                (gridIndexF F s.fY heatmaps.height) (gridIndexF F s.fX heatmaps.width)))
                heatmaps.width * 16 : Int) : ℚ)
              (offsets.read (t + offsets.channel / 2)
                  (gridIndexF F (F.add s.fY (D.read e (gridIndexF F s.fY heatmaps.height)
                    (gridIndexF F s.fX heatmaps.width))) heatmaps.height)
                  (gridIndexF F (F.add s.fX (D.read (e + D.channel / 2)
                    (gridIndexF F s.fY heatmaps.height) (gridIndexF F s.fX heatmaps.width)))
                    heatmaps.width)),
            F.add
              ((gridIndexF F (F.add s.fY (D.read e (gridIndexF F s.fY heatmaps.height)
                (gridIndexF F s.fX heatmaps.width))) heatmaps.height * 16 : Int) : ℚ)
              (offsets.read t
                  (gridIndexF F (F.add s.fY (D.read e (gridIndexF F s.fY heatmaps.height)
                    (gridIndexF F s.fX heatmaps.width))) heatmaps.height)
                  (gridIndexF F (F.add s.fX (D.read (e + D.channel / 2)
                    (gridIndexF F s.fY heatmaps.height) (gridIndexF F s.fX heatmaps.width)))
                    heatmaps.width))⟩) := by
  unfold traverseToTargetKeypointF
  simp only [toInt_clip_roundF, getCoordsFromTensor_true, getCoordsFromTensor_false]
  rfl

/-! ## The acceptance loop in `float` arithmetic -/

theorem acceptedOkF_push (F : Arith) (out : PoseSet) (inst : Instance) (h : AcceptedOkF F out)
    (hs : getInstanceScoreF F out.poseKeypointCoords inst.scores inst.coords > MIN_POSE_SCORE) :
    AcceptedOkF F ⟨out.poseScores ++ [getInstanceScoreF F out.poseKeypointCoords inst.scores inst.coords],
      out.poseKeypointScores ++ [inst.scores], out.poseKeypointCoords ++ [inst.coords]⟩ := by
  obtain ⟨h1, h2, h3⟩ := h
  refine ⟨by simp [h1], by simp [h2], ?_⟩
  intro i hi
  simp only [List.length_append, List.length_singleton] at hi
  by_cases hlt : i < out.poseScores.length
  · have e1 : (out.poseScores ++ [getInstanceScoreF F out.poseKeypointCoords inst.scores
        inst.coords]).getD i 0 = out.poseScores.getD i 0 := by
      rw [List.getD_append _ _ _ _ hlt]
    have e2 : (out.poseKeypointScores ++ [inst.scores]).getD i []
        = out.poseKeypointScores.getD i [] := by
      rw [List.getD_append _ _ _ _ (by omega)]
    have e3 : (out.poseKeypointCoords ++ [inst.coords]).getD i []
        = out.poseKeypointCoords.getD i [] := by
      rw [List.getD_append _ _ _ _ (by omega)]
    have e4 : (out.poseKeypointCoords ++ [inst.coords]).take i = out.poseKeypointCoords.take i := by
      rw [List.take_append_of_le_length (by omega)]
    simp only [e1, e2, e3, e4]
    exact h3 i hlt
  · have hi' : i = out.poseScores.length := by omega
    have e1 : (out.poseScores ++ [getInstanceScoreF F out.poseKeypointCoords inst.scores
        inst.coords]).getD i 0
        = getInstanceScoreF F out.poseKeypointCoords inst.scores inst.coords := by
      rw [List.getD_append_right _ _ _ _ (by omega)]
      simp [hi']
    have e2 : (out.poseKeypointScores ++ [inst.scores]).getD i [] = inst.scores := by
      rw [List.getD_append_right _ _ _ _ (by omega)]
      simp [hi', h1]
    have e3 : (out.poseKeypointCoords ++ [inst.coords]).getD i [] = inst.coords := by
      rw [List.getD_append_right _ _ _ _ (by omega)]
      simp [hi', h2]
    have e4 : (out.poseKeypointCoords ++ [inst.coords]).take i = out.poseKeypointCoords := by
      rw [List.take_append_of_le_length (by omega), List.take_of_length_le (by omega)]
    rw [e1, e2, e3, e4]
    exact ⟨by simpa [MIN_POSE_SCORE] using hs, rfl⟩

theorem decodeLoopF_acceptedOk (F : Arith) (chain : Chain)
    (offsets displacementFwd displacementBwd heatmaps : Tensor) (parts : List Part)
    (poseCount : Nat) (out : PoseSet) (h : AcceptedOkF F out) :
    AcceptedOkF F
      (decodeLoopF F chain offsets displacementFwd displacementBwd heatmaps parts poseCount out).2 := by
  induction parts generalizing poseCount out with
  | nil => simpa [decodeLoopF] using h
  | cons part rest ih =>
    unfold decodeLoopF
    simp only []
    split
    · exact h
    · split
      · exact ih _ _ h
      · split
        · rename_i hs
          exact ih _ _ (acceptedOkF_push F out _ h hs)
        · exact ih _ _ h

theorem acceptedOkF_empty (F : Arith) : AcceptedOkF F emptyPoseSet := by
  refine ⟨rfl, rfl, ?_⟩
  intro i hi
  simp [emptyPoseSet] at hi

theorem decodeLoopF_of_full (F : Arith) (chain : Chain)
    (offsets displacementFwd displacementBwd heatmaps : Tensor) (parts : List Part)
    (poseCount : Nat) (out : PoseSet) (h : poseCount ≥ MAX_POSE_DETECTIONS) :
    decodeLoopF F chain offsets displacementFwd displacementBwd heatmaps parts poseCount out
      = (poseCount, out) := by
  cases parts with
  | nil => rfl
  | cons part rest => unfold decodeLoopF; rw [if_pos h]

theorem decodeLoopF_cons (F : Arith) (chain : Chain)
    (offsets displacementFwd displacementBwd heatmaps : Tensor) (part : Part) (rest : List Part)
    (poseCount : Nat) (out : PoseSet) :
    decodeLoopF F chain offsets displacementFwd displacementBwd heatmaps (part :: rest) poseCount out
      = if poseCount ≥ MAX_POSE_DETECTIONS then (poseCount, out)
        else if withinNMSRadiusF F out.poseKeypointCoords (seedCoordsF F offsets part) part.id then
          decodeLoopF F chain offsets displacementFwd displacementBwd heatmaps rest poseCount out
        else if getInstanceScoreF F out.poseKeypointCoords
            (decodeInstanceF F chain offsets displacementFwd displacementBwd heatmaps part).scores
            (decodeInstanceF F chain offsets displacementFwd displacementBwd heatmaps part).coords
            > MIN_POSE_SCORE then
          decodeLoopF F chain offsets displacementFwd displacementBwd heatmaps rest (poseCount + 1)
            ⟨out.poseScores ++ [getInstanceScoreF F out.poseKeypointCoords
                (decodeInstanceF F chain offsets displacementFwd displacementBwd heatmaps part).scores
                (decodeInstanceF F chain offsets displacementFwd displacementBwd heatmaps part).coords],
              out.poseKeypointScores
                ++ [(decodeInstanceF F chain offsets displacementFwd displacementBwd heatmaps
                      part).scores],
              out.poseKeypointCoords
                ++ [(decodeInstanceF F chain offsets displacementFwd displacementBwd heatmaps
                      part).coords]⟩
        else decodeLoopF F chain offsets displacementFwd displacementBwd heatmaps rest poseCount out :=
  rfl

theorem decodeLoopF_append (F : Arith) (chain : Chain)
    (offsets displacementFwd displacementBwd heatmaps : Tensor) (pre rest : List Part)
    (poseCount : Nat) (out : PoseSet) :
    decodeLoopF F chain offsets displacementFwd displacementBwd heatmaps (pre ++ rest) poseCount out
      = decodeLoopF F chain offsets displacementFwd displacementBwd heatmaps rest
          (decodeLoopF F chain offsets displacementFwd displacementBwd heatmaps pre poseCount out).1
          (decodeLoopF F chain offsets displacementFwd displacementBwd heatmaps pre poseCount out).2 := by
  induction pre generalizing poseCount out with
  | nil => rfl
  | cons part pre ih =>
    rw [List.cons_append, decodeLoopF_cons F, decodeLoopF_cons F]
    by_cases hfull : poseCount ≥ MAX_POSE_DETECTIONS
    · rw [if_pos hfull, if_pos hfull]
      exact (decodeLoopF_of_full F chain offsets displacementFwd displacementBwd heatmaps rest
        poseCount out hfull).symm
    · rw [if_neg hfull, if_neg hfull]
      by_cases hw : withinNMSRadiusF F out.poseKeypointCoords (seedCoordsF F offsets part) part.id = true
      · rw [if_pos hw, if_pos hw]
        exact ih _ _
      · rw [if_neg hw, if_neg hw]
        by_cases hs : getInstanceScoreF F out.poseKeypointCoords
            (decodeInstanceF F chain offsets displacementFwd displacementBwd heatmaps part).scores
            (decodeInstanceF F chain offsets displacementFwd displacementBwd heatmaps part).coords
            > MIN_POSE_SCORE
        · rw [if_pos hs, if_pos hs]
          exact ih _ _
        · rw [if_neg hs, if_neg hs]
          exact ih _ _

theorem decodeLoopF_coords_append (F : Arith) (chain : Chain)
    (offsets displacementFwd displacementBwd heatmaps : Tensor) (parts : List Part)
    (poseCount : Nat) (out : PoseSet) :
    ∃ ext, (decodeLoopF F chain offsets displacementFwd displacementBwd heatmaps parts poseCount
        out).2.poseKeypointCoords = out.poseKeypointCoords ++ ext := by
  induction parts generalizing poseCount out with
  | nil => exact ⟨[], (List.append_nil _).symm⟩
  | cons part rest ih =>
    rw [decodeLoopF_cons F]
    split
    · exact ⟨[], (List.append_nil _).symm⟩
    · split
      · exact ih _ _
      · split
        · obtain ⟨ext, h⟩ := ih (poseCount + 1)
            ⟨out.poseScores ++ [getInstanceScoreF F out.poseKeypointCoords
                (decodeInstanceF F chain offsets displacementFwd displacementBwd heatmaps part).scores
                (decodeInstanceF F chain offsets displacementFwd displacementBwd heatmaps part).coords],
              out.poseKeypointScores
                ++ [(decodeInstanceF F chain offsets displacementFwd displacementBwd heatmaps
                      part).scores],
              out.poseKeypointCoords
                ++ [(decodeInstanceF F chain offsets displacementFwd displacementBwd heatmaps
                      part).coords]⟩
          exact ⟨(decodeInstanceF F chain offsets displacementFwd displacementBwd heatmaps
            part).coords :: ext, by rw [h]; exact List.append_assoc _ _ _⟩
        · exact ih _ _

theorem backwardEdgeF_eq_propagateStep (F : Arith) (heatmaps offsets displacementBwd : Tensor)
    (chain : Chain) (edge : Nat) (inst : Instance) :
    backwardEdgeF F heatmaps offsets displacementBwd chain edge inst
      = propagateStepF F heatmaps offsets displacementBwd edge (chain.getD edge (0, 0)).2
          (chain.getD edge (0, 0)).1 inst := rfl

theorem forwardEdgeF_eq_propagateStep (F : Arith) (heatmaps offsets displacementFwd : Tensor)
    (chain : Chain) (edge : Nat) (inst : Instance) :
    forwardEdgeF F heatmaps offsets displacementFwd chain edge inst
      = propagateStepF F heatmaps offsets displacementFwd edge (chain.getD edge (0, 0)).1
          (chain.getD edge (0, 0)).2 inst := rfl

theorem propagateStepF_of_ne (F : Arith) (heatmaps offsets D : Tensor) (edge source target : Nat)
    (inst : Instance) (k : Nat) (hk : inst.scores.getD k 0 ≠ 0) :
    (propagateStepF F heatmaps offsets D edge source target inst).scores.getD k 0
        = inst.scores.getD k 0
      ∧ (propagateStepF F heatmaps offsets D edge source target inst).coords.getD k default
        = inst.coords.getD k default := by
  unfold propagateStepF
  split
  · rename_i h
    have hne : k ≠ target := fun e => hk (e ▸ h.2)
    exact ⟨getD_set_ne _ _ _ _ _ hne, getD_set_ne _ _ _ _ _ hne⟩
  · exact ⟨rfl, rfl⟩

theorem backwardLoopF_of_ne (F : Arith) (heatmaps offsets displacementBwd : Tensor) (chain : Chain)
    (n : Nat) (inst : Instance) (k : Nat) (hk : inst.scores.getD k 0 ≠ 0) :
    (backwardLoopF F heatmaps offsets displacementBwd chain n inst).scores.getD k 0
        = inst.scores.getD k 0
      ∧ (backwardLoopF F heatmaps offsets displacementBwd chain n inst).coords.getD k default
        = inst.coords.getD k default := by
  induction n generalizing inst with
  | zero => exact ⟨rfl, rfl⟩
  | succ n ih =>
    have h := propagateStepF_of_ne F heatmaps offsets displacementBwd n (chain.getD n (0, 0)).2
      (chain.getD n (0, 0)).1 inst k hk
    rw [← backwardEdgeF_eq_propagateStep F] at h
    have h' := ih (backwardEdgeF F heatmaps offsets displacementBwd chain n inst) (by rw [h.1]; exact hk)
    rw [backwardLoopF]
    exact ⟨h'.1.trans h.1, h'.2.trans h.2⟩

theorem forwardLoopF_of_ne (F : Arith) (heatmaps offsets displacementFwd : Tensor) (chain : Chain)
    (n edge : Nat) (inst : Instance) (k : Nat) (hk : inst.scores.getD k 0 ≠ 0) :
    (forwardLoopF F heatmaps offsets displacementFwd chain n edge inst).scores.getD k 0
        = inst.scores.getD k 0
      ∧ (forwardLoopF F heatmaps offsets displacementFwd chain n edge inst).coords.getD k default
        = inst.coords.getD k default := by
  induction n generalizing edge inst with
  | zero => exact ⟨rfl, rfl⟩
  | succ n ih =>
    have h := propagateStepF_of_ne F heatmaps offsets displacementFwd edge
      (chain.getD edge (0, 0)).1 (chain.getD edge (0, 0)).2 inst k hk
    rw [← forwardEdgeF_eq_propagateStep F] at h
    have h' := ih (edge + 1) (forwardEdgeF F heatmaps offsets displacementFwd chain edge inst)
      (by rw [h.1]; exact hk)
    rw [forwardLoopF]
    exact ⟨h'.1.trans h.1, h'.2.trans h.2⟩

theorem decodePoseImplF_seed (F : Arith) (chain : Chain) (curScore : ℚ) (curId : Nat) (p : Point)
    (heatmaps offsets displacementFwd displacementBwd : Tensor) (inst : Instance)
    (hs : curScore ≠ 0) (h1 : curId < inst.scores.length) (h2 : curId < inst.coords.length) :
    (decodePoseImplF F chain curScore curId p heatmaps offsets displacementFwd displacementBwd
        inst).scores.getD curId 0 = curScore
      ∧ (decodePoseImplF F chain curScore curId p heatmaps offsets displacementFwd displacementBwd
        inst).coords.getD curId default = p := by
  unfold decodePoseImplF
  simp only []
  have a1 : (inst.scores.set curId curScore).getD curId 0 = curScore := getD_set_eq _ _ _ _ h1
  have a2 : (inst.coords.set curId p).getD curId default = p := getD_set_eq _ _ _ _ h2
  have b := backwardLoopF_of_ne F heatmaps offsets displacementBwd chain chain.length
    ⟨inst.scores.set curId curScore, inst.coords.set curId p⟩ curId (by rw [a1]; exact hs)
  have c := forwardLoopF_of_ne F heatmaps offsets displacementFwd chain chain.length 0
    (backwardLoopF F heatmaps offsets displacementBwd chain chain.length
      ⟨inst.scores.set curId curScore, inst.coords.set curId p⟩) curId
    (by rw [b.1, a1]; exact hs)
  exact ⟨c.1.trans (b.1.trans a1), c.2.trans (b.2.trans a2)⟩

/-! ## Separation of the accepted poses in `float` arithmetic -/

/-- C12, amended: in the arithmetic `F` of the type `float`, for two accepted poses
`i < j` and a keypoint type `t`, if the overlap test of the program holds between the
coordinates of keypoint `t` of the two poses in the model space (before the final
scaling), that is if the sum of the squares of their coordinate differences computed
in `F` is at most 400, then keypoint `t` of pose `j` was within the NMS radius when
pose `j` was scored and its score was not added to the sum of pose `j`. The returned
score of pose `j` is the quotient by 17 of that sum. -/
theorem nms_separation_float (F : Arith) (sort : List Part → List Part) (chain : Chain)
    (offsets displacementFwd displacementBwd heatmaps : Tensor) (scale : Point) (i j t : Nat)
    (hij : i < j)
    (hj : j < (acceptedPosesF F sort chain offsets displacementFwd displacementBwd
      heatmaps).poseKeypointCoords.length) :
    (overlapSum F
        (keypointAt (acceptedPosesF F sort chain offsets displacementFwd displacementBwd
          heatmaps).poseKeypointCoords i t)
        (keypointAt (acceptedPosesF F sort chain offsets displacementFwd displacementBwd
          heatmaps).poseKeypointCoords j t) ≤ 400 →
      withinNMSRadiusF F
          ((acceptedPosesF F sort chain offsets displacementFwd displacementBwd
            heatmaps).poseKeypointCoords.take j)
          (keypointAt (acceptedPosesF F sort chain offsets displacementFwd displacementBwd
            heatmaps).poseKeypointCoords j t) t = true
        ∧ ∀ acc : ℚ, addKeypoint F
            ((acceptedPosesF F sort chain offsets displacementFwd displacementBwd
              heatmaps).poseKeypointCoords.take j)
            ((acceptedPosesF F sort chain offsets displacementFwd displacementBwd
              heatmaps).poseKeypointScores.getD j [])
            ((acceptedPosesF F sort chain offsets displacementFwd displacementBwd
              heatmaps).poseKeypointCoords.getD j []) acc t = acc)
    ∧ (decodeMultiPoseF F sort chain offsets displacementFwd displacementBwd heatmaps
          emptyPoseSet scale).poseScores.getD j 0
        = F.div ((List.range 17).foldl (addKeypoint F
            ((acceptedPosesF F sort chain offsets displacementFwd displacementBwd
              heatmaps).poseKeypointCoords.take j)
            ((acceptedPosesF F sort chain offsets displacementFwd displacementBwd
              heatmaps).poseKeypointScores.getD j [])
            ((acceptedPosesF F sort chain offsets displacementFwd displacementBwd
              heatmaps).poseKeypointCoords.getD j [])) 0) 17 := by
  have hok := decodeLoopF_acceptedOk F chain offsets displacementFwd displacementBwd heatmaps
    (sort (extractParts heatmaps)) 0 emptyPoseSet (acceptedOkF_empty F)
  constructor
  · intro hd
    have hov : OverlapsF F
        ((acceptedPosesF F sort chain offsets displacementFwd displacementBwd
          heatmaps).poseKeypointCoords.take j)
        (keypointAt (acceptedPosesF F sort chain offsets displacementFwd displacementBwd
          heatmaps).poseKeypointCoords j t) t :=
      ⟨(acceptedPosesF F sort chain offsets displacementFwd displacementBwd
          heatmaps).poseKeypointCoords.getD i [],
        getD_mem_take _ i j [] hij (by omega), hd⟩
    refine ⟨(withinNMSRadiusF_eq_true_iff F _ _ _).mpr hov, ?_⟩
    intro acc
    unfold addKeypoint
    exact if_pos hov
  · have hj' : j < (decodeLoopF F chain offsets displacementFwd displacementBwd heatmaps
        (sort (extractParts heatmaps)) 0 emptyPoseSet).2.poseScores.length := by
      have : j < (decodeLoopF F chain offsets displacementFwd displacementBwd heatmaps
        (sort (extractParts heatmaps)) 0 emptyPoseSet).2.poseKeypointCoords.length := hj
      rw [hok.2.1] at this
      exact this
    have h := (hok.2.2 j hj').2
    rw [getInstanceScoreF_eq] at h
    exact h

theorem leafPoses_float :
    acceptedPosesF float32 id poseChain leafOffsets (constTensor 32 1 3 0) (constTensor 32 1 3 0)
        (constTensor 17 1 3 (3 / 4))
      = ⟨[3 / 4, 9622227 / 16777216],
          [List.replicate 17 (3 / 4), List.replicate 17 (3 / 4)],
          [List.replicate 17 ⟨0, 0⟩, leafCoords]⟩ := by
  decide!

theorem leafPoses_float_two :
    1 < (acceptedPosesF float32 id poseChain leafOffsets (constTensor 32 1 3 0)
        (constTensor 32 1 3 0) (constTensor 17 1 3 (3 / 4))).poseKeypointCoords.length := by
  rw [leafPoses_float]
  decide

theorem leafPoses_float_close :
    overlapSum float32
        (keypointAt (acceptedPosesF float32 id poseChain leafOffsets (constTensor 32 1 3 0)
          (constTensor 32 1 3 0) (constTensor 17 1 3 (3 / 4))).poseKeypointCoords 0 9)
        (keypointAt (acceptedPosesF float32 id poseChain leafOffsets (constTensor 32 1 3 0)
          (constTensor 32 1 3 0) (constTensor 17 1 3 (3 / 4))).poseKeypointCoords 1 9) ≤ 400 := by
  rw [leafPoses_float]
  decide!

/-- Witness of the amended C12 in binary32: with `leafOffsets` and the heatmap 0.75
the keypoints of type 9 of the two accepted poses are both at (0, 0) in the model
space; keypoint 9 of the second pose has the score 0.75, which was not added to the
sum of the pose: the sum is 13 times 0.75 and the returned score its quotient by 17,
rounded. -/
theorem nms_separation_float_witness :
    1 < (acceptedPosesF float32 id poseChain leafOffsets (constTensor 32 1 3 0)
        (constTensor 32 1 3 0) (constTensor 17 1 3 (3 / 4))).poseKeypointCoords.length
    ∧ overlapSum float32
        (keypointAt (acceptedPosesF float32 id poseChain leafOffsets (constTensor 32 1 3 0)
          (constTensor 32 1 3 0) (constTensor 17 1 3 (3 / 4))).poseKeypointCoords 0 9)
        (keypointAt (acceptedPosesF float32 id poseChain leafOffsets (constTensor 32 1 3 0)
          (constTensor 32 1 3 0) (constTensor 17 1 3 (3 / 4))).poseKeypointCoords 1 9) ≤ 400
    ∧ (withinNMSRadiusF float32
          ((acceptedPosesF float32 id poseChain leafOffsets (constTensor 32 1 3 0)
            (constTensor 32 1 3 0) (constTensor 17 1 3 (3 / 4))).poseKeypointCoords.take 1)
          (keypointAt (acceptedPosesF float32 id poseChain leafOffsets (constTensor 32 1 3 0)
            (constTensor 32 1 3 0) (constTensor 17 1 3 (3 / 4))).poseKeypointCoords 1 9) 9 = true
      ∧ ∀ acc : ℚ, addKeypoint float32
          ((acceptedPosesF float32 id poseChain leafOffsets (constTensor 32 1 3 0)
            (constTensor 32 1 3 0) (constTensor 17 1 3 (3 / 4))).poseKeypointCoords.take 1)
          ((acceptedPosesF float32 id poseChain leafOffsets (constTensor 32 1 3 0)
            (constTensor 32 1 3 0) (constTensor 17 1 3 (3 / 4))).poseKeypointScores.getD 1 [])
          ((acceptedPosesF float32 id poseChain leafOffsets (constTensor 32 1 3 0)
            (constTensor 32 1 3 0) (constTensor 17 1 3 (3 / 4))).poseKeypointCoords.getD 1 [])
          acc 9 = acc) :=
  ⟨leafPoses_float_two, leafPoses_float_close,
    (nms_separation_float float32 id poseChain leafOffsets (constTensor 32 1 3 0)
      (constTensor 32 1 3 0) (constTensor 17 1 3 (3 / 4)) ⟨1, 1⟩ 0 1 9 (by decide)
      leafPoses_float_two).1 leafPoses_float_close⟩

/-! ## Suppression of a seed next to an accepted pose in `float` arithmetic -/

/-- C15, amended: in the arithmetic `F` of the type `float`, let the sorted
candidates contain a candidate `A` and, with a strictly lower score, a candidate `B`
of the same keypoint type for which the overlap test of the program holds between
the seed of `A` and the seed of `B`: the sum of the squares of their coordinate
differences computed in `F` is at most 400. If `A` is reached by the loop, passes the
seed test and its instance is accepted, its score computed in `F` being greater than
0.25, then `B` comes after `A`, the seed test answers true for `B` (so that no
propagation is run for it and it adds no pose), and the loop ends in the state in
which it ends without `B`. -/
theorem seed_suppression_float (F : Arith) (sort : List Part → List Part) (chain : Chain)
    (offsets displacementFwd displacementBwd heatmaps : Tensor) (A B : Part)
    (pre1 post : List Part)
    (hsorted : (sort (extractParts heatmaps)).Pairwise (fun p q => p.score ≥ q.score))
    (hperm : (sort (extractParts heatmaps)).Perm (extractParts heatmaps))
    (hc : heatmaps.channel = 17)
    (hB : B ∈ extractParts heatmaps) (hscore : A.score > B.score) (hid : A.id = B.id)
    (hd : overlapSum F (seedCoordsF F offsets A) (seedCoordsF F offsets B) ≤ 400)
    (hsplit : sort (extractParts heatmaps) = pre1 ++ A :: post)
    (hreach : (decodeLoopF F chain offsets displacementFwd displacementBwd heatmaps pre1 0
      emptyPoseSet).1 < MAX_POSE_DETECTIONS)
    (hnot : withinNMSRadiusF F
      (decodeLoopF F chain offsets displacementFwd displacementBwd heatmaps pre1 0
        emptyPoseSet).2.poseKeypointCoords (seedCoordsF F offsets A) A.id = false)
    (hacc : getInstanceScoreF F
      (decodeLoopF F chain offsets displacementFwd displacementBwd heatmaps pre1 0
        emptyPoseSet).2.poseKeypointCoords
      (decodeInstanceF F chain offsets displacementFwd displacementBwd heatmaps A).scores
      (decodeInstanceF F chain offsets displacementFwd displacementBwd heatmaps A).coords
      > MIN_POSE_SCORE) :
    ∃ pre2 rest, post = pre2 ++ B :: rest
      ∧ withinNMSRadiusF F
          (decodeLoopF F chain offsets displacementFwd displacementBwd heatmaps
            (pre1 ++ A :: pre2) 0 emptyPoseSet).2.poseKeypointCoords
          (seedCoordsF F offsets B) B.id = true
      ∧ decodeLoopF F chain offsets displacementFwd displacementBwd heatmaps
          (sort (extractParts heatmaps)) 0 emptyPoseSet
        = decodeLoopF F chain offsets displacementFwd displacementBwd heatmaps
          (pre1 ++ A :: (pre2 ++ rest)) 0 emptyPoseSet := by
  have hBs : B ∈ sort (extractParts heatmaps) := hperm.mem_iff.mpr hB
  obtain ⟨pre2, rest, hpost⟩ := exists_split_after _ pre1 post A B hsorted hsplit hBs hscore
  refine ⟨pre2, rest, hpost, ?_⟩
  -- the candidate `A` is a candidate of the heatmap: its type is below 17, its score not 0
  have hA : A ∈ extractParts heatmaps := by
    apply hperm.mem_iff.mp
    rw [hsplit]
    exact List.mem_append_right _ (List.mem_cons_self _ _)
  rw [mem_extractParts] at hA
  obtain ⟨id, y, x, hidlt, -, -, hAeq, hge, -⟩ := hA
  have hAid : A.id < 17 := by rw [hAeq]; show id < 17; omega
  have hAscore : A.score ≠ 0 := by
    rw [hAeq]
    show heatmaps.read id y x ≠ 0
    intro h0
    rw [h0] at hge
    norm_num at hge
  have hseedA : (decodeInstanceF F chain offsets displacementFwd displacementBwd heatmaps
      A).coords.getD A.id default = seedCoordsF F offsets A :=
    (decodePoseImplF_seed F chain A.score A.id (seedCoordsF F offsets A) heatmaps offsets
      displacementFwd displacementBwd zeroInstance hAscore
      (by show A.id < (List.replicate NUM_KEYPOINTS (0 : ℚ)).length
          rw [List.length_replicate]; exact hAid)
      (by show A.id < (List.replicate NUM_KEYPOINTS (⟨0, 0⟩ : Point)).length
          rw [List.length_replicate]; exact hAid)).2
  -- the state after `A`
  have hstepA : ∀ tail : List Part,
      decodeLoopF F chain offsets displacementFwd displacementBwd heatmaps (pre1 ++ A :: tail) 0
          emptyPoseSet
        = decodeLoopF F chain offsets displacementFwd displacementBwd heatmaps tail
            ((decodeLoopF F chain offsets displacementFwd displacementBwd heatmaps pre1 0
              emptyPoseSet).1 + 1)
            ⟨(decodeLoopF F chain offsets displacementFwd displacementBwd heatmaps pre1 0
                emptyPoseSet).2.poseScores
              ++ [getInstanceScoreF F
                (decodeLoopF F chain offsets displacementFwd displacementBwd heatmaps pre1 0
                  emptyPoseSet).2.poseKeypointCoords
                (decodeInstanceF F chain offsets displacementFwd displacementBwd heatmaps A).scores
                (decodeInstanceF F chain offsets displacementFwd displacementBwd heatmaps A).coords],
              (decodeLoopF F chain offsets displacementFwd displacementBwd heatmaps pre1 0
                emptyPoseSet).2.poseKeypointScores
              ++ [(decodeInstanceF F chain offsets displacementFwd displacementBwd heatmaps A).scores],
              (decodeLoopF F chain offsets displacementFwd displacementBwd heatmaps pre1 0
                emptyPoseSet).2.poseKeypointCoords
              ++ [(decodeInstanceF F chain offsets displacementFwd displacementBwd heatmaps
                    A).coords]⟩ := by
    intro tail
    rw [decodeLoopF_append F, decodeLoopF_cons F, if_neg (by omega), hnot]
    rw [if_neg (by decide), if_pos hacc]
  have hwithin : withinNMSRadiusF F
      (decodeLoopF F chain offsets displacementFwd displacementBwd heatmaps (pre1 ++ A :: pre2) 0
        emptyPoseSet).2.poseKeypointCoords (seedCoordsF F offsets B) B.id = true := by
    rw [hstepA pre2]
    obtain ⟨ext, hext⟩ := decodeLoopF_coords_append F chain offsets displacementFwd displacementBwd
      heatmaps pre2 _ _
    rw [hext, withinNMSRadiusF_eq_true_iff F]
    refine ⟨(decodeInstanceF F chain offsets displacementFwd displacementBwd heatmaps A).coords,
      ?_, ?_⟩
    · simp
    · rw [← hid, hseedA]
      exact hd
  refine ⟨hwithin, ?_⟩
  rw [hsplit, hpost]
  have e1 : pre1 ++ A :: (pre2 ++ B :: rest) = (pre1 ++ A :: pre2) ++ B :: rest := by simp
  have e2 : pre1 ++ A :: (pre2 ++ rest) = (pre1 ++ A :: pre2) ++ rest := by simp
  rw [e1, e2, decodeLoopF_append F, decodeLoopF_append F _ _ _ _ _ (pre1 ++ A :: pre2) rest,
    decodeLoopF_cons F]
  by_cases hfull : (decodeLoopF F chain offsets displacementFwd displacementBwd heatmaps
      (pre1 ++ A :: pre2) 0 emptyPoseSet).1 ≥ MAX_POSE_DETECTIONS
  · rw [if_pos hfull, decodeLoopF_of_full F _ _ _ _ _ rest _ _ hfull]
  · rw [if_neg hfull, if_pos hwithin]

/-- Witness of the amended C15 in binary32, on `twoSeedsHeatmapF` with
`closeSeedOffsets`: the candidate of type 0 and score 0.75 at column 0 is the first
of the sorted candidates and its instance is accepted; the candidate of type 0 and
score 0.625 at column 2, whose seed (24, 0) is 16 pixels from the seed (8, 0), is
skipped by the seed test. -/
theorem seed_suppression_float_witness :
    (⟨0, 5 / 8, ⟨2, 0⟩⟩ : Part) ∈ extractParts twoSeedsHeatmapF
    ∧ overlapSum float32 (seedCoordsF float32 closeSeedOffsets ⟨0, 3 / 4, ⟨0, 0⟩⟩)
        (seedCoordsF float32 closeSeedOffsets ⟨0, 5 / 8, ⟨2, 0⟩⟩) ≤ 400
    ∧ ∃ pre2 rest, (sortByScore (extractParts twoSeedsHeatmapF)).tail
          = pre2 ++ (⟨0, 5 / 8, ⟨2, 0⟩⟩ : Part) :: rest
      ∧ withinNMSRadiusF float32
          (decodeLoopF float32 poseChain closeSeedOffsets (constTensor 32 1 3 0)
            (constTensor 32 1 3 0) twoSeedsHeatmapF ([] ++ (⟨0, 3 / 4, ⟨0, 0⟩⟩ : Part) :: pre2) 0
            emptyPoseSet).2.poseKeypointCoords
          (seedCoordsF float32 closeSeedOffsets ⟨0, 5 / 8, ⟨2, 0⟩⟩)
          (⟨0, 5 / 8, ⟨2, 0⟩⟩ : Part).id = true
      ∧ decodeLoopF float32 poseChain closeSeedOffsets (constTensor 32 1 3 0)
          (constTensor 32 1 3 0) twoSeedsHeatmapF (sortByScore (extractParts twoSeedsHeatmapF)) 0
          emptyPoseSet
        = decodeLoopF float32 poseChain closeSeedOffsets (constTensor 32 1 3 0)
          (constTensor 32 1 3 0) twoSeedsHeatmapF
          ([] ++ (⟨0, 3 / 4, ⟨0, 0⟩⟩ : Part) :: (pre2 ++ rest)) 0 emptyPoseSet :=
  ⟨by decide!, by decide!,
    seed_suppression_float float32 sortByScore poseChain closeSeedOffsets (constTensor 32 1 3 0)
      (constTensor 32 1 3 0) twoSeedsHeatmapF ⟨0, 3 / 4, ⟨0, 0⟩⟩ ⟨0, 5 / 8, ⟨2, 0⟩⟩ []
      (sortByScore (extractParts twoSeedsHeatmapF)).tail
      (by decide!) (List.perm_insertionSort _ _) rfl (by decide!) (by decide!) rfl (by decide!)
      (by decide!) (by decide) (by decide!) (by decide!)⟩

/-! ## The decoder in exact arithmetic as an instance

With the arithmetic `exactArith` the functions in `float` arithmetic are the
functions of the exact embedding. -/

theorem withinNMSRadiusF_exactArith (accepted : List (List Point)) (point : Point) (id : Nat) :
    withinNMSRadiusF exactArith accepted point id = withinNMSRadius accepted point id := by
  induction accepted with
  | nil => rfl
  | cons cur rest ih =>
    unfold withinNMSRadiusF withinNMSRadius
    simp only [ih]
    rfl

theorem sumAllScoresF_exactArith (scores : List ℚ) (n i : Nat) (acc : ℚ) :
    sumAllScoresF exactArith scores n i acc = sumAllScores scores n i acc := by
  induction n generalizing i acc with
  | zero => rfl
  | succ n ih =>
    unfold sumAllScoresF sumAllScores
    rw [ih]
    rfl

theorem sumNotOverlappedF_exactArith (accepted : List (List Point)) (scores : List ℚ)
    (coords : List Point) (n i : Nat) (acc : ℚ) :
    sumNotOverlappedF exactArith accepted scores coords n i acc
      = sumNotOverlapped accepted scores coords n i acc := by
  induction n generalizing i acc with
  | zero => rfl
  | succ n ih =>
    unfold sumNotOverlappedF sumNotOverlapped
    rw [ih, withinNMSRadiusF_exactArith]
    rfl

theorem getInstanceScoreF_exactArith (accepted : List (List Point)) (scores : List ℚ)
    (coords : List Point) :
    getInstanceScoreF exactArith accepted scores coords
      = getInstanceScore accepted scores coords := by
  unfold getInstanceScoreF getInstanceScore
  simp only [sumAllScoresF_exactArith, sumNotOverlappedF_exactArith]
  rfl

theorem traverseToTargetKeypointF_exactArith (heatmaps offsets : Tensor) (edgeId : Int)
    (s : Point) (targetKeypointId : Int) (displacement : Tensor) :
    traverseToTargetKeypointF exactArith heatmaps offsets edgeId s targetKeypointId displacement
      = traverseToTargetKeypoint heatmaps offsets edgeId s targetKeypointId displacement := rfl

theorem backwardLoopF_exactArith (heatmaps offsets displacementBwd : Tensor) (chain : Chain)
    (n : Nat) (inst : Instance) :
    backwardLoopF exactArith heatmaps offsets displacementBwd chain n inst
      = backwardLoop heatmaps offsets displacementBwd chain n inst := by
  induction n generalizing inst with
  | zero => rfl
  | succ n ih =>
    unfold backwardLoopF backwardLoop
    rw [ih]
    rfl

theorem forwardLoopF_exactArith (heatmaps offsets displacementFwd : Tensor) (chain : Chain)
    (n edge : Nat) (inst : Instance) :
    forwardLoopF exactArith heatmaps offsets displacementFwd chain n edge inst
      = forwardLoop heatmaps offsets displacementFwd chain n edge inst := by
  induction n generalizing edge inst with
  | zero => rfl
  | succ n ih =>
    unfold forwardLoopF forwardLoop
    rw [ih]
    rfl

theorem decodePoseImplF_exactArith (chain : Chain) (curScore : ℚ) (curId : Nat) (p : Point)
    (heatmaps offsets displacementFwd displacementBwd : Tensor) (inst : Instance) :
    decodePoseImplF exactArith chain curScore curId p heatmaps offsets displacementFwd
        displacementBwd inst
      = decodePoseImpl chain curScore curId p heatmaps offsets displacementFwd displacementBwd
          inst := by
  unfold decodePoseImplF decodePoseImpl
  simp only [backwardLoopF_exactArith, forwardLoopF_exactArith]

theorem seedCoordsF_exactArith (offsets : Tensor) (part : Part) :
    seedCoordsF exactArith offsets part = seedCoords offsets part := rfl

theorem decodeInstanceF_exactArith (chain : Chain)
    (offsets displacementFwd displacementBwd heatmaps : Tensor) (part : Part) :
    decodeInstanceF exactArith chain offsets displacementFwd displacementBwd heatmaps part
      = decodeInstance chain offsets displacementFwd displacementBwd heatmaps part := by
  unfold decodeInstanceF decodeInstance
  rw [decodePoseImplF_exactArith, seedCoordsF_exactArith]

theorem decodeLoopF_exactArith (chain : Chain)
    (offsets displacementFwd displacementBwd heatmaps : Tensor) (parts : List Part)
    (poseCount : Nat) (out : PoseSet) :
    decodeLoopF exactArith chain offsets displacementFwd displacementBwd heatmaps parts poseCount
        out
      = decodeLoop chain offsets displacementFwd displacementBwd heatmaps parts poseCount out := by
  induction parts generalizing poseCount out with
  | nil => rfl
  | cons part rest ih =>
    rw [decodeLoopF_cons, decodeLoop_cons]
    simp only [ih, withinNMSRadiusF_exactArith, seedCoordsF_exactArith,
      getInstanceScoreF_exactArith, decodeInstanceF_exactArith]

theorem scaleKeypointsF_exactArith (scale : Point) (i remaining id : Nat)
    (coords : List (List Point)) :
    scaleKeypointsF exactArith scale i remaining id coords
      = scaleKeypoints scale i remaining id coords := by
  induction remaining generalizing id coords with
  | zero => rfl
  | succ n ih =>
    unfold scaleKeypointsF scaleKeypoints
    simp only [ih]
    rfl

theorem scalePosesF_exactArith (scale : Point) (remaining i : Nat) (coords : List (List Point)) :
    scalePosesF exactArith scale remaining i coords = scalePoses scale remaining i coords := by
  induction remaining generalizing i coords with
  | zero => rfl
  | succ n ih =>
    unfold scalePosesF scalePoses
    rw [ih, scaleKeypointsF_exactArith]

theorem decodeMultiPoseF_exactArith (sort : List Part → List Part) (chain : Chain)
    (offsets displacementFwd displacementBwd heatmaps : Tensor) (out : PoseSet) (scale : Point) :
    decodeMultiPoseF exactArith sort chain offsets displacementFwd displacementBwd heatmaps out
        scale
      = decodeMultiPose sort chain offsets displacementFwd displacementBwd heatmaps out scale := by
  unfold decodeMultiPoseF decodeMultiPose
  simp only [decodeLoopF_exactArith, scalePosesF_exactArith]

end MultiPose
